import Mathlib

/-!
# Devenir: ray picking, correspondence lists, views and the algorithm state machine

A shallow embedding of `src/app/main.cc`.

Conventions of the embedding

* `float` and `double` values that the code only compares (`t`, pixel
  distances, barycentric coordinates) are rationals; `FLT_MAX` and `DBL_MAX` are the
  exact values of `std::numeric_limits<..>::max()`.
* `~0u` is `4294967295`, also when it is stored in a `size_t`.
* A mesh pointer `g_meshes[k]` is identified with its position `k`: every pointer in
  `g_meshes` comes from its own `RenderableMesh::Create()` in `LoadMesh`, so the maps
  keyed by mesh pointer are functions of the mesh index.
* What a view obtains from the renderer and the camera (visibility flags, ray
  intersection lists, the front-most mesh at a world point, projected pixel
  distances) is a field of `SplitViewInfo`, read at the cursor position of the event
  being handled.
* The data members of a view and the state of its camera are the structure
  `SplitViewFields`. The functions `cos` and `sin`, the constant `ugu::pi` and the method
  `Eigen::Affine3d::rotation()` are fields of `MathExternals`; the conversions of Eigen
  between angle-axis, quaternion and matrix are written out.
* Window sizes and the view count are natural numbers.
* `GetPos` is given twice: over the rationals, where no operation rounds, and as
  `GetPosF32`, with every operation of the code rounded to binary32 (`roundF32`).
* The result `none` of a function of the worker or of a handler stands for undefined
  behaviour of the code (an index out of range, `back()` of an empty vector): the
  embedding has no final state there, and nothing is said on what the program does.
* `ProgramStep` is the program on the job globals: the UI actions of a frame, with the
  Run buttons behind the modal popups of ImGui, and the phases of the worker.
-/

namespace Devenir

/-! ## Constants -/

/-- The value of `~0u`, the "none" marker for mesh and point indices. -/
def NONE_ID : Nat := 4294967295

/-- The value of `std::numeric_limits<float>::max()`. -/
def FLT_MAX : ℚ := 340282346638528859811704183484516925440

/-- The value of `std::numeric_limits<double>::max()`, that is `2^1024 - 2^971`. -/
def DBL_MAX : ℚ :=
  179769313486231570814527423731704356798070567525844996598917476803157260780028538760589558632766878171540458953514382464234321326889464182768467546703537516986049910576551282076245490090389328944075868508455133942304583236903222948165808559332123348274797826204144723168738177180919299881250404026184124858368

/-- Pixel threshold `g_drag_point_pix_dist_th` (line 57). -/
def g_drag_point_pix_dist_th : ℚ := 20

/-! ## Data model of the picking code -/

/-- The fields of `ugu::IntersectResult` that `main.cc` reads and writes. -/
structure IntersectResult where
  fid : Nat
  u : ℚ
  v : ℚ
  t : ℚ
deriving DecidableEq

/-- Struct `CastRayResult` (lines 80-83). -/
structure CastRayResult where
  min_geoid : Nat
  intersection : IntersectResult
deriving DecidableEq

/-- What the picking code reads of a `SplitViewInfo` through its renderer and camera,
at the cursor position of the event being handled. -/
structure SplitViewInfo where
  /-- Result of `renderer->GetVisibility(g_meshes[k])`. -/
  visibility : Nat → Bool
  /-- Result of `renderer->GetMeshId(g_meshes[k])`. -/
  mesh_id : Nat → Nat
  /-- Entry `geoid` of `renderer->Intersect(ray)` for the cursor ray. -/
  results_all : Nat → List IntersectResult
  /-- First component of `renderer->TestVisibility(GetPos(p))`. -/
  front_id : CastRayResult → Nat
  /-- Value of `(p_gl_frag - cursor_pos).norm()` for the projection of `GetPos(p)`. -/
  pix_dist : CastRayResult → ℚ

/-- The map `g_selected_positions`: `none` where the mesh has no key. -/
abbrev SelectedPositions := Nat → Option (List CastRayResult)

/-- Value of `g_selected_positions[g_meshes[k]]` (a missing key reads as an empty vector). -/
def pointsOf (sel : SelectedPositions) (k : Nat) : List CastRayResult :=
  (sel k).getD []

/-! ## `SplitViewInfo::CastRay` (lines 546-598) -/

/-- Initial value of the running minimum in `CastRay`: `min_geoid = ~0u`, a
default-constructed `IntersectResult` `d0` whose `t` is set to `FLT_MAX` (lines 562-565). -/
def castRayInit (d0 : IntersectResult) : CastRayResult :=
  ⟨NONE_ID, { d0 with t := FLT_MAX }⟩

/-- One iteration of the loop over `geoid` (lines 574-586). -/
def castRayStep (view : SplitViewInfo) (acc : CastRayResult) (geoid : Nat) : CastRayResult :=
  if view.visibility geoid = false then acc
  else
    match view.results_all geoid with
    | [] => acc
    | r :: _ => if r.t < acc.intersection.t then ⟨geoid, r⟩ else acc

/-- The function `CastRay` with `n = g_meshes.size()`. -/
def CastRay (d0 : IntersectResult) (n : Nat) (view : SplitViewInfo) : CastRayResult :=
  (List.range n).foldl (castRayStep view) (castRayInit d0)

/-- Mesh `k` is visible in the view and the first element of its result list is `r`. -/
def FirstHit (view : SplitViewInfo) (k : Nat) (r : IntersectResult) : Prop :=
  view.visibility k = true ∧ (view.results_all k).head? = some r

/-! ## `SplitViewInfo::FindClosestSelectedPoint` (lines 600-656) -/

/-- The tuple returned by `FindClosestSelectedPoint`:
`(!not_close, min_geoid, closest_selected_id, min_dist)`. -/
structure Closest where
  is_close : Bool
  min_geoid : Nat
  closest_selected_id : Nat
  min_dist : ℚ
deriving DecidableEq

/-- Initial values of the locals (lines 601-604). -/
def closestInit : Closest := ⟨false, NONE_ID, NONE_ID, DBL_MAX⟩

/-- One iteration of the inner loop over the points `i` of mesh `k` (lines 618-651);
`static_cast<uint32_t>(k)` is `k % 2^32`. -/
def closestPointStep (view : SplitViewInfo) (k : Nat) (points : List CastRayResult)
    (acc : Closest) (i : Nat) : Closest :=
  match points[i]? with
  | none => acc
  | some p =>
    if view.front_id p = NONE_ID then acc
    else if view.mesh_id k ≠ view.front_id p then acc
    else if view.pix_dist p < g_drag_point_pix_dist_th ∧ view.pix_dist p < acc.min_dist then
      ⟨true, k % 4294967296, i, view.pix_dist p⟩
    else acc

/-- One iteration of the outer loop over the meshes `k` (lines 610-652). -/
def closestMeshStep (view : SplitViewInfo) (sel : SelectedPositions)
    (acc : Closest) (k : Nat) : Closest :=
  match sel k with
  | none => acc
  | some points =>
    if view.visibility k = false then acc
    else (List.range points.length).foldl (closestPointStep view k points) acc

/-- The function `FindClosestSelectedPoint` with `n = g_meshes.size()`. -/
def FindClosestSelectedPoint (n : Nat) (sel : SelectedPositions) (view : SplitViewInfo) :
    Closest :=
  (List.range n).foldl (closestMeshStep view sel) closestInit

/-- Point `i` of mesh `k` is `p` and it reaches the distance test of
`FindClosestSelectedPoint`: the mesh has a list and is visible, and the front-most mesh
at the point is the point's own mesh. -/
def Candidate (sel : SelectedPositions) (view : SplitViewInfo) (k i : Nat)
    (p : CastRayResult) : Prop :=
  (∃ points, sel k = some points ∧ points[i]? = some p) ∧ view.visibility k = true ∧
    view.front_id p ≠ NONE_ID ∧ view.mesh_id k = view.front_id p

/-- Order of the two nested loops: `(k', i')` is visited before `(k, i)`. -/
def Before (k' i' k i : Nat) : Prop := k' < k ∨ (k' = k ∧ i' < i)

/-- Loop invariant of `FindClosestSelectedPoint`, for the set `P` of the pairs
(mesh, point index) visited so far: either nothing was accepted and every visited
candidate is at least the threshold away, or the accumulator holds the first visited
candidate of smallest distance, which is below the threshold. -/
def ClosestInv (sel : SelectedPositions) (view : SplitViewInfo) (P : Nat → Nat → Prop)
    (acc : Closest) : Prop :=
  (acc = closestInit ∧
      ∀ k i p, P k i → Candidate sel view k i p → g_drag_point_pix_dist_th ≤ view.pix_dist p) ∨
    (∃ k i p, P k i ∧ Candidate sel view k i p ∧
      acc = ⟨true, k % 4294967296, i, view.pix_dist p⟩ ∧
      view.pix_dist p < g_drag_point_pix_dist_th ∧
      ∀ k' i' q, P k' i' → Candidate sel view k' i' q →
        view.pix_dist p ≤ view.pix_dist q ∧
          (Before k' i' k i → view.pix_dist p < view.pix_dist q))

/-! ## Correspondence lists: the three list mutations of the handlers -/

/-- The entry satisfies the barycentric invariants `u ≥ 0`, `v ≥ 0`, `u + v ≤ 1`. -/
def ValidBary (r : CastRayResult) : Prop :=
  0 ≤ r.intersection.u ∧ 0 ≤ r.intersection.v ∧ r.intersection.u + r.intersection.v ≤ 1

/-- Effect of `points.push_back(result)` (line 745). -/
def pushBack (points : List CastRayResult) (result : CastRayResult) : List CastRayResult :=
  points ++ [result]

/-- Effect of `points[id] = result` (line 1033); `id` is an index located by
`FindClosestSelectedPoint`, hence an index of the list. -/
def assignAt (points : List CastRayResult) (id : Nat) (result : CastRayResult) :
    List CastRayResult :=
  points.set id result

/-- The clamp of the view's `selected_point_idx` for a mesh at the start of the points
panel (lines 1536-1545): a missing entry becomes `0`, an index at or beyond the list
length is reset to `0`. The index is only ever assigned `0` or a list position `n ≥ 0`,
so it is a natural number. -/
def clampSelectedIdx (selected_point_idx : Option Nat) (size : Nat) : Nat :=
  let idx := selected_point_idx.getD 0
  if idx ≥ size then 0 else idx

/-- The `Remove` button (lines 1574-1581) at an already clamped index. -/
def removeAt (points : List CastRayResult) (selected_point_idx : Nat) : List CastRayResult :=
  if points.length > selected_point_idx then points.eraseIdx selected_point_idx else points

/-- One operation on a mesh's correspondence list: the `push_back` of a right press,
the assignment of a right drag, or a press of `Remove` with the view's stored index. -/
inductive PointOp where
  | add (pick : CastRayResult)
  | move (id : Nat) (pick : CastRayResult)
  | remove (selected_point_idx : Option Nat)

/-- Effect of one operation on the list. -/
def applyOp (points : List CastRayResult) : PointOp → List CastRayResult
  | .add pick => pushBack points pick
  | .move id pick => assignAt points id pick
  | .remove idx => removeAt points (clampSelectedIdx idx points.length)

/-- Effect of a sequence of operations, in order. -/
def runOps (points : List CastRayResult) (ops : List PointOp) : List CastRayResult :=
  ops.foldl applyOp points

/-- Number of `add` operations of a sequence. -/
def countAdds : List PointOp → Nat
  | [] => 0
  | .add _ :: ops => countAdds ops + 1
  | _ :: ops => countAdds ops

/-- Number of `remove` operations of a sequence. -/
def countRemoves : List PointOp → Nat
  | [] => 0
  | .remove _ :: ops => countRemoves ops + 1
  | _ :: ops => countRemoves ops

/-- Number of `remove` operations of a sequence that are issued on a non-empty list,
when the sequence is run from `points`. -/
def countRemovesNonEmpty (points : List CastRayResult) : List PointOp → Nat
  | [] => 0
  | .remove idx :: ops =>
    countRemovesNonEmpty (applyOp points (.remove idx)) ops + (if points.length > 0 then 1 else 0)
  | op :: ops => countRemovesNonEmpty (applyOp points op) ops

/-- The picks carried by the `add` and `move` operations of a sequence. -/
def opPicks : List PointOp → List CastRayResult
  | [] => []
  | .add pick :: ops => pick :: opPicks ops
  | .move _ pick :: ops => pick :: opPicks ops
  | .remove _ :: ops => opPicks ops

/-! ## Input handlers -/

/-- GLFW mouse buttons. -/
inductive MouseButton where
  | LEFT
  | RIGHT
  | MIDDLE
deriving DecidableEq

/-- The globals of the input handlers that the picking code reads and writes. Cursor
positions are not stored: what the code computes from them is read from the view
(`SplitViewInfo`) of the event. -/
structure InputGlobals where
  g_mouse_l_pressed : Bool
  g_mouse_m_pressed : Bool
  g_mouse_r_pressed : Bool
  g_to_process_drag_l : Bool
  g_to_process_drag_m : Bool
  g_to_process_drag_r : Bool
  g_to_process_wheel : Bool
  g_subwindow_id : Nat
  g_prev_subwindow_id : Nat
  g_selected_positions : SelectedPositions

/-- The function `mouse_button_callback` (lines 704-771), `press` being
`action == GLFW_PRESS`, `n = g_meshes.size()`. The result is `none` when
`g_views[g_subwindow_id]` is out of range. The calls `AddSelectedPositions` only feed the
renderers. -/
def mouse_button_callback (d0 : IntersectResult) (n : Nat) (g_views : List SplitViewInfo)
    (button : MouseButton) (press : Bool) (s : InputGlobals) : Option InputGlobals :=
  match button with
  | .LEFT => some { s with g_mouse_l_pressed := press }
  | .MIDDLE => some { s with g_mouse_m_pressed := press }
  | .RIGHT =>
    let s1 := { s with g_mouse_r_pressed := press }
    if press = true then
      match g_views[s.g_subwindow_id]? with
      | none => none
      | some this_view =>
        let result := CastRay d0 n this_view
        let not_close :=
          if result.min_geoid ≠ NONE_ID ∧ this_view.visibility result.min_geoid = true then
            !(FindClosestSelectedPoint n s.g_selected_positions this_view).is_close
          else false
        if not_close = true then
          some { s1 with
            g_selected_positions :=
              Function.update s.g_selected_positions result.min_geoid
                (some (pushBack (pointsOf s.g_selected_positions result.min_geoid) result)) }
        else some s1
    else some s1

/-- The input part of `ProcessDrags` (lines 964-1057), `want_capture_mouse` being
`ImGui::GetIO().WantCaptureMouse`. The left, middle and wheel branches consume their flag;
what they do to the camera of the view is not part of `InputGlobals`. The result is `none`
when `g_views[vidx]` is out of range. -/
def ProcessDrags (d0 : IntersectResult) (n : Nat) (g_views : List SplitViewInfo)
    (want_capture_mouse : Bool) (s : InputGlobals) : Option InputGlobals :=
  if want_capture_mouse = true then some s
  else if s.g_subwindow_id ≠ NONE_ID ∧ s.g_subwindow_id = s.g_prev_subwindow_id then
    match g_views[s.g_subwindow_id]? with
    | none => none
    | some view =>
      let s1 := { s with g_to_process_drag_l := false }
      let s2 := { s1 with g_to_process_drag_m := false }
      let s3 :=
        if s2.g_to_process_drag_r = true then
          let s' := { s2 with g_to_process_drag_r := false }
          let result := CastRay d0 n view
          if result.min_geoid ≠ NONE_ID then
            let c := FindClosestSelectedPoint n s.g_selected_positions view
            if result.min_geoid = c.min_geoid ∧ c.is_close = true then
              { s' with
                g_selected_positions :=
                  Function.update s.g_selected_positions c.min_geoid
                    (some (assignAt (pointsOf s.g_selected_positions c.min_geoid)
                      c.closest_selected_id result)) }
            else s'
          else s'
        else s2
      some { s3 with g_to_process_wheel := false }
  else some s

/-! ## Geometry and meshes -/

/-- Type `Eigen::Vector3f`, with exact coordinates. -/
structure Vec3 where
  x : ℚ
  y : ℚ
  z : ℚ
deriving DecidableEq

/-- Type `Eigen::Affine3f` / `Eigen::Affine3d`: the three rows of the linear part and the
translation. -/
structure Affine3 where
  r0 : Vec3
  r1 : Vec3
  r2 : Vec3
  t : Vec3
deriving DecidableEq

/-- Vector sum. -/
def Vec3.add (a b : Vec3) : Vec3 := ⟨a.x + b.x, a.y + b.y, a.z + b.z⟩

/-- Vector difference. -/
def Vec3.sub (a b : Vec3) : Vec3 := ⟨a.x - b.x, a.y - b.y, a.z - b.z⟩

/-- Product by a scalar. -/
def Vec3.smul (c : ℚ) (a : Vec3) : Vec3 := ⟨c * a.x, c * a.y, c * a.z⟩

/-- Dot product. -/
def Vec3.dot (a b : Vec3) : ℚ := a.x * b.x + a.y * b.y + a.z * b.z

/-- The identity transform. -/
def Affine3.identity : Affine3 := ⟨⟨1, 0, 0⟩, ⟨0, 1, 0⟩, ⟨0, 0, 1⟩, ⟨0, 0, 0⟩⟩

/-- The transform applied to a point, `T * p`. -/
def Affine3.apply (T : Affine3) (p : Vec3) : Vec3 :=
  ⟨T.r0.dot p + T.t.x, T.r1.dot p + T.t.y, T.r2.dot p + T.t.z⟩

/-- Row `r` of a linear part times the linear part of `B`. -/
def Affine3.rowMul (r : Vec3) (B : Affine3) : Vec3 :=
  (Vec3.smul r.x B.r0).add ((Vec3.smul r.y B.r1).add (Vec3.smul r.z B.r2))

/-- Composition `A * B` (first `B`, then `A`). -/
def Affine3.mul (A B : Affine3) : Affine3 :=
  ⟨Affine3.rowMul A.r0 B, Affine3.rowMul A.r1 B, Affine3.rowMul A.r2 B, A.apply B.t⟩

/-- A triangle, `Eigen::Vector3i` of vertex indices. -/
structure Face where
  i0 : Nat
  i1 : Nat
  i2 : Nat
deriving DecidableEq

/-- An image (`ugu::Image3b`, `Image3f`, `Image1b`), as its size and raw values. -/
structure Image where
  width : Nat
  height : Nat
  data : List ℚ
deriving DecidableEq

/-- Element of `renderable_vertices`: the fields written by the non-rigid update. -/
structure RenderableVertex where
  pos : Vec3
  nor : Vec3
deriving DecidableEq

/-- What `main.cc` reads and writes of a `ugu::RenderableMesh`; the three texture fields
are those of `materials()[0]`. -/
structure Mesh where
  vertices : List Vec3
  normals : List Vec3
  vertex_indices : List Face
  renderable_vertices : List RenderableVertex
  has_independent_uv : Bool
  diffuse_tex : Image
  diffuse_texname : String
  diffuse_texpath : String
deriving DecidableEq

/-! ## Algorithm jobs (lines 121-176) -/

/-- Enum `AlgorithmStatus`; `HALTING` is the idle status. -/
inductive AlgorithmStatus where
  | STARTED
  | RUNNING
  | HALTING
deriving DecidableEq

/-- Type `ugu::IcpOutput`. -/
structure IcpOutput where
  loss_histroty : List ℚ
  transform_histry : List Affine3
deriving DecidableEq

/-- Struct `IcpData` (lines 121-136); `callback` tells whether the callback pointer is
set, `src_mesh` is `none` for `nullptr`. -/
structure IcpData where
  src_mesh : Option Nat
  src_points : List Vec3
  dst_points : List Vec3
  src_normals : List Vec3
  dst_normals : List Vec3
  dst_faces : List Face
  iter_max : Int
  loss_min : ℚ
  loss_eps : ℚ
  normal_th : ℚ
  dist_th : ℚ
  test_nearest : Bool
  output : IcpOutput
  with_scale : Bool
  callback : Bool
  corresp_type : Int
  loss_type : Int
deriving DecidableEq

/-- Struct `NonrigidIcpData` (lines 138-157). -/
structure NonrigidIcpData where
  src_mesh : Option Nat
  dst_mesh : Option Nat
  check_self_itersection : Bool
  angle_rad_th : ℚ
  dist_th : ℚ
  nn_num : Int
  dst_check_geometry_border : Bool
  src_check_geometry_border : Bool
  max_alpha : ℚ
  min_alpha : ℚ
  beta : ℚ
  gamma : ℚ
  step : Int
  max_internal_iter : Int
  min_frobenius_norm_diff : ℚ
deriving DecidableEq

/-- Type `ugu::TexTransNoCorrespOutput`: the fields read by `TextransProcess`. -/
structure TexTransNoCorrespOutput where
  dst_tex : Image
  dst_mask : Image
deriving DecidableEq

/-- Struct `TextransData` (lines 159-164); `dst_size` is `(dst_size[0], dst_size[1])`. -/
structure TextransData where
  src_mesh : Option Nat
  dst_mesh : Option Nat
  dst_size : Int × Int
  output : TexTransNoCorrespOutput
deriving DecidableEq

/-- The content of `g_callback_message`, by the statement that wrote it. -/
inductive CallbackMessage where
  | empty
  | icp_progress (size : Nat) (iter_max : Int) (loss : ℚ)
  | icp_took (sec : ℚ)
  | nonrigid_progress (i : Int) (step : Int) (alpha : ℚ)
  | nonrigid_took (sec : ℚ)
  | textrans_took (sec : ℚ)
deriving DecidableEq

/-- The content of `g_error_message`. -/
inductive ErrorMessage where
  | empty
  | select_source_and_target
  | must_be_different
  | at_least_3_correspondences
  | must_have_same_number
  | not_supported_yet
deriving DecidableEq

/-- The globals read and written by the worker thread and by the Run handlers. Maps keyed
by a mesh pointer are functions of the mesh index. -/
structure AppState where
  g_meshes : List Mesh
  g_selected_positions : SelectedPositions
  g_model_matrices : Nat → Affine3
  g_update_bvh : Nat → Bool
  g_icp_data : IcpData
  g_nonrigidicp_data : NonrigidIcpData
  g_textrans_data : TextransData
  g_icp_run : AlgorithmStatus
  g_nonrigidicp_run : AlgorithmStatus
  g_textrans_run : AlgorithmStatus
  g_icp_start_trans : Affine3
  g_callback_message : CallbackMessage
  g_callback_finished : Bool
  g_error_message : ErrorMessage
  /-- The modal popup "Algorithm Callback" is open. -/
  popup_algorithm_callback : Bool
  /-- The modal popup "Error" is open. -/
  popup_error : Bool

/-- What the non-rigid solver is given before its first stage (lines 239-267). -/
structure NicpInput where
  src : Mesh
  src_trans : Affine3
  dst : Mesh
  dst_trans : Affine3
  check_self_itersection : Bool
  angle_rad_th : ℚ
  dst_check_geometry_border : Bool
  src_check_geometry_border : Bool
  dist_th : ℚ
  nn_num : Int
  src_landmarks : List (Nat × ℚ × ℚ)
  betas : List ℚ
  dst_landmark_positions : List Vec3

/-- The library functions called by the worker and the handlers (`ugu`), and the timer. -/
structure Externals where
  /-- The values of `g_icp_data.output` at the successive calls of the progress callback
  made by `RigidIcp`. -/
  RigidIcp_progress : IcpData → List IcpOutput
  /-- The value of `g_icp_data.output` when `RigidIcp` returns. -/
  RigidIcp : IcpData → IcpOutput
  /-- Method `Eigen::Vector3f::normalize`. -/
  normalize : Vec3 → Vec3
  /-- State of a `ugu::NonRigidIcp` object. -/
  Nicp : Type
  /-- The object after `SetSrc`, `SetDst`, `Init` and the landmark setters. -/
  nicp_init : NicpInput → Nicp
  /-- Method `Registrate(alpha, gamma, max_internal_iter, min_frobenius_norm_diff)`. -/
  Registrate : Nicp → ℚ → ℚ → Int → ℚ → Nicp
  /-- Vertices and normals of `GetDeformedSrc()` after `Transform` by the inverse of the
  given model matrix and `CalcNormal`. -/
  deformed : Nicp → Affine3 → List Vec3 × List Vec3
  /-- Method `CalcNormal` of a mesh: the new normals. -/
  CalcNormal : Mesh → List Vec3
  /-- Function `TexTransNoCorresp` on the converted target texture: its output. -/
  TexTransNoCorresp : Image → Mesh → Affine3 → Mesh → Affine3 → Int → Int →
    TexTransNoCorrespOutput
  /-- The inpainted visualisation of an output (`Not`, `ConvertTo`, `clone`, `Inpaint`). -/
  inpainted : TexTransNoCorrespOutput → Image
  /-- Value of `timer.elapsed_msec()`. -/
  elapsed_msec : ℚ

/-- The function `GetPos` (lines 93-105) on mesh `geoid`, in exact arithmetic: the
coordinates are rationals and no operation rounds, where the code computes in `float`
(`GetPosF32` is the computation with the roundings); `none` when the mesh, the face or one
of its vertices does not exist. -/
def GetPos (s : AppState) (intersection : IntersectResult) (geoid : Nat) : Option Vec3 :=
  match s.g_meshes[geoid]? with
  | none => none
  | some mesh =>
    match mesh.vertex_indices[intersection.fid]? with
    | none => none
    | some face =>
      match mesh.vertices[face.i0]?, mesh.vertices[face.i1]?, mesh.vertices[face.i2]? with
      | some v0, some v1, some v2 =>
        let p := ((Vec3.smul intersection.u (v1.sub v0)).add
          (Vec3.smul intersection.v (v2.sub v0))).add v0
        some ((s.g_model_matrices geoid).apply p)
      | _, _, _ => none

/-- The function `ExtractPos` (lines 111-119). -/
def ExtractPos (s : AppState) (results : List CastRayResult) : Option (List Vec3) :=
  results.mapM (fun res => GetPos s res.intersection (res.min_geoid % 4294967296))

/-! ## The worker thread (lines 178-409) -/

/-- The function `IcpProcessCallback` (lines 178-190), called when `g_icp_data.output` has
the value `output`; `none` when a history is empty or the source mesh is null: `back()` of
an empty vector and the access through a null pointer are undefined behaviour, for which
the embedding has no result. -/
def IcpProcessCallback (s : AppState) (output : IcpOutput) : Option AppState :=
  match s.g_icp_data.src_mesh, output.loss_histroty.getLast?,
    output.transform_histry.getLast? with
  | some src, some loss, some last_trans =>
    some { s with
      g_icp_data := { s.g_icp_data with output := output }
      g_callback_message :=
        .icp_progress output.loss_histroty.length s.g_icp_data.iter_max loss
      g_model_matrices :=
        Function.update s.g_model_matrices src (last_trans.mul s.g_icp_start_trans) }
  | _, _, _ => none

/-- The function `IcpFinishCallback` (lines 192-200); `none` when the transform history is
empty or the source mesh is null: `back()` of an empty vector and the access through a null
pointer are undefined behaviour, for which the embedding has no result. -/
def IcpFinishCallback (orignal_trans : Affine3) (s : AppState) : Option AppState :=
  match s.g_icp_data.src_mesh, s.g_icp_data.output.transform_histry.getLast? with
  | some src, some last_trans =>
    some { s with
      g_model_matrices := Function.update s.g_model_matrices src (last_trans.mul orignal_trans)
      g_update_bvh := Function.update s.g_update_bvh src true
      g_callback_finished := true }
  | _, _ => none

/-- The calls of the progress callback made during `RigidIcp`, when the pointer is set. -/
def icpCallbacks (s : AppState) : List IcpOutput → Option AppState
  | [] => some s
  | output :: rest =>
    match IcpProcessCallback s output with
    | none => none
    | some s' => icpCallbacks s' rest

/-- Lines 207-227 of `IcpProcess`: what the worker does once the status is `RUNNING`. -/
def icpRunning (ext : Externals) (s : AppState) : Option AppState :=
  match s.g_icp_data.src_mesh with
  | none => none
  | some src =>
    let s1 := { s with g_icp_start_trans := s.g_model_matrices src }
    let progress := if s1.g_icp_data.callback = true then ext.RigidIcp_progress s1.g_icp_data else []
    match icpCallbacks s1 progress with
    | none => none
    | some s2 =>
      let s3 := { s2 with
        g_icp_data := { s2.g_icp_data with output := ext.RigidIcp s1.g_icp_data }
        g_callback_message := .icp_took (ext.elapsed_msec / 1000) }
      match IcpFinishCallback s3.g_icp_start_trans s3 with
      | none => none
      | some s4 => some { s4 with g_icp_run := .HALTING }

/-- The function `IcpProcess` (lines 202-229). -/
def IcpProcess (ext : Externals) (s : AppState) : Option AppState :=
  if s.g_icp_run = .STARTED then icpRunning ext { s with g_icp_run := .RUNNING }
  else some s

/-- The stiffness of stage `i` (lines 318-321). -/
def stageAlpha (d : NonrigidIcpData) (i : Int) : ℚ :=
  d.max_alpha - i * (d.max_alpha - d.min_alpha) / d.step

/-- Write of one corner of one face into `renderable_vertices` (lines 286-290 and
297-301); `none` when an index is out of range. -/
def writeCorner (deformed : List Vec3 × List Vec3) (rv : List RenderableVertex)
    (index vertex : Nat) : Option (List RenderableVertex) :=
  match deformed.1[vertex]?, deformed.2[vertex]? with
  | some pos, some nor => if index < rv.length then some (rv.set index ⟨pos, nor⟩) else none
  | _, _ => none

/-- The two loops over the faces in `update_mesh` (lines 280-304): face `i` and the ones
after it. -/
def writeFaces (to_split_uv : Bool) (deformed : List Vec3 × List Vec3) :
    Nat → List Face → List RenderableVertex → Option (List RenderableVertex)
  | _, [], rv => some rv
  | i, face :: faces, rv =>
    let idx := fun (j vertex : Nat) => if to_split_uv = true then i * 3 + j else vertex
    match writeCorner deformed rv (idx 0 face.i0) face.i0 with
    | none => none
    | some rv0 =>
      match writeCorner deformed rv0 (idx 1 face.i1) face.i1 with
      | none => none
      | some rv1 =>
        match writeCorner deformed rv1 (idx 2 face.i2) face.i2 with
        | none => none
        | some rv2 => writeFaces to_split_uv deformed (i + 1) faces rv2

/-- The lambda `update_mesh` (lines 269-315) on source mesh `src`, for the solver state
`nicp`. -/
def update_mesh (ext : Externals) (nicp : ext.Nicp) (src : Nat) (update_base : Bool)
    (s : AppState) : Option AppState :=
  match s.g_meshes[src]? with
  | none => none
  | some mesh =>
    let deformed := ext.deformed nicp (s.g_model_matrices src)
    match writeFaces mesh.has_independent_uv deformed 0 mesh.vertex_indices
      mesh.renderable_vertices with
    | none => none
    | some rv =>
      let mesh1 := { mesh with renderable_vertices := rv }
      let mesh2 :=
        if update_base = true then
          let m := { mesh1 with vertices := deformed.1 }
          { m with normals := ext.CalcNormal m }
        else mesh1
      some { s with g_meshes := s.g_meshes.set src mesh2 }

/-- The loop over the stages `i = first, ..., step` (lines 317-333), `todo` bounding the
number of stages left. -/
def nicpStages (ext : Externals) (src : Nat) :
    Nat → Int → ext.Nicp → AppState → Option (ext.Nicp × AppState)
  | 0, _, nicp, s => some (nicp, s)
  | todo + 1, i, nicp, s =>
    let d := s.g_nonrigidicp_data
    let s1 := { s with g_callback_message := .nonrigid_progress i d.step (stageAlpha d i) }
    let nicp1 := ext.Registrate nicp (stageAlpha d i) d.gamma d.max_internal_iter
      d.min_frobenius_norm_diff
    match update_mesh ext nicp1 src false s1 with
    | none => none
    | some s2 => nicpStages ext src todo (i + 1) nicp1 s2

/-- What the solver is given (lines 239-267); `none` when a mesh is null or missing, a
correspondence list is missing (`at` throws) or a landmark position cannot be computed. -/
def nicpInput (s : AppState) : Option NicpInput :=
  let d := s.g_nonrigidicp_data
  match d.src_mesh, d.dst_mesh with
  | some src, some dst =>
    match s.g_meshes[src]?, s.g_meshes[dst]?, s.g_selected_positions src,
      s.g_selected_positions dst with
    | some src_mesh, some dst_mesh, some src_sel, some dst_sel =>
      match ExtractPos s dst_sel with
      | none => none
      | some dst_pos =>
        let src_landmarks := src_sel.map
          (fun res => (res.intersection.fid, res.intersection.u, res.intersection.v))
        some {
          src := src_mesh
          src_trans := s.g_model_matrices src
          dst := dst_mesh
          dst_trans := s.g_model_matrices dst
          check_self_itersection := d.check_self_itersection
          angle_rad_th := d.angle_rad_th
          dst_check_geometry_border := d.dst_check_geometry_border
          src_check_geometry_border := d.src_check_geometry_border
          dist_th := d.dist_th
          nn_num := d.nn_num
          src_landmarks := src_landmarks
          betas := List.replicate src_landmarks.length d.beta
          dst_landmark_positions := dst_pos }
    | _, _, _, _ => none
  | _, _ => none

/-- Lines 236-352 of `NonrigidIcpProcess`: what the worker does once the status is
`RUNNING`. -/
def nonrigidIcpRunning (ext : Externals) (s : AppState) : Option AppState :=
  match s.g_nonrigidicp_data.src_mesh, nicpInput s with
  | some src, some input =>
    match nicpStages ext src s.g_nonrigidicp_data.step.toNat 1 (ext.nicp_init input) s with
    | none => none
    | some (nicp, s1) =>
      let s2 := { s1 with g_callback_message := .nonrigid_took (ext.elapsed_msec / 1000) }
      match update_mesh ext nicp src true s2 with
      | none => none
      | some s3 =>
        some { s3 with
          g_update_bvh := Function.update s3.g_update_bvh src true
          g_callback_finished := true
          g_nonrigidicp_run := .HALTING }
  | _, _ => none

/-- The function `NonrigidIcpProcess` (lines 231-354). -/
def NonrigidIcpProcess (ext : Externals) (s : AppState) : Option AppState :=
  if s.g_nonrigidicp_run = .STARTED then
    nonrigidIcpRunning ext { s with g_nonrigidicp_run := .RUNNING }
  else some s

/-- Lines 361-395 of `TextransProcess`: what the worker does once the status is
`RUNNING`; `none` when a mesh is null or missing. -/
def textransRunning (ext : Externals) (s : AppState) : Option AppState :=
  let d := s.g_textrans_data
  match d.src_mesh, d.dst_mesh with
  | some src, some dst =>
    match s.g_meshes[src]?, s.g_meshes[dst]? with
    | some src_mesh, some dst_mesh =>
      let output := ext.TexTransNoCorresp dst_mesh.diffuse_tex dst_mesh
        (s.g_model_matrices dst) src_mesh (s.g_model_matrices src) d.dst_size.2 d.dst_size.1
      let mesh' := { src_mesh with
        diffuse_tex := ext.inpainted output
        diffuse_texname := "transferred.png"
        diffuse_texpath := "transferred.png" }
      some { s with
        g_textrans_data := { d with output := output }
        g_meshes := s.g_meshes.set src mesh'
        g_callback_message := .textrans_took (ext.elapsed_msec / 1000)
        g_callback_finished := true
        g_textrans_run := .HALTING }
    | _, _ => none
  | _, _ => none

/-- The function `TextransProcess` (lines 356-397). -/
def TextransProcess (ext : Externals) (s : AppState) : Option AppState :=
  if s.g_textrans_run = .STARTED then textransRunning ext { s with g_textrans_run := .RUNNING }
  else some s

/-- One iteration of the loop of `AlgorithmProcess` (lines 403-407). -/
def AlgorithmProcess_iteration (ext : Externals) (s : AppState) : Option AppState :=
  match IcpProcess ext s with
  | none => none
  | some s1 =>
    match NonrigidIcpProcess ext s1 with
    | none => none
    | some s2 => TextransProcess ext s2

/-! ## The Run handlers and the result dialog (lines 1168-1404) -/

/-- The lambda `validate_func` (lines 1168-1180) for the selected `src_id` and `dst_id`
(`-1` when nothing is selected): its result and the state it leaves. -/
def validate_func (src_id dst_id : Int) (s : AppState) : Bool × AppState :=
  if src_id < 0 ∨ dst_id < 0 then
    (false, { s with popup_error := true, g_error_message := .select_source_and_target })
  else if src_id = dst_id then
    (false, { s with popup_error := true, g_error_message := .must_be_different })
  else (true, s)

/-- The pointer `0 <= id ? g_meshes[id] : nullptr` (lines 1182-1183). -/
def meshPtr (id : Int) : Option Nat :=
  if 0 ≤ id then some id.toNat else none

/-- The lambda `apply_trans` (lines 1229-1245). -/
def apply_trans (ext : Externals) (points : List Vec3) (T : Affine3) (is_normal : Bool) :
    List Vec3 :=
  let T_ := if is_normal = true then { T with t := ⟨0, 0, 0⟩ } else T
  points.map (fun p => if is_normal = true then ext.normalize (T_.apply p) else T_.apply p)

/-- A press of "Run" for rigid ICP (lines 1227-1274); `none` when a selected mesh does not
exist. The handler holds `icp_mtx` from line 1258 on, so it runs when the worker is not
inside `IcpProcess`. -/
def runRigidIcp (ext : Externals) (src_id dst_id : Int) (s : AppState) : Option AppState :=
  let (ok, s0) := validate_func src_id dst_id s
  if ok = true then
    match s.g_meshes[src_id.toNat]?, s.g_meshes[dst_id.toNat]? with
    | some src_mesh, some dst_mesh =>
      let src_T := s.g_model_matrices src_id.toNat
      let dst_T := s.g_model_matrices dst_id.toNat
      some { s0 with
        popup_algorithm_callback := true
        g_icp_data := { s0.g_icp_data with
          src_mesh := meshPtr src_id
          src_points := apply_trans ext src_mesh.vertices src_T false
          dst_points := apply_trans ext dst_mesh.vertices dst_T false
          src_normals := apply_trans ext src_mesh.normals src_T true
          dst_normals := apply_trans ext dst_mesh.normals dst_T true
          dst_faces := dst_mesh.vertex_indices
          callback := true
          output := ⟨[], []⟩ }
        g_callback_finished := false
        g_icp_run := .STARTED }
    | _, _ => none
  else some s0

/-- A press of "Run" for non-rigid ICP (lines 1316-1326). -/
def runNonrigidIcp (src_id dst_id : Int) (s : AppState) : AppState :=
  let (ok, s0) := validate_func src_id dst_id s
  if ok = true then
    { s0 with
      popup_algorithm_callback := true
      g_nonrigidicp_data := { s0.g_nonrigidicp_data with
        src_mesh := meshPtr src_id
        dst_mesh := meshPtr dst_id }
      g_callback_finished := false
      g_nonrigidicp_run := .STARTED }
  else s0

/-- A press of "Run" for texture transfer (lines 1362-1373). -/
def runTextrans (src_id dst_id : Int) (s : AppState) : AppState :=
  let (ok, s0) := validate_func src_id dst_id s
  if ok = true then
    { s0 with
      popup_algorithm_callback := true
      g_textrans_data := { s0.g_textrans_data with
        src_mesh := meshPtr src_id
        dst_mesh := meshPtr dst_id }
      g_callback_finished := false
      g_textrans_run := .STARTED }
  else s0

/-- The popup "Algorithm Callback" (lines 1389-1404), `ok_clicked` telling whether the
user presses its "OK" button when it is shown: the state and the value of `reset_points`
it leaves. -/
def algorithmCallbackPopup (ok_clicked : Bool) (reset_points : Bool) (s : AppState) :
    AppState × Bool :=
  if s.popup_algorithm_callback = true ∧ s.g_callback_finished = true ∧ ok_clicked = true then
    ({ s with
        g_callback_finished := true
        g_callback_message := .empty
        popup_algorithm_callback := false }, true)
  else (s, reset_points)

/-- An action of the UI thread on the job globals: a press of one of the three "Run"
buttons, or a frame of the result dialog. -/
inductive UiAction where
  | run_rigid_icp (src_id dst_id : Int)
  | run_nonrigid_icp (src_id dst_id : Int)
  | run_textrans (src_id dst_id : Int)
  | popup (ok_clicked : Bool)

/-- Effect of a UI action. -/
def uiStep (ext : Externals) (s : AppState) : UiAction → Option AppState
  | .run_rigid_icp src_id dst_id => runRigidIcp ext src_id dst_id s
  | .run_nonrigid_icp src_id dst_id => some (runNonrigidIcp src_id dst_id s)
  | .run_textrans src_id dst_id => some (runTextrans src_id dst_id s)
  | .popup ok_clicked => some (algorithmCallbackPopup ok_clicked false s).1

/-! ## Concrete scenes used to evaluate the definitions -/

/-- A value for the default-constructed `IntersectResult`. -/
def demoD0 : IntersectResult := ⟨0, 0, 0, 0⟩

/-- A hit on face `fid` at ray parameter `t`, with barycentric coordinates `(0, 0)`. -/
def demoHit (fid : Nat) (t : ℚ) : IntersectResult := ⟨fid, 0, 0, t⟩

/-- A stored point of mesh `k` whose `u` coordinate doubles as its pixel distance in the
demo views. -/
def demoPoint (k : Nat) (dist : ℚ) : CastRayResult := ⟨k, ⟨0, dist, 0, 1⟩⟩

/-- Three meshes: mesh 0 is hidden and nearest along the ray (`t = 1`), meshes 1 and 2 are
visible and both first hit at `t = 5`. Every stored point is front-most on its own mesh. -/
def demoView : SplitViewInfo where
  visibility := fun k => decide (k = 1 ∨ k = 2)
  mesh_id := fun k => k
  results_all := fun k =>
    if k = 0 then [demoHit 10 1]
    else if k = 1 then [demoHit 11 5, demoHit 12 9]
    else if k = 2 then [demoHit 13 5]
    else []
  front_id := fun p => p.min_geoid
  pix_dist := fun p => p.intersection.u

/-- One visible mesh whose only hit has `t = FLT_MAX`. -/
def edgeView : SplitViewInfo where
  visibility := fun _ => true
  mesh_id := fun k => k
  results_all := fun k => if k = 0 then [demoHit 10 FLT_MAX] else []
  front_id := fun p => p.min_geoid
  pix_dist := fun p => p.intersection.u

/-- One hidden mesh, the only geometry along the ray. -/
def hiddenView : SplitViewInfo where
  visibility := fun _ => false
  mesh_id := fun k => k
  results_all := fun k => if k = 0 then [demoHit 10 1] else []
  front_id := fun p => p.min_geoid
  pix_dist := fun p => p.intersection.u

/-- Lists with one point of mesh 0 exactly 20 pixels from the cursor. -/
def thresholdSel : SelectedPositions :=
  fun k => if k = 0 then some [demoPoint 0 20] else none

/-- Lists of `demoView`: mesh 1 has points at 30, 7 and 7 pixels, mesh 2 one at 7 pixels. -/
def nearSel : SelectedPositions :=
  fun k =>
    if k = 1 then some [demoPoint 1 30, demoPoint 1 7, demoPoint 1 7]
    else if k = 2 then some [demoPoint 2 7]
    else if k = 0 then some []
    else none

/-- Lists of `demoView` with no point near the cursor. -/
def farSel : SelectedPositions :=
  fun k => if k = 1 then some [demoPoint 1 30] else if k < 3 then some [] else none

/-- Input globals with the cursor in view 0, a pending right drag and the lists `sel`. -/
def demoInput (sel : SelectedPositions) : InputGlobals where
  g_mouse_l_pressed := false
  g_mouse_m_pressed := false
  g_mouse_r_pressed := false
  g_to_process_drag_l := false
  g_to_process_drag_m := false
  g_to_process_drag_r := true
  g_to_process_wheel := false
  g_subwindow_id := 0
  g_prev_subwindow_id := 0
  g_selected_positions := sel

/-- A triangle mesh with the given texture. -/
def demoMesh (tex : Image) : Mesh where
  vertices := [⟨0, 0, 0⟩, ⟨1, 0, 0⟩, ⟨0, 1, 0⟩]
  normals := [⟨0, 0, 1⟩, ⟨0, 0, 1⟩, ⟨0, 0, 1⟩]
  vertex_indices := [⟨0, 1, 2⟩]
  renderable_vertices := [⟨⟨0, 0, 0⟩, ⟨0, 0, 1⟩⟩, ⟨⟨1, 0, 0⟩, ⟨0, 0, 1⟩⟩, ⟨⟨0, 1, 0⟩, ⟨0, 0, 1⟩⟩]
  has_independent_uv := false
  diffuse_tex := tex
  diffuse_texname := "tmp.png"
  diffuse_texpath := "tmp.png"

/-- The translation by `(1, 0, 0)`. -/
def demoShift : Affine3 := ⟨⟨1, 0, 0⟩, ⟨0, 1, 0⟩, ⟨0, 0, 1⟩, ⟨1, 0, 0⟩⟩

/-- Library functions for the demo states: a rigid solver that returns one shift, a
non-rigid solver that counts its stages and moves the triangle up by one, a texture
transfer that copies the target texture. -/
def demoExt : Externals where
  RigidIcp_progress := fun _ => []
  RigidIcp := fun _ => ⟨[1], [demoShift]⟩
  normalize := fun p => p
  Nicp := Nat
  nicp_init := fun _ => 0
  Registrate := fun k _ _ _ _ => k + 1
  deformed := fun _ _ =>
    ([⟨0, 0, 1⟩, ⟨1, 0, 1⟩, ⟨0, 1, 1⟩], [⟨0, 0, 1⟩, ⟨0, 0, 1⟩, ⟨0, 0, 1⟩])
  CalcNormal := fun m => m.normals
  TexTransNoCorresp := fun img _ _ _ _ _ _ => ⟨img, img⟩
  inpainted := fun o => o.dst_tex
  elapsed_msec := 0

/-- Two loaded meshes and the job globals at their initial values (lines 43-44, 138-176),
except for two stages instead of ten and for the solver options whose defaults are the
library's; the refresh flags have been consumed by a frame. -/
def demoState : AppState where
  g_meshes := [demoMesh ⟨1, 1, [1]⟩, demoMesh ⟨1, 1, [2]⟩]
  g_selected_positions := fun k => if k < 2 then some [] else none
  g_model_matrices := fun _ => Affine3.identity
  g_update_bvh := fun _ => false
  g_icp_data := {
    src_mesh := none, src_points := [], dst_points := [], src_normals := [],
    dst_normals := [], dst_faces := [], iter_max := 20, loss_min := 0, loss_eps := 0,
    normal_th := 0, dist_th := 0, test_nearest := false, output := ⟨[], []⟩,
    with_scale := false, callback := false, corresp_type := 1, loss_type := 1 }
  g_nonrigidicp_data := {
    src_mesh := none, dst_mesh := none, check_self_itersection := false,
    angle_rad_th := 13 / 20, dist_th := -1, nn_num := 10,
    dst_check_geometry_border := false, src_check_geometry_border := false,
    max_alpha := 10, min_alpha := 1 / 10, beta := 100, gamma := 1, step := 2,
    max_internal_iter := 10, min_frobenius_norm_diff := 2 }
  g_textrans_data := {
    src_mesh := none, dst_mesh := none, dst_size := (1024, 1024),
    output := ⟨⟨0, 0, []⟩, ⟨0, 0, []⟩⟩ }
  g_icp_run := .HALTING
  g_nonrigidicp_run := .HALTING
  g_textrans_run := .HALTING
  g_icp_start_trans := Affine3.identity
  g_callback_message := .empty
  g_callback_finished := true
  g_error_message := .empty
  popup_algorithm_callback := false
  popup_error := false

/-- The state after "Run" of non-rigid ICP with source 0 and target 1: status `STARTED`. -/
def demoNonrigidStarted : AppState := runNonrigidIcp 0 1 demoState

/-- The state after "Run" of texture transfer with source 0 and target 1: status `STARTED`. -/
def demoTextransStarted : AppState := runTextrans 0 1 demoState

/-- The state in which the worker has promoted the texture transfer job: status `RUNNING`,
result dialog open, completion flag not set. -/
def demoTextransRunning : AppState := { demoTextransStarted with g_textrans_run := .RUNNING }

/-- The state after "Run" of rigid ICP with source 0 and target 1: status `STARTED`. -/
def demoRigidStarted : AppState := (runRigidIcp demoExt 0 1 demoState).getD demoState

/-! ## View strips (lines 413-427 and 943-957) -/

/-- The function `GetWidthHeightForView` (lines 413-416) for `n_views = g_views.size()`. -/
def GetWidthHeightForView (g_width g_height n_views : Nat) : Nat × Nat :=
  (g_width / n_views, g_height)

/-- The function `IsCursorOnView` (lines 418-427) for the cursor column
`x = static_cast<uint32_t>(g_cursor_pos.x())`; the two products are `uint32_t` products. -/
def IsCursorOnView (g_width n_views x vidx : Nat) : Bool :=
  let unit_w := g_width / n_views
  if unit_w * vidx % 4294967296 ≤ x ∧ x < unit_w * (vidx + 1) % 4294967296 then true
  else false

/-- The viewport `(x, y, width, height)` that `DrawViews` gives to view `i` (lines 953-955). -/
def viewViewport (g_width g_height n_views i : Nat) : Nat × Nat × Nat × Nat :=
  let offset_w := g_width / n_views
  (offset_w * i % 4294967296, 0, offset_w, g_height)

/-! ## The points panel of a mesh (lines 1536-1581) -/

/-- One pass of the points panel of a view for a mesh: the clamp of the stored index, a
click on row `select_click` of the list box, and the `Remove` button. The result is the
index stored for the view and the list. -/
def pointsPanelPass (selected_point_idx : Option Nat) (points : List CastRayResult)
    (select_click : Option Nat) (remove_click : Bool) : Nat × List CastRayResult :=
  let idx0 := clampSelectedIdx selected_point_idx points.length
  let idx1 :=
    match select_click with
    | some n => if n < points.length then n else idx0
    | none => idx0
  (idx1, if remove_click = true then removeAt points idx1 else points)

/-! ## Import of a point file (lines 1583-1637) -/

/-- The fields of `ugu::PointOnFace` that `Import` reads. -/
structure PointOnFace where
  fid : Nat
  u : ℚ
  v : ℚ
deriving DecidableEq

/-- Enum `ugu::PointOnFaceType`, in the order of the list box (lines 1587-1588). -/
inductive PointOnFaceType where
  | NAMED_POINT_ON_TRIANGLE
  | POINT_ON_TRIANGLE
  | THREED_POINT
deriving DecidableEq

/-- The entry built from one record (lines 1626-1630): a default-constructed
`CastRayResult` whose `min_geoid`, `fid`, `u` and `v` are assigned. -/
def importedEntry (d0 : IntersectResult) (i : Nat) (pof : PointOnFace) : CastRayResult :=
  ⟨i, { d0 with fid := pof.fid, u := pof.u, v := pof.v }⟩

/-- What the `Import` button reads and writes. -/
structure ImportState where
  g_selected_positions : SelectedPositions
  g_error_message : ErrorMessage
  popup_error : Bool
  reset_points : Bool

/-- The loop of lines 1625-1632 after `clear()`: one `push_back` per record. -/
def importRecords (d0 : IntersectResult) (i : Nat) (pofs : List PointOnFace) :
    List CastRayResult :=
  pofs.foldl (fun points pof => pushBack points (importedEntry d0 i pof)) []

/-- A press of `Import` for mesh `i` (lines 1609-1637). `LoadPoints path pof_type` is the
result of `ugu::LoadPoints`, `none` when it throws. -/
def importButton (d0 : IntersectResult)
    (LoadPoints : String → PointOnFaceType → Option (List PointOnFace))
    (i : Nat) (path : String) (pof_type : PointOnFaceType) (s : ImportState) : ImportState :=
  if pof_type = .THREED_POINT then
    { s with popup_error := true, g_error_message := .not_supported_yet }
  else
    let pofs := (LoadPoints path pof_type).getD []
    if pofs.isEmpty = false then
      { s with
        g_selected_positions :=
          Function.update s.g_selected_positions i (some (importRecords d0 i pofs))
        reset_points := true }
    else s

/-- The record is a valid surface point of a mesh with `n_faces` triangles. -/
def ValidRecord (n_faces : Nat) (pof : PointOnFace) : Prop :=
  0 ≤ pof.u ∧ 0 ≤ pof.v ∧ pof.u + pof.v ≤ 1 ∧ pof.fid < n_faces

/-- The entry satisfies the invariants of a surface point reference of a mesh with
`n_faces` triangles. -/
def ValidEntry (n_faces : Nat) (r : CastRayResult) : Prop :=
  ValidBary r ∧ r.intersection.fid < n_faces

/-- A point file with one record outside the triangle and outside the face list. -/
def badLoadPoints : String → PointOnFaceType → Option (List PointOnFace) :=
  fun _ _ => some [⟨5, -1, 0⟩]

/-- A point file with two valid records. -/
def goodLoadPoints : String → PointOnFaceType → Option (List PointOnFace) :=
  fun _ _ => some [⟨0, 0, 1⟩, ⟨0, 1, 0⟩]

/-- The state of the `Import` button with the lists `sel` and no message. -/
def demoImport (sel : SelectedPositions) : ImportState where
  g_selected_positions := sel
  g_error_message := .empty
  popup_error := false
  reset_points := false

/-! ## The overlay pass of `ProcessDrags` (lines 1059-1125) -/

/-- What the overlay pass reads of a view beyond the fields of `SplitViewInfo`. -/
structure OverlayView extends SplitViewInfo where
  /-- The `z` coordinate of `w2c * GetPos(p)` (line 1080). -/
  cam_z : CastRayResult → ℚ
  /-- The distance between `GetPos(p)` and the position of the front-most hit on the mesh
  of the point (lines 1099-1102). -/
  hit_dist : CastRayResult → ℚ
  /-- Result of `renderer->GetDepthThreshold()`. -/
  depth_threshold : ℚ
  /-- The `x` coordinate of the label (line 1115). -/
  text_x : CastRayResult → ℚ
  /-- The `y` coordinate of the label (lines 1116-1117). -/
  text_y : CastRayResult → ℚ

/-- The fields of `TextRendererGl::Text` that depend on the point: the body is the
decimal form of the index. -/
structure Text where
  body : Nat
  x : ℚ
  y : ℚ
deriving DecidableEq

/-- The four `continue` tests of the overlay pass for point `p` of mesh `k` (lines
1079-1105): `true` when the label of the point is pushed. -/
def overlayPasses (view : OverlayView) (k : Nat) (p : CastRayResult) : Bool :=
  if view.cam_z p > 0 then false
  else if view.front_id p = NONE_ID then false
  else if view.mesh_id k ≠ view.front_id p then false
  else if view.hit_dist p > view.depth_threshold then false
  else true

/-- One iteration of the loop over the points `i` of mesh `k` (lines 1076-1121). -/
def overlayPointStep (view : OverlayView) (k : Nat) (points : List CastRayResult)
    (texts : List Text) (i : Nat) : List Text :=
  match points[i]? with
  | none => texts
  | some p =>
    if overlayPasses view k p = true then texts ++ [⟨i, view.text_x p, view.text_y p⟩]
    else texts

/-- One iteration of the loop over the meshes (lines 1071-1122). -/
def overlayMeshStep (view : OverlayView) (sel : SelectedPositions) (texts : List Text)
    (k : Nat) : List Text :=
  if view.visibility k = false then texts
  else
    (List.range (pointsOf sel k).length).foldl (overlayPointStep view k (pointsOf sel k)) texts

/-- The labels that the overlay pass hands to `SetTexts` for a view, `n = g_meshes.size()`. -/
def overlayTexts (n : Nat) (sel : SelectedPositions) (view : OverlayView) : List Text :=
  (List.range n).foldl (overlayMeshStep view sel) []

/-- A view of one visible mesh whose stored points lie on the far side of the mesh: the
front-most hit is on the mesh itself, 5 units from the point, the depth tolerance is 1. -/
def farSideView : OverlayView where
  toSplitViewInfo := edgeView
  cam_z := fun _ => -1
  hit_dist := fun _ => 5
  depth_threshold := 1
  text_x := fun _ => 0
  text_y := fun _ => 0

/-- A view of one visible mesh whose stored points lie behind the camera. -/
def behindView : OverlayView where
  toSplitViewInfo := edgeView
  cam_z := fun _ => 1
  hit_dist := fun _ => 0
  depth_threshold := 1
  text_x := fun _ => 0
  text_y := fun _ => 0

/-- A view of one visible mesh whose stored points face the camera. -/
def frontView : OverlayView where
  toSplitViewInfo := edgeView
  cam_z := fun _ => -1
  hit_dist := fun _ => 0
  depth_threshold := 1
  text_x := fun p => p.intersection.u
  text_y := fun p => p.intersection.v

/-- Lists with one point of mesh 0, 3 pixels from the cursor. -/
def onePointSel : SelectedPositions :=
  fun k => if k = 0 then some [demoPoint 0 3] else none

/-! ## The scene registry: `LoadMesh` and `Clear` (lines 663-671 and 806-857)

`Clear` takes pointers out of `g_meshes`, so here a mesh pointer is a handle of its own and
the maps keyed by mesh pointer are functions of the handle into `Option`. -/

/-- The library functions called by `LoadMesh`, and the colour table of line 827 after
its random fill. -/
structure LoaderExternals where
  /-- Function `ugu::ExtractExt`. -/
  ExtractExt : String → String
  /-- Function `ugu::ExtractFilename(path, true)`. -/
  ExtractFilename : String → String
  /-- The mesh read by `mesh->LoadObj(obj_path, obj_dir)`, `none` when it fails. -/
  LoadObj : String → Option Mesh
  /-- Entry `k` of `color_table`. -/
  color_table : Nat → ℚ × ℚ × ℚ

/-- The globals of the scene registry, the meshes behind the pointers and the static
`count` of line 826. -/
structure Scene where
  g_meshes : List Nat
  g_mesh_names : List String
  g_mesh_paths : List String
  g_model_matrices : Nat → Option Affine3
  g_update_bvh : Nat → Option Bool
  g_selected_positions : SelectedPositions
  mesh_data : Nat → Option Mesh
  count : Nat

/-- The scene at program start. -/
def emptyScene : Scene where
  g_meshes := []
  g_mesh_names := []
  g_mesh_paths := []
  g_model_matrices := fun _ => none
  g_update_bvh := fun _ => none
  g_selected_positions := fun _ => none
  mesh_data := fun _ => none
  count := 0

/-- The one-pixel texture given to a mesh without texture (lines 822-845). -/
def fallbackTexture (lx : LoaderExternals) (count : Nat) (mesh : Mesh) : Mesh :=
  let col := lx.color_table (count % 256)
  { mesh with
    diffuse_tex := ⟨1, 1, [col.1, col.2.1, col.2.2]⟩
    diffuse_texname := "tmp.png"
    diffuse_texpath := "tmp.png" }

/-- The registry part of `LoadMesh` (lines 806-857); `ptr` is the pointer returned by
`RenderableMesh::Create()`. The loop over the views (lines 858-877) feeds the renderers and
resets the cameras. -/
def LoadMesh (lx : LoaderExternals) (path : String) (ptr : Nat) (s : Scene) : Scene :=
  if 4 ≤ s.g_meshes.length then s
  else if lx.ExtractExt path = "obj" ∨ lx.ExtractExt path = "OBJ" then
    match lx.LoadObj path with
    | none => s
    | some mesh =>
      let no_texture := mesh.diffuse_tex.data.isEmpty
      { g_meshes := s.g_meshes ++ [ptr]
        g_mesh_names := s.g_mesh_names ++ [lx.ExtractFilename path]
        g_mesh_paths := s.g_mesh_paths ++ [path]
        g_model_matrices := Function.update s.g_model_matrices ptr (some Affine3.identity)
        g_update_bvh := Function.update s.g_update_bvh ptr (some true)
        g_selected_positions := Function.update s.g_selected_positions ptr (some [])
        mesh_data := Function.update s.mesh_data ptr
          (some (if no_texture = true then fallbackTexture lx s.count mesh else mesh))
        count := if no_texture = true then (s.count + 1) % 4294967296 else s.count }
  else s

/-- The registry part of `Clear` (lines 663-671). -/
def Clear (s : Scene) : Scene :=
  { s with
    g_meshes := []
    g_mesh_names := []
    g_mesh_paths := []
    g_selected_positions := fun _ => none }

/-- A request to the scene registry. -/
inductive SceneOp where
  | load (path : String) (ptr : Nat)
  | clear

/-- Effect of one request. -/
def applySceneOp (lx : LoaderExternals) (s : Scene) : SceneOp → Scene
  | .load path ptr => LoadMesh lx path ptr s
  | .clear => Clear s

/-- Effect of a sequence of requests, in order. -/
def runSceneOps (lx : LoaderExternals) (s : Scene) (ops : List SceneOp) : Scene :=
  ops.foldl (applySceneOp lx) s

/-- A loader that knows the file `a.obj`, the demo triangle; any other path has the
extension `txt`. -/
def demoLoader : LoaderExternals where
  ExtractExt := fun path => if path = "a.obj" then "obj" else "txt"
  ExtractFilename := fun path => path
  LoadObj := fun _ => some (demoMesh ⟨1, 1, [1]⟩)
  color_table := fun _ => (125, 125, 200)

/-! ## Alignment by selected points (lines 1186-1218) -/

/-- The two library functions called by the alignment by selected points. -/
structure AlignExternals where
  /-- Function `ugu::FindSimilarityTransformFrom3dCorrespondences`. -/
  FindSimilarityTransformFrom3dCorrespondences : List Vec3 → List Vec3 → Affine3
  /-- Function `ugu::FindRigidTransformFrom3dCorrespondences`. -/
  FindRigidTransformFrom3dCorrespondences : List Vec3 → List Vec3 → Affine3

/-- The map after `g_selected_positions[g_meshes[k]]` has been evaluated: `operator[]`
inserts an empty vector under a missing key. -/
def touchKey (sel : SelectedPositions) (k : Nat) : SelectedPositions :=
  Function.update sel k (some (pointsOf sel k))

/-- A press of "Run" for the alignment by selected points (lines 1188-1218), `with_scale`
being the check box of line 1220: the state and the value of `reset_points` it leaves.
The result is `none` when a selected mesh does not exist or a position cannot be
computed. -/
def runAlignment (ax : AlignExternals) (with_scale : Bool) (src_id dst_id : Int)
    (reset_points : Bool) (s : AppState) : Option (AppState × Bool) :=
  let (ok, s0) := validate_func src_id dst_id s
  if ok = true then
    match s.g_meshes[src_id.toNat]?, s.g_meshes[dst_id.toNat]? with
    | some _, some _ =>
      let sel1 := touchKey s0.g_selected_positions src_id.toNat
      let sel2 := touchKey sel1 dst_id.toNat
      let s1 := { s0 with g_selected_positions := sel2 }
      match ExtractPos s1 (pointsOf sel1 src_id.toNat),
        ExtractPos s1 (pointsOf sel2 dst_id.toNat) with
      | some src_points, some dst_points =>
        if 3 ≤ src_points.length ∧ src_points.length = dst_points.length then
          let src2dst :=
            if with_scale = true then
              ax.FindSimilarityTransformFrom3dCorrespondences src_points dst_points
            else ax.FindRigidTransformFrom3dCorrespondences src_points dst_points
          some ({ s1 with
            g_model_matrices := Function.update s1.g_model_matrices src_id.toNat
              (src2dst.mul (s1.g_model_matrices src_id.toNat))
            g_update_bvh := Function.update s1.g_update_bvh src_id.toNat true }, true)
        else
          some ({ s1 with
            popup_error := true
            g_error_message :=
              if src_points.length < 3 then .at_least_3_correspondences
              else .must_have_same_number }, reset_points)
      | _, _ => none
    | _, _ => none
  else some (s0, reset_points)

/-- Alignment functions for the demo state: both return the shift by `(1, 0, 0)`. -/
def demoAlign : AlignExternals where
  FindSimilarityTransformFrom3dCorrespondences := fun _ _ => demoShift
  FindRigidTransformFrom3dCorrespondences := fun _ _ => demoShift

/-- A stored point of mesh `k` at the first vertex of its triangle. -/
def vertexPoint (k : Nat) : CastRayResult := ⟨k, ⟨0, 0, 0, 1⟩⟩

/-- The demo state with three correspondences on each of the two meshes. -/
def demoAlignState : AppState :=
  { demoState with
    g_selected_positions := fun k =>
      if k < 2 then some [vertexPoint k, vertexPoint k, vertexPoint k] else none }

/-- The started non-rigid job of the demo state after two edits made before the worker
promotes it: a point is added to the list of the source mesh and the source mesh is
shifted. -/
def demoNonrigidEdited : AppState :=
  { demoNonrigidStarted with
    g_selected_positions :=
      Function.update demoNonrigidStarted.g_selected_positions 0 (some [vertexPoint 0])
    g_model_matrices := Function.update demoNonrigidStarted.g_model_matrices 0 demoShift }

/-! ## The data members of a view and its camera (lines 435-485)

The structure `SplitViewInfo` above holds what the picking methods of a view read through
its renderer; `SplitViewFields` holds the data members of `struct SplitViewInfo` and the
state of its `PinholeCamera` that the resize and drag code reads and writes. Window sizes are
natural numbers: GLFW reports sizes that are not negative. -/

/-- Type `Eigen::Vector2d`. -/
structure Vec2 where
  x : ℚ
  y : ℚ
deriving DecidableEq

/-- Difference of two cursor positions. -/
def Vec2.sub (a b : Vec2) : Vec2 := ⟨a.x - b.x, a.y - b.y⟩

/-- The test `v.norm() > th`: the Euclidean norm exceeds `th` exactly when `th` is negative
or the squared norm exceeds the square of `th`. -/
def Vec2.normGt (v : Vec2) (th : ℚ) : Bool :=
  decide (th < 0 ∨ th * th < v.x * v.x + v.y * v.y)

/-- The drag threshold `drag_th` (line 56). -/
def drag_th : ℚ := 0

/-- Type `Eigen::Matrix3d`, by rows. -/
structure Mat3 where
  r0 : Vec3
  r1 : Vec3
  r2 : Vec3
deriving DecidableEq

/-- Column `col(0)` of a matrix. -/
def Mat3.col0 (R : Mat3) : Vec3 := ⟨R.r0.x, R.r1.x, R.r2.x⟩

/-- Column `col(1)` of a matrix. -/
def Mat3.col1 (R : Mat3) : Vec3 := ⟨R.r0.y, R.r1.y, R.r2.y⟩

/-- Column `col(2)` of a matrix. -/
def Mat3.col2 (R : Mat3) : Vec3 := ⟨R.r0.z, R.r1.z, R.r2.z⟩

/-- Product of a matrix and a vector. -/
def Mat3.mulVec (R : Mat3) (v : Vec3) : Vec3 := ⟨R.r0.dot v, R.r1.dot v, R.r2.dot v⟩

/-- The opposite vector. -/
def Vec3.neg (a : Vec3) : Vec3 := ⟨-a.x, -a.y, -a.z⟩

/-- The squared Euclidean norm. -/
def Vec3.normSq (a : Vec3) : ℚ := a.dot a

/-- The linear part of a transform. -/
def Affine3.linear (T : Affine3) : Mat3 := ⟨T.r0, T.r1, T.r2⟩

/-- The transform `Eigen::Translation3d(v)`. -/
def Affine3.translation (v : Vec3) : Affine3 := ⟨⟨1, 0, 0⟩, ⟨0, 1, 0⟩, ⟨0, 0, 1⟩, v⟩

/-- The transform `Eigen::Translation3d(v) * R` for a matrix `R`. -/
def Affine3.ofLinear (R : Mat3) (v : Vec3) : Affine3 := ⟨R.r0, R.r1, R.r2, v⟩

/-- Type `Eigen::Quaterniond`. -/
structure Quaternion where
  w : ℚ
  x : ℚ
  y : ℚ
  z : ℚ
deriving DecidableEq

/-- Product of two quaternions (`Eigen::Quaterniond::operator*`). -/
def Quaternion.mul (a b : Quaternion) : Quaternion :=
  ⟨a.w * b.w - a.x * b.x - a.y * b.y - a.z * b.z,
   a.w * b.x + a.x * b.w + a.y * b.z - a.z * b.y,
   a.w * b.y + a.y * b.w + a.z * b.x - a.x * b.z,
   a.w * b.z + a.z * b.w + a.x * b.y - a.y * b.x⟩

/-- The squared norm of a quaternion. -/
def Quaternion.normSq (q : Quaternion) : ℚ := q.w * q.w + q.x * q.x + q.y * q.y + q.z * q.z

/-- The matrix of a quaternion (`Eigen::Quaterniond::toRotationMatrix`), which is what the
product of a translation and a quaternion uses as linear part. -/
def Quaternion.toRotationMatrix (q : Quaternion) : Mat3 :=
  ⟨⟨1 - (2 * q.y * q.y + 2 * q.z * q.z), 2 * q.y * q.x - 2 * q.z * q.w,
      2 * q.z * q.x + 2 * q.y * q.w⟩,
   ⟨2 * q.y * q.x + 2 * q.z * q.w, 1 - (2 * q.x * q.x + 2 * q.z * q.z),
      2 * q.z * q.y - 2 * q.x * q.w⟩,
   ⟨2 * q.z * q.x - 2 * q.y * q.w, 2 * q.z * q.y + 2 * q.x * q.w,
      1 - (2 * q.x * q.x + 2 * q.y * q.y)⟩⟩

/-- The mathematical functions that the drag code calls. -/
structure MathExternals where
  /-- The constant `ugu::pi`. -/
  pi : ℚ
  /-- Function `cos`. -/
  cos : ℚ → ℚ
  /-- Function `sin`. -/
  sin : ℚ → ℚ
  /-- Method `Eigen::Affine3d::rotation()`: the rotation factor of the linear part. -/
  rotation : Affine3 → Mat3

/-- The quaternion of `Eigen::AngleAxisd(angle, axis)`: `w = cos(angle / 2)` and
`vec = sin(angle / 2) * axis`. -/
def AngleAxis (mx : MathExternals) (angle : ℚ) (axis : Vec3) : Quaternion :=
  ⟨mx.cos (angle / 2), mx.sin (angle / 2) * axis.x, mx.sin (angle / 2) * axis.y,
    mx.sin (angle / 2) * axis.z⟩

/-- Product of two 3 by 3 matrices. -/
def Mat3.mul (A B : Mat3) : Mat3 :=
  ⟨⟨A.r0.dot B.col0, A.r0.dot B.col1, A.r0.dot B.col2⟩,
   ⟨A.r1.dot B.col0, A.r1.dot B.col1, A.r1.dot B.col2⟩,
   ⟨A.r2.dot B.col0, A.r2.dot B.col1, A.r2.dot B.col2⟩⟩

/-- The rotation about the unit axis `k` by the angle whose cosine is `c` and whose sine is
`s`, counter-clockwise seen from the tip of `k` (the formula of Rodrigues,
`c * I + s * [k]ₓ + (1 - c) * k * kᵀ`). This definition follows the words "rotation about an
axis by an angle" and not the code; `Quaternion.toRotationMatrix` of `AngleAxis` is compared
with it. -/
def rotationAboutAxis (c s : ℚ) (k : Vec3) : Mat3 :=
  ⟨⟨c + (1 - c) * k.x * k.x, (1 - c) * k.x * k.y - s * k.z, (1 - c) * k.x * k.z + s * k.y⟩,
   ⟨(1 - c) * k.y * k.x + s * k.z, c + (1 - c) * k.y * k.y, (1 - c) * k.y * k.z - s * k.x⟩,
   ⟨(1 - c) * k.z * k.x - s * k.y, (1 - c) * k.z * k.y + s * k.x, c + (1 - c) * k.z * k.z⟩⟩

/-- The identities of `cos` and `sin` at the angle `θ` and its half that hold over the reals:
`cos² + sin² = 1` at `θ / 2`, and the two formulas of the double angle. -/
def TrigAt (mx : MathExternals) (θ : ℚ) : Prop :=
  mx.cos (θ / 2) ^ 2 + mx.sin (θ / 2) ^ 2 = 1 ∧
  mx.cos θ = mx.cos (θ / 2) ^ 2 - mx.sin (θ / 2) ^ 2 ∧
  mx.sin θ = 2 * mx.sin (θ / 2) * mx.cos (θ / 2)

/-- A `uint32_t` value converted to `int`. -/
def toInt32 (n : Nat) : Int :=
  if n % 4294967296 < 2147483648 then ((n % 4294967296 : Nat) : Int)
  else ((n % 4294967296 : Nat) : Int) - 4294967296

/-- The state of a `PinholeCamera` that `main.cc` sets in `Reset` and in the drag code. -/
structure PinholeCamera where
  width : Int
  height : Int
  fov_y : ℚ
  principal_point : ℚ × ℚ
  c2w : Affine3
deriving DecidableEq

/-- The data members of `struct SplitViewInfo` (lines 436-444); `renderer_size` is the size
given to the renderer by `SetSize`. -/
structure SplitViewFields where
  camera : PinholeCamera
  renderer_size : Nat × Nat
  offset : Int × Int
  id : Nat
  trans_speed : ℚ
  wheel_speed : ℚ
  rotate_speed : ℚ
  offset_to_rot_center : Vec3
deriving DecidableEq

/-- The method `SplitViewInfo::Reset` (lines 469-485) for `n_views = g_views.size()`;
`ResetGl` only rebuilds the state of the renderer. -/
def SplitViewFields.Reset (g_width g_height n_views : Nat) (view : SplitViewFields) :
    SplitViewFields :=
  let wh := GetWidthHeightForView g_width g_height n_views
  { view with
    camera := {
      width := toInt32 wh.1
      height := toInt32 wh.2
      fov_y := 45
      principal_point := ((wh.1 : ℚ) / 2, (wh.2 : ℚ) / 2)
      c2w := Affine3.identity }
    renderer_size := (wh.1, wh.2)
    offset := (toInt32 (view.id * wh.1), 0) }

/-- The globals of the cursor, wheel and resize handlers, on top of `InputGlobals`; the
field `g_views` holds the data members of the views in `g_views`. -/
structure DragGlobals extends InputGlobals where
  g_prev_cursor_pos : Vec2
  g_cursor_pos : Vec2
  g_mouse_wheel_yoffset : ℚ
  g_width : Nat
  g_height : Nat
  g_views : List SplitViewFields

/-- The function `window_size_callback` (lines 889-904). -/
def window_size_callback (width height : Nat) (s : DragGlobals) : DragGlobals :=
  if width < 1 ∧ height < 1 then s
  else
    { s with
      g_width := width
      g_height := height
      g_views := s.g_views.map (fun view =>
        let org_c2w := view.camera.c2w
        let view1 := view.Reset width height s.g_views.length
        { view1 with camera := { view1.camera with c2w := org_c2w } }) }

/-- The function `cursor_enter_callback` (lines 912-920). -/
def cursor_enter_callback (s : InputGlobals) : InputGlobals :=
  { s with
    g_to_process_drag_l := false
    g_to_process_drag_r := false
    g_to_process_drag_m := false
    g_subwindow_id := NONE_ID }

/-- The function `mouse_wheel_callback` (lines 773-778). -/
def mouse_wheel_callback (yoffset : ℚ) (s : DragGlobals) : DragGlobals :=
  { s with g_mouse_wheel_yoffset := yoffset, g_to_process_wheel := true }

/-- The conversion `static_cast<uint32_t>` of a `double`: the value truncated toward zero,
`none` when the truncated value is not a `uint32_t`. -/
def castUint32 (x : ℚ) : Option Nat :=
  if -1 < x ∧ x < 4294967296 then some (Int.toNat (Rat.floor x)) else none

/-- The loop of lines 797-803 for the cursor column `x`: the first view whose strip holds
the column, if there is one. -/
def firstViewUnderCursor (g_width n_views x : Nat) : Option Nat :=
  (List.range (n_views % 4294967296)).find? (fun vidx => IsCursorOnView g_width n_views x vidx)

/-- The function `cursor_pos_callback` (lines 780-804); `none` when a view exists and the
cursor column is not a `uint32_t`. -/
def cursor_pos_callback (xoffset yoffset : ℚ) (s : DragGlobals) : Option DragGlobals :=
  let s1 : DragGlobals := { s with
    g_prev_cursor_pos := s.g_cursor_pos
    g_cursor_pos := ⟨xoffset, yoffset⟩
    g_to_process_drag_l := if s.g_mouse_l_pressed = true then true else s.g_to_process_drag_l
    g_to_process_drag_m := if s.g_mouse_m_pressed = true then true else s.g_to_process_drag_m
    g_to_process_drag_r := if s.g_mouse_r_pressed = true then true else s.g_to_process_drag_r
    g_prev_subwindow_id := s.g_subwindow_id }
  if s.g_views.length % 4294967296 = 0 then some s1
  else
    match castUint32 xoffset with
    | none => none
    | some x =>
      match firstViewUnderCursor s.g_width s.g_views.length x with
      | some vidx => some { s1 with g_subwindow_id := vidx }
      | none => some s1

/-! ## The camera part of `ProcessDrags` (lines 964-1057) -/

/-- The angle of one factor of `R_offset` (lines 981 and 984) for the cursor move `d` along
one axis: `2 * pi * d / g_height * rotate_speed`. For `g_height = 0` the code divides a
`double` by zero (an infinity or a NaN), which the rationals do not represent: the value
here is then 0, and the statements on the orbit are made for `g_height ≠ 0`. -/
def orbitAngle (mx : MathExternals) (g_height : Nat) (d : ℚ) (view : SplitViewFields) : ℚ :=
  2 * mx.pi * d / (g_height : ℚ) * view.rotate_speed

/-- The value `R_offset` of the left drag (lines 979-988) for the cursor move `diff`: the
product of `AngleAxisd` of the angle of `diff[0]` about the opposite of column 1 of the
camera rotation, and of `AngleAxisd` of the angle of `diff[1]` about the opposite of
column 0. -/
def orbitRotation (mx : MathExternals) (g_height : Nat) (diff : Vec2) (view : SplitViewFields) :
    Quaternion :=
  let R_cur := mx.rotation view.camera.c2w
  let right_axis := R_cur.col0.neg
  let up_axis := R_cur.col1.neg
  (AngleAxis mx (orbitAngle mx g_height diff.x view) up_axis).mul
    (AngleAxis mx (orbitAngle mx g_height diff.y view) right_axis)

/-- The left drag of `ProcessDrags` (lines 974-995) on the view under the cursor, for the
cursor move `diff`: the orbit about `offset_to_rot_center`. -/
def orbitDrag (mx : MathExternals) (g_height : Nat) (diff : Vec2) (view : SplitViewFields) :
    SplitViewFields :=
  if diff.normGt drag_th = true then
    let cam_pose_cur := view.camera.c2w
    let R_offset := orbitRotation mx g_height diff view
    let cam_pose_new :=
      (((Affine3.translation view.offset_to_rot_center).mul
        (Affine3.ofLinear R_offset.toRotationMatrix ⟨0, 0, 0⟩)).mul
        (Affine3.translation view.offset_to_rot_center.neg)).mul cam_pose_cur
    { view with camera := { view.camera with c2w := cam_pose_new } }
  else view

/-- The middle drag of `ProcessDrags` (lines 1002-1017) on the view under the cursor, for
the cursor move `diff`: the pan. -/
def panDrag (mx : MathExternals) (diff : Vec2) (view : SplitViewFields) : SplitViewFields :=
  if diff.normGt drag_th = true then
    let cam_pose_cur := view.camera.c2w
    let R_cur := mx.rotation cam_pose_cur
    let right_axis := R_cur.col0.neg
    let up_axis := R_cur.col1
    let t_offset := (Vec3.smul view.trans_speed (Vec3.smul diff.x right_axis)).add
      (Vec3.smul view.trans_speed (Vec3.smul diff.y up_axis))
    let cam_pose_new := Affine3.ofLinear (mx.rotation cam_pose_cur) (t_offset.add cam_pose_cur.t)
    { view with camera := { view.camera with c2w := cam_pose_new } }
  else view

/-- The wheel branch of `ProcessDrags` (lines 1048-1054) on the view under the cursor: the
zoom. -/
def wheelZoom (mx : MathExternals) (g_mouse_wheel_yoffset : ℚ) (view : SplitViewFields) :
    SplitViewFields :=
  let cam_pose_cur := view.camera.c2w
  let t_offset := Vec3.smul view.wheel_speed
    (Vec3.smul (-g_mouse_wheel_yoffset) (mx.rotation cam_pose_cur).col2)
  let cam_pose_new := Affine3.ofLinear (mx.rotation cam_pose_cur) (t_offset.add cam_pose_cur.t)
  { view with camera := { view.camera with c2w := cam_pose_new } }

/-- What `ProcessDrags` (lines 964-1057) does to the views: the left drag, the middle drag
and the wheel, on the view `g_subwindow_id`; `none` when that view is out of range. The
flags and the correspondence lists are the part `ProcessDrags` above. -/
def ProcessDragsViews (mx : MathExternals) (want_capture_mouse : Bool) (s : DragGlobals) :
    Option (List SplitViewFields) :=
  if want_capture_mouse = true then some s.g_views
  else if s.g_subwindow_id ≠ NONE_ID ∧ s.g_subwindow_id = s.g_prev_subwindow_id then
    match s.g_views[s.g_subwindow_id]? with
    | none => none
    | some view =>
      let diff := s.g_cursor_pos.sub s.g_prev_cursor_pos
      let view1 := if s.g_to_process_drag_l = true then orbitDrag mx s.g_height diff view else view
      let view2 := if s.g_to_process_drag_m = true then panDrag mx diff view1 else view1
      let view3 :=
        if s.g_to_process_wheel = true then wheelZoom mx s.g_mouse_wheel_yoffset view2 else view2
      some (s.g_views.set s.g_subwindow_id view3)
  else some s.g_views

/-- Mathematical functions for the demo states: `cos` and `sin` take the values of a half
turn at every angle other than zero, and `rotation()` returns the linear part (the demo
poses are rigid). -/
def demoMath : MathExternals where
  pi := 3
  cos := fun a => if a = 0 then 1 else 0
  sin := fun a => if a = 0 then 0 else 1
  rotation := fun T => T.linear

/-- A view as `Init` and `LoadMesh` leave it for index `id` in a window of 1920 by 1080 with
two views, with the camera at `(0, 0, 5)` and unit drag speeds. -/
def demoViewFields (id : Nat) : SplitViewFields where
  camera := {
    width := 960, height := 1080, fov_y := 45, principal_point := (480, 540),
    c2w := ⟨⟨1, 0, 0⟩, ⟨0, 1, 0⟩, ⟨0, 0, 1⟩, ⟨0, 0, 5⟩⟩ }
  renderer_size := (960, 1080)
  offset := ((960 * id : Nat), 0)
  id := id
  trans_speed := 1
  wheel_speed := 1
  rotate_speed := 1
  offset_to_rot_center := ⟨0, 0, 0⟩

/-- A window of 1921 by 1080 with two views, the cursor at column 1900 in view 1 after two
samples there, and the middle button held. -/
def demoDrag : DragGlobals where
  g_mouse_l_pressed := false
  g_mouse_m_pressed := true
  g_mouse_r_pressed := false
  g_to_process_drag_l := false
  g_to_process_drag_m := false
  g_to_process_drag_r := false
  g_to_process_wheel := false
  g_subwindow_id := 1
  g_prev_subwindow_id := 1
  g_selected_positions := fun _ => none
  g_prev_cursor_pos := ⟨1900, 100⟩
  g_cursor_pos := ⟨1900, 100⟩
  g_mouse_wheel_yoffset := 0
  g_width := 1921
  g_height := 1080
  g_views := [demoViewFields 0, demoViewFields 1]

/-! ## The `Apply transform` button (lines 1507-1513) -/

/-- The methods of `ugu::RenderableMesh` called by the mesh panel. -/
structure MeshExternals where
  /-- Method `Transform(T)`: the mesh after the call. -/
  Transform : Mesh → Affine3 → Mesh

/-- A press of `Apply transform` for mesh `i` (lines 1507-1513): the state and the value of
`reset_points` it leaves; `none` when mesh `i` does not exist. -/
def applyTransformButton (mx : MeshExternals) (i : Nat) (s : AppState) :
    Option (AppState × Bool) :=
  match s.g_meshes[i]? with
  | none => none
  | some mesh =>
    some ({ s with
      g_meshes := s.g_meshes.set i (mx.Transform mesh (s.g_model_matrices i))
      g_model_matrices := Function.update s.g_model_matrices i Affine3.identity
      g_update_bvh := Function.update s.g_update_bvh i true }, true)

/-- The barycentric point `u * (v1 - v0) + v * (v2 - v0) + v0` of lines 100-101. -/
def barycentricPoint (v0 v1 v2 : Vec3) (u v : ℚ) : Vec3 :=
  ((Vec3.smul u (v1.sub v0)).add (Vec3.smul v (v2.sub v0))).add v0

/-- A `Transform` that maps every vertex and every normal by `T` and keeps the faces. -/
def demoMeshExt : MeshExternals where
  Transform := fun mesh T =>
    { mesh with
      vertices := mesh.vertices.map T.apply
      normals := mesh.normals.map { T with t := ⟨0, 0, 0⟩ }.apply }

/-! ## The worker loop and the end of `main` (lines 399-409 and 2049-2060) -/

/-- How a run of `AlgorithmProcess` ends: the loop was left after a number of iterations, a
process function failed, or the loop is still running when the bound on the number of loop
tests is reached. -/
inductive WorkerResult where
  | exited (iterations : Nat) (s : AppState)
  | failed
  | running

/-- The function `AlgorithmProcess` (lines 399-409): `finish k` is the value of
`g_algorithm_process_finish` read by loop test number `k`, the first argument bounds the
number of loop tests, the second is the number of the next loop test. -/
def AlgorithmProcess (ext : Externals) (finish : Nat → Bool) :
    Nat → Nat → AppState → WorkerResult
  | 0, _, _ => .running
  | fuel + 1, k, s =>
    if finish k = true then .exited k s
    else
      match AlgorithmProcess_iteration ext s with
      | none => .failed
      | some s' => AlgorithmProcess ext finish fuel (k + 1) s'

/-- The state after `m` iterations of the worker loop. -/
def workerIterations (ext : Externals) : Nat → AppState → Option AppState
  | 0, s => some s
  | m + 1, s =>
    match AlgorithmProcess_iteration ext s with
    | none => none
    | some s' => workerIterations ext m s'

/-- What the last statements of `main` release and set. -/
structure MainState where
  /-- The OpenGL backend of ImGui is initialised. -/
  imgui_opengl3 : Bool
  /-- The GLFW backend of ImGui is initialised. -/
  imgui_glfw : Bool
  /-- The ImGui context exists. -/
  imgui_context : Bool
  /-- The window exists. -/
  window : Bool
  /-- The library GLFW is initialised. -/
  glfw : Bool
  g_algorithm_process_finish : Bool
  /-- The call `algorithm_thread.join()` has returned. -/
  algorithm_thread_joined : Bool
deriving DecidableEq

/-- The statements of lines 2049-2058. -/
inductive CleanupStatement where
  | ImGui_ImplOpenGL3_Shutdown
  | ImGui_ImplGlfw_Shutdown
  | DestroyContext
  | glfwDestroyWindow
  | glfwTerminate
  | set_algorithm_process_finish
  | algorithm_thread_join
deriving DecidableEq

/-- Effect of one statement. -/
def runStatement (m : MainState) : CleanupStatement → MainState
  | .ImGui_ImplOpenGL3_Shutdown => { m with imgui_opengl3 := false }
  | .ImGui_ImplGlfw_Shutdown => { m with imgui_glfw := false }
  | .DestroyContext => { m with imgui_context := false }
  | .glfwDestroyWindow => { m with window := false }
  | .glfwTerminate => { m with glfw := false }
  | .set_algorithm_process_finish => { m with g_algorithm_process_finish := true }
  | .algorithm_thread_join => { m with algorithm_thread_joined := true }

/-- The statements of `main` after the main loop, in the order of lines 2049-2058. -/
def main_cleanup : List CleanupStatement :=
  [.ImGui_ImplOpenGL3_Shutdown, .ImGui_ImplGlfw_Shutdown, .DestroyContext, .glfwDestroyWindow,
    .glfwTerminate, .set_algorithm_process_finish, .algorithm_thread_join]

/-- The state of `main` after the first `k` statements of `main_cleanup`. -/
def cleanupAfter (k : Nat) (m : MainState) : MainState :=
  (main_cleanup.take k).foldl runStatement m

/-- No graphics resource is released yet. -/
def MainState.graphicsAlive (m : MainState) : Prop :=
  m.imgui_opengl3 = true ∧ m.imgui_glfw = true ∧ m.imgui_context = true ∧ m.window = true ∧
    m.glfw = true

/-- Every graphics resource is released. -/
def MainState.graphicsReleased (m : MainState) : Prop :=
  m.imgui_opengl3 = false ∧ m.imgui_glfw = false ∧ m.imgui_context = false ∧
    m.window = false ∧ m.glfw = false

/-- The state of `main` when the main loop is left: everything is alive, the stop flag is
not set. -/
def demoMain : MainState := ⟨true, true, true, true, true, false, false⟩

/-! ## The stiffness schedule of `NonrigidIcpProcess` (lines 317-333) -/

/-- The values of `alpha` of the loop of lines 317-333, in the order of the stages
`i = 1, ..., step`. -/
def stageAlphas (d : NonrigidIcpData) : List ℚ :=
  (List.range d.step.toNat).map (fun (k : Nat) => stageAlpha d ((k : Int) + 1))

/-- The calls of `Registrate` of the loop of lines 317-333 for the stiffness values
`alphas`, from the solver state `nicp`. -/
def registrateAll (ext : Externals) (d : NonrigidIcpData) (alphas : List ℚ) (nicp : ext.Nicp) :
    ext.Nicp :=
  alphas.foldl
    (fun acc alpha => ext.Registrate acc alpha d.gamma d.max_internal_iter d.min_frobenius_norm_diff)
    nicp

/-- Library functions as in `demoExt`, with a non-rigid solver whose state is the list of
the stiffness values it was called with. -/
def recordingExt : Externals where
  RigidIcp_progress := fun _ => []
  RigidIcp := fun _ => ⟨[1], [demoShift]⟩
  normalize := fun p => p
  Nicp := List ℚ
  nicp_init := fun _ => []
  Registrate := fun l alpha _ _ _ => l ++ [alpha]
  deformed := fun _ _ =>
    ([⟨0, 0, 1⟩, ⟨1, 0, 1⟩, ⟨0, 1, 1⟩], [⟨0, 0, 1⟩, ⟨0, 0, 1⟩, ⟨0, 0, 1⟩])
  CalcNormal := fun m => m.normals
  TexTransNoCorresp := fun img _ _ _ _ _ _ => ⟨img, img⟩
  inpainted := fun o => o.dst_tex
  elapsed_msec := 0

/-- The started non-rigid job of the demo state with stiffness bounds 10 and 0 and two
stages. -/
def demoStiffnessStarted : AppState :=
  { demoNonrigidStarted with
    g_nonrigidicp_data := { demoNonrigidStarted.g_nonrigidicp_data with
      max_alpha := 10, min_alpha := 0, step := 2 } }

/-- A rigid solver that leaves both histories empty. -/
def emptyHistoryExt : Externals :=
  { demoExt with RigidIcp := fun _ => ⟨[], []⟩ }

/-! ## Ownership of the stored points -/

/-- Every entry of the list of mesh `k` carries `min_geoid = k`. -/
def OwnsEntries (sel : SelectedPositions) : Prop :=
  ∀ k points, sel k = some points → ∀ r ∈ points, r.min_geoid = k

/-- One operation on the correspondence lists: a right press, a frame of `ProcessDrags`
(the right drag), a pass of the points panel of mesh `i` with or without `Remove`, or a
press of `Import` for mesh `i`. -/
inductive SelStep (d0 : IntersectResult) (n : Nat) : SelectedPositions → SelectedPositions → Prop
  | press (g_views : List SplitViewInfo) (s s' : InputGlobals) :
      mouse_button_callback d0 n g_views .RIGHT true s = some s' →
      SelStep d0 n s.g_selected_positions s'.g_selected_positions
  | drag (g_views : List SplitViewInfo) (want_capture_mouse : Bool) (s s' : InputGlobals) :
      ProcessDrags d0 n g_views want_capture_mouse s = some s' →
      SelStep d0 n s.g_selected_positions s'.g_selected_positions
  | panel (sel : SelectedPositions) (i : Nat) (selected_point_idx select_click : Option Nat)
      (remove_click : Bool) :
      SelStep d0 n sel (Function.update sel i
        (some (pointsPanelPass selected_point_idx (pointsOf sel i) select_click remove_click).2))
  | import_points (LoadPoints : String → PointOnFaceType → Option (List PointOnFace))
      (i : Nat) (path : String) (pof_type : PointOnFaceType) (s : ImportState) :
      SelStep d0 n s.g_selected_positions
        (importButton d0 LoadPoints i path pof_type s).g_selected_positions

/-- The window of `demoDrag` at its initial size of 1920 by 1080 (lines 64-65). -/
def demoWindow : DragGlobals := { demoDrag with g_width := 1920 }

/-- The demo state with both meshes moved by the shift `(1, 0, 0)`. -/
def demoShifted : AppState := { demoState with g_model_matrices := fun _ => demoShift }

/-- The started rigid job of the demo state with `iter_max = 0`. -/
def demoRigidZeroIter : AppState :=
  { demoRigidStarted with g_icp_data := { demoRigidStarted.g_icp_data with iter_max := 0 } }

/-- The state of `demoWindow` after a pointer move to `(1000, 100)`. -/
def demoMoved : DragGlobals :=
  { demoWindow with
    g_prev_cursor_pos := ⟨1900, 100⟩
    g_cursor_pos := ⟨1000, 100⟩
    g_to_process_drag_m := true
    g_prev_subwindow_id := 1
    g_subwindow_id := 1 }

/-! ## States for the orbit, the arithmetic of `float` and the job state machine -/

/-- Mathematical functions with exact rational values on a circle: with the unit of angle
chosen so that `pi` is 1, `cos` and `sin` take the values `3 / 5` and `4 / 5` at the angle 1,
and the values that the double angle formulas give at 2 and at 4; `rotation()` returns the
linear part. -/
def orbitMath : MathExternals where
  pi := 1
  cos := fun a =>
    if a = 1 then 3 / 5 else if a = 2 then -7 / 25 else if a = 4 then -527 / 625 else 1
  sin := fun a =>
    if a = 1 then 4 / 5 else if a = 2 then 24 / 25 else if a = 4 then -336 / 625 else 0
  rotation := fun T => T.linear

/-- A view whose camera at `(0, 0, 5)` is turned a quarter about its viewing axis, with the
pivot at `(1, 2, 3)` and `rotate_speed` 1. -/
def orbitView : SplitViewFields :=
  { demoViewFields 0 with
    camera := { (demoViewFields 0).camera with
      c2w := ⟨⟨0, -1, 0⟩, ⟨1, 0, 0⟩, ⟨0, 0, 1⟩, ⟨0, 0, 5⟩⟩ }
    offset_to_rot_center := ⟨1, 2, 3⟩ }

/-! ## The arithmetic of `float` (binary32) -/

/-- The integer nearest to `q`, the even one of the two when `q` lies halfway. -/
def roundHalfEven (q : ℚ) : Int :=
  let f := Rat.floor q
  let r := q - (f : ℚ)
  if r < 1 / 2 then f else if 1 / 2 < r then f + 1 else if f % 2 = 0 then f else f + 1

/-- The power `2 ^ k` for an integer `k`. -/
def pow2 (k : Int) : ℚ :=
  if 0 ≤ k then ((2 ^ k.toNat : Nat) : ℚ) else 1 / ((2 ^ (-k).toNat : Nat) : ℚ)

/-- The number of times `n` can be halved before it is below 2, with a bound on the number
of steps: for `n ≤ fuel` and `1 ≤ n` the integer part of the base 2 logarithm of `n`. -/
def log2Fuel : Nat → Nat → Nat
  | 0, _ => 0
  | fuel + 1, n => if n < 2 then 0 else log2Fuel fuel (n / 2) + 1

/-- The integer `e` with `2 ^ e ≤ x < 2 ^ (e + 1)`, for `0 < x`. -/
def floorLog2 (x : ℚ) : Int :=
  if 1 ≤ x then (log2Fuel (Rat.floor x).toNat (Rat.floor x).toNat : Int)
  else
    let c := (Rat.ceil (1 / x)).toNat
    Int.neg ((log2Fuel c (c - 1) : Int) + 1)

/-- The `float` nearest to the rational `x` (binary32, 24 bits of significand, exponents from
-126, ties to the even significand), for `x` in the range of `float`: the rounding that every
`float` operation applies to its exact result. -/
def roundF32 (x : ℚ) : ℚ :=
  if x = 0 then 0
  else
    let a := |x|
    let e := max (floorLog2 a) (-126)
    let ulp := pow2 (e - 23)
    let m := roundHalfEven (a / ulp)
    if 0 < x then (m : ℚ) * ulp else -((m : ℚ) * ulp)

/-- Sum of two `Eigen::Vector3f`. -/
def Vec3.addF (a b : Vec3) : Vec3 :=
  ⟨roundF32 (a.x + b.x), roundF32 (a.y + b.y), roundF32 (a.z + b.z)⟩

/-- Difference of two `Eigen::Vector3f`. -/
def Vec3.subF (a b : Vec3) : Vec3 :=
  ⟨roundF32 (a.x - b.x), roundF32 (a.y - b.y), roundF32 (a.z - b.z)⟩

/-- Product of a `float` and an `Eigen::Vector3f`. -/
def Vec3.smulF (c : ℚ) (a : Vec3) : Vec3 :=
  ⟨roundF32 (c * a.x), roundF32 (c * a.y), roundF32 (c * a.z)⟩

/-- Dot product of two `Eigen::Vector3f`, the products added from left to right. -/
def Vec3.dotF (a b : Vec3) : ℚ :=
  roundF32 (roundF32 (roundF32 (a.x * b.x) + roundF32 (a.y * b.y)) + roundF32 (a.z * b.z))

/-- The product `T * p` of an `Eigen::Affine3f` and an `Eigen::Vector3f`: the linear part
applied to `p`, plus the translation. -/
def Affine3.applyF (T : Affine3) (p : Vec3) : Vec3 :=
  ⟨roundF32 (T.r0.dotF p + T.t.x), roundF32 (T.r1.dotF p + T.t.y),
    roundF32 (T.r2.dotF p + T.t.z)⟩

/-- The function `GetPos` (lines 93-105) with the arithmetic of `float` that the code uses
(`Eigen::Vector3f`, `Eigen::Affine3f`): every operation of lines 100-103 is rounded to
binary32. `GetPos` is the same computation without the roundings. -/
def GetPosF32 (s : AppState) (intersection : IntersectResult) (geoid : Nat) : Option Vec3 :=
  match s.g_meshes[geoid]? with
  | none => none
  | some mesh =>
    match mesh.vertex_indices[intersection.fid]? with
    | none => none
    | some face =>
      match mesh.vertices[face.i0]?, mesh.vertices[face.i1]?, mesh.vertices[face.i2]? with
      | some v0, some v1, some v2 =>
        let p := ((Vec3.smulF intersection.u (v1.subF v0)).addF
          (Vec3.smulF intersection.v (v2.subF v0))).addF v0
        some ((s.g_model_matrices geoid).applyF p)
      | _, _, _ => none

/-- A `Transform` that maps every vertex and every normal by `T` in the arithmetic of
`float` and keeps the faces. -/
def float32MeshExt : MeshExternals where
  Transform := fun mesh T =>
    { mesh with
      vertices := mesh.vertices.map T.applyF
      normals := mesh.normals.map { T with t := ⟨0, 0, 0⟩ }.applyF }

/-- The demo state with the triangle `(1, 0, 0)`, `(2, 0, 0)`, `(1, 1, 0)` as mesh 0 and the
shift by `(-1 / 2, 0, 0)` as model transform. -/
def floatState : AppState :=
  { demoState with
    g_meshes := [{ demoMesh ⟨1, 1, [1]⟩ with vertices := [⟨1, 0, 0⟩, ⟨2, 0, 0⟩, ⟨1, 1, 0⟩] },
      demoMesh ⟨1, 1, [2]⟩]
    g_model_matrices := fun _ => ⟨⟨1, 0, 0⟩, ⟨0, 1, 0⟩, ⟨0, 0, 1⟩, ⟨-1 / 2, 0, 0⟩⟩ }

/-! ## The job state machine as the program runs it -/

theorem castRay_succ (d0 : IntersectResult) (n : Nat) (view : SplitViewInfo) :
    CastRay d0 (n + 1) view = castRayStep view (CastRay d0 n view) n := by
  simp [CastRay, List.range_succ, List.foldl_append]

/-- Loop invariant of `CastRay`: after the first `n` meshes the running minimum is either
untouched, and then no visible first hit lies below `FLT_MAX`, or it is the earliest
visible first hit of smallest `t`. -/
theorem castRay_inv (d0 : IntersectResult) (view : SplitViewInfo) (n : Nat) :
    (CastRay d0 n view = castRayInit d0 ∧
        ∀ k r, k < n → FirstHit view k r → FLT_MAX ≤ r.t) ∨
      ((CastRay d0 n view).min_geoid < n ∧
        FirstHit view (CastRay d0 n view).min_geoid (CastRay d0 n view).intersection ∧
        (CastRay d0 n view).intersection.t < FLT_MAX ∧
        ∀ k r, k < n → FirstHit view k r →
          (CastRay d0 n view).intersection.t ≤ r.t ∧
            (k < (CastRay d0 n view).min_geoid → (CastRay d0 n view).intersection.t < r.t)) := by
  induction n with
  | zero =>
    left
    exact ⟨by simp [CastRay], fun k r hk => absurd hk (Nat.not_lt_zero k)⟩
  | succ n ih =>
    rw [castRay_succ]
    generalize CastRay d0 n view = acc at ih
    unfold castRayStep
    by_cases hv : view.visibility n = false
    · -- hidden mesh: skipped
      rw [if_pos hv]
      have hno : ∀ r, ¬ FirstHit view n r := by
        intro r hr
        rw [hr.1] at hv
        exact Bool.noConfusion hv
      rcases ih with ⟨h0, hall⟩ | ⟨hlt, hfirst, hmax, hmin⟩
      · left
        refine ⟨h0, fun k r hk hr => ?_⟩
        rcases Nat.lt_succ_iff_lt_or_eq.mp hk with hk | hk
        · exact hall k r hk hr
        · subst hk; exact absurd hr (hno r)
      · right
        refine ⟨Nat.lt_succ_of_lt hlt, hfirst, hmax, fun k r hk hr => ?_⟩
        rcases Nat.lt_succ_iff_lt_or_eq.mp hk with hk | hk
        · exact hmin k r hk hr
        · subst hk; exact absurd hr (hno r)
    · rw [if_neg hv]
      have hvis : view.visibility n = true := by simpa using hv
      cases hres : view.results_all n with
      | nil =>
        have hno : ∀ r, ¬ FirstHit view n r := by
          intro r hr
          have := hr.2
          rw [hres] at this
          simp at this
        simp only
        rcases ih with ⟨h0, hall⟩ | ⟨hlt, hfirst, hmax, hmin⟩
        · left
          refine ⟨h0, fun k r hk hr => ?_⟩
          rcases Nat.lt_succ_iff_lt_or_eq.mp hk with hk | hk
          · exact hall k r hk hr
          · subst hk; exact absurd hr (hno r)
        · right
          refine ⟨Nat.lt_succ_of_lt hlt, hfirst, hmax, fun k r hk hr => ?_⟩
          rcases Nat.lt_succ_iff_lt_or_eq.mp hk with hk | hk
          · exact hmin k r hk hr
          · subst hk; exact absurd hr (hno r)
      | cons r0 rest =>
        have hfn : FirstHit view n r0 := ⟨hvis, by rw [hres]; rfl⟩
        have honly : ∀ r, FirstHit view n r → r = r0 := by
          intro r hr
          have := hr.2
          rw [hres] at this
          simpa using this.symm
        simp only
        by_cases hlt0 : r0.t < acc.intersection.t
        · rw [if_pos hlt0]
          right
          rcases ih with ⟨h0, hall⟩ | ⟨hlt, hfirst, hmax, hmin⟩
          · have hacc : acc.intersection.t = FLT_MAX := by rw [h0]; rfl
            rw [hacc] at hlt0
            refine ⟨Nat.lt_succ_self n, hfn, hlt0, fun k r hk hr => ?_⟩
            rcases Nat.lt_succ_iff_lt_or_eq.mp hk with hk | hk
            · have := hall k r hk hr
              exact ⟨le_of_lt (lt_of_lt_of_le hlt0 this), fun _ => lt_of_lt_of_le hlt0 this⟩
            · subst hk
              rw [honly r hr]
              exact ⟨le_refl _, fun h => absurd h (lt_irrefl _)⟩
          · refine ⟨Nat.lt_succ_self n, hfn, lt_trans hlt0 hmax, fun k r hk hr => ?_⟩
            rcases Nat.lt_succ_iff_lt_or_eq.mp hk with hk | hk
            · have := (hmin k r hk hr).1
              exact ⟨le_of_lt (lt_of_lt_of_le hlt0 this), fun _ => lt_of_lt_of_le hlt0 this⟩
            · subst hk
              rw [honly r hr]
              exact ⟨le_refl _, fun h => absurd h (lt_irrefl _)⟩
        · rw [if_neg hlt0]
          have hge : acc.intersection.t ≤ r0.t := not_lt.mp hlt0
          rcases ih with ⟨h0, hall⟩ | ⟨hlt, hfirst, hmax, hmin⟩
          · left
            have hacc : acc.intersection.t = FLT_MAX := by rw [h0]; rfl
            refine ⟨h0, fun k r hk hr => ?_⟩
            rcases Nat.lt_succ_iff_lt_or_eq.mp hk with hk | hk
            · exact hall k r hk hr
            · subst hk
              rw [honly r hr, ← hacc]
              exact hge
          · right
            refine ⟨Nat.lt_succ_of_lt hlt, hfirst, hmax, fun k r hk hr => ?_⟩
            rcases Nat.lt_succ_iff_lt_or_eq.mp hk with hk | hk
            · exact hmin k r hk hr
            · subst hk
              rw [honly r hr]
              exact ⟨hge, fun h => absurd h (Nat.lt_asymm hlt)⟩

/-! ## Closest selected point -/

theorem th_lt_dbl_max : g_drag_point_pix_dist_th < DBL_MAX := by
  norm_num [g_drag_point_pix_dist_th, DBL_MAX]

theorem closestInv_mono (sel : SelectedPositions) (view : SplitViewInfo)
    (P Q : Nat → Nat → Prop) (acc : Closest)
    (hPQ : ∀ k i, P k i → Q k i)
    (hQP : ∀ k i p, Q k i → Candidate sel view k i p → P k i)
    (h : ClosestInv sel view P acc) : ClosestInv sel view Q acc := by
  rcases h with ⟨h0, hall⟩ | ⟨k, i, p, hP, hc, hacc, hlt, hmin⟩
  · exact Or.inl ⟨h0, fun k i p hq hc => hall k i p (hQP k i p hq hc) hc⟩
  · exact Or.inr ⟨k, i, p, hPQ k i hP, hc, hacc, hlt,
      fun k' i' q hq hc' => hmin k' i' q (hQP k' i' q hq hc') hc'⟩

theorem before_succ (k' i' k j : Nat) :
    Before k' i' k (j + 1) ↔ Before k' i' k j ∨ (k' = k ∧ i' = j) := by
  unfold Before
  constructor
  · rintro (h | ⟨h1, h2⟩)
    · exact Or.inl (Or.inl h)
    · rcases Nat.lt_succ_iff_lt_or_eq.mp h2 with h2 | h2
      · exact Or.inl (Or.inr ⟨h1, h2⟩)
      · exact Or.inr ⟨h1, h2⟩
  · rintro ((h | ⟨h1, h2⟩) | ⟨h1, h2⟩)
    · exact Or.inl h
    · exact Or.inr ⟨h1, Nat.lt_succ_of_lt h2⟩
    · exact Or.inr ⟨h1, by rw [h2]; exact Nat.lt_succ_self j⟩

theorem before_asymm (k' i' k i : Nat) (h : Before k' i' k i) : ¬ Before k i k' i' := by
  unfold Before at *
  omega

theorem closestPointStep_inv (sel : SelectedPositions) (view : SplitViewInfo)
    (k j : Nat) (points : List CastRayResult) (acc : Closest)
    (hsel : sel k = some points) (hvis : view.visibility k = true)
    (hj : j < points.length)
    (h : ClosestInv sel view (fun k' i' => Before k' i' k j) acc) :
    ClosestInv sel view (fun k' i' => Before k' i' k (j + 1))
      (closestPointStep view k points acc j) := by
  have hget : points[j]? = some points[j] := List.getElem?_eq_getElem hj
  -- a candidate at the new pair is the point read by this iteration
  have hnew : ∀ q, Candidate sel view k j q → q = points[j] := by
    rintro q ⟨⟨pts, hp1, hp2⟩, _⟩
    rw [hsel] at hp1
    cases hp1
    rw [hget] at hp2
    exact (Option.some.inj hp2).symm
  unfold closestPointStep
  rw [hget]
  simp only
  by_cases hcand : view.front_id points[j] ≠ NONE_ID ∧ view.mesh_id k = view.front_id points[j]
  · obtain ⟨hf, hm⟩ := hcand
    have hc : Candidate sel view k j points[j] := ⟨⟨points, hsel, hget⟩, hvis, hf, hm⟩
    rw [if_neg hf, if_neg (not_not.mpr hm)]
    by_cases hupd : view.pix_dist points[j] < g_drag_point_pix_dist_th ∧
        view.pix_dist points[j] < acc.min_dist
    · rw [if_pos hupd]
      right
      refine ⟨k, j, points[j], Or.inr ⟨rfl, Nat.lt_succ_self j⟩, hc, rfl, hupd.1, ?_⟩
      intro k' i' q hb hq
      rcases (before_succ k' i' k j).mp hb with hb | ⟨hk, hi⟩
      · have hstrict : view.pix_dist points[j] < view.pix_dist q := by
          rcases h with ⟨_, hall⟩ | ⟨ks, is, ps, _, _, hacc, _, hmin⟩
          · exact lt_of_lt_of_le hupd.1 (hall k' i' q hb hq)
          · have h2 := hupd.2
            rw [hacc] at h2
            exact lt_of_lt_of_le h2 (hmin k' i' q hb hq).1
        exact ⟨le_of_lt hstrict, fun _ => hstrict⟩
      · subst hk; subst hi
        rw [hnew q hq]
        exact ⟨le_refl _, fun hbb => absurd hbb (by unfold Before; omega)⟩
    · rw [if_neg hupd]
      rcases h with ⟨h0, hall⟩ | ⟨ks, is, ps, hP, hcs, hacc, hlt, hmin⟩
      · left
        refine ⟨h0, fun k' i' q hb hq => ?_⟩
        rcases (before_succ k' i' k j).mp hb with hb | ⟨hk, hi⟩
        · exact hall k' i' q hb hq
        · subst hk; subst hi
          rw [hnew q hq]
          by_contra hcon
          have h1 : view.pix_dist points[i'] < g_drag_point_pix_dist_th := not_le.mp hcon
          apply hupd
          refine ⟨h1, ?_⟩
          rw [h0]
          exact lt_trans h1 th_lt_dbl_max
      · right
        refine ⟨ks, is, ps, (before_succ ks is k j).mpr (Or.inl hP), hcs, hacc, hlt, ?_⟩
        intro k' i' q hb hq
        rcases (before_succ k' i' k j).mp hb with hb | ⟨hk, hi⟩
        · exact hmin k' i' q hb hq
        · subst hk; subst hi
          rw [hnew q hq]
          have hge : view.pix_dist ps ≤ view.pix_dist points[i'] := by
            by_contra hcon
            have h1 : view.pix_dist points[i'] < view.pix_dist ps := not_le.mp hcon
            apply hupd
            refine ⟨lt_trans h1 hlt, ?_⟩
            rw [hacc]
            exact h1
          exact ⟨hge, fun hbb => absurd hP (before_asymm _ _ _ _ hbb)⟩
  · have hno : ∀ q, ¬ Candidate sel view k j q := by
      intro q hq
      have hq' := hnew q hq
      subst hq'
      exact hcand ⟨hq.2.2.1, hq.2.2.2⟩
    have hsame : (if view.front_id points[j] = NONE_ID then acc
        else if view.mesh_id k ≠ view.front_id points[j] then acc
        else if view.pix_dist points[j] < g_drag_point_pix_dist_th ∧
            view.pix_dist points[j] < acc.min_dist then
          (⟨true, k % 4294967296, j, view.pix_dist points[j]⟩ : Closest)
        else acc) = acc := by
      by_cases hf : view.front_id points[j] = NONE_ID
      · rw [if_pos hf]
      · rw [if_neg hf]
        by_cases hm : view.mesh_id k ≠ view.front_id points[j]
        · rw [if_pos hm]
        · exact absurd ⟨hf, not_not.mp hm⟩ hcand
    rw [hsame]
    refine closestInv_mono sel view _ _ acc ?_ ?_ h
    · intro k' i' hb
      exact (before_succ k' i' k j).mpr (Or.inl hb)
    · intro k' i' q hb hq
      rcases (before_succ k' i' k j).mp hb with hb | ⟨hk, hi⟩
      · exact hb
      · subst hk; subst hi
        exact absurd hq (hno q)

theorem closestPointLoop_inv (sel : SelectedPositions) (view : SplitViewInfo)
    (k : Nat) (points : List CastRayResult) (acc : Closest)
    (hsel : sel k = some points) (hvis : view.visibility k = true)
    (h : ClosestInv sel view (fun k' i' => Before k' i' k 0) acc) (j : Nat)
    (hj : j ≤ points.length) :
    ClosestInv sel view (fun k' i' => Before k' i' k j)
      ((List.range j).foldl (closestPointStep view k points) acc) := by
  induction j with
  | zero => simpa using h
  | succ j ih =>
    rw [List.range_succ, List.foldl_append]
    exact closestPointStep_inv sel view k j points _ hsel hvis hj (ih (Nat.le_of_succ_le hj))

theorem closestMeshStep_inv (sel : SelectedPositions) (view : SplitViewInfo)
    (k : Nat) (acc : Closest)
    (h : ClosestInv sel view (fun k' _ => k' < k) acc) :
    ClosestInv sel view (fun k' _ => k' < k + 1) (closestMeshStep view sel acc k) := by
  unfold closestMeshStep
  cases hsel : sel k with
  | none =>
    simp only
    refine closestInv_mono sel view _ _ acc (fun k' _ hk => Nat.lt_succ_of_lt hk) ?_ h
    intro k' i' q hk hq
    rcases Nat.lt_succ_iff_lt_or_eq.mp hk with hk | hk
    · exact hk
    · subst hk
      obtain ⟨⟨pts, hp, _⟩, _⟩ := hq
      rw [hsel] at hp
      cases hp
  | some points =>
    simp only
    by_cases hv : view.visibility k = false
    · rw [if_pos hv]
      refine closestInv_mono sel view _ _ acc (fun k' _ hk => Nat.lt_succ_of_lt hk) ?_ h
      intro k' i' q hk hq
      rcases Nat.lt_succ_iff_lt_or_eq.mp hk with hk | hk
      · exact hk
      · subst hk
        have := hq.2.1
        rw [hv] at this
        cases this
    · rw [if_neg hv]
      have hvis : view.visibility k = true := by simpa using hv
      have h0 : ClosestInv sel view (fun k' i' => Before k' i' k 0) acc := by
        refine closestInv_mono sel view _ _ acc ?_ ?_ h
        · intro k' i' hk; exact Or.inl hk
        · intro k' i' q hb _
          rcases hb with hb | ⟨_, hb⟩
          · exact hb
          · exact absurd hb (Nat.not_lt_zero i')
      have hloop := closestPointLoop_inv sel view k points acc hsel hvis h0 points.length
        (le_refl _)
      refine closestInv_mono sel view _ _ _ ?_ ?_ hloop
      · intro k' i' hb
        rcases hb with hb | ⟨hb, _⟩
        · exact Nat.lt_succ_of_lt hb
        · rw [hb]; exact Nat.lt_succ_self k
      · intro k' i' q hk hq
        rcases Nat.lt_succ_iff_lt_or_eq.mp hk with hk | hk
        · exact Or.inl hk
        · subst hk
          obtain ⟨⟨pts, hp1, hp2⟩, _⟩ := hq
          rw [hsel] at hp1
          cases hp1
          right
          refine ⟨rfl, ?_⟩
          by_contra hcon
          rw [List.getElem?_eq_none (not_lt.mp hcon)] at hp2
          cases hp2

/-- Invariant of the whole of `FindClosestSelectedPoint`, over the candidates of the
first `n` meshes. -/
theorem findClosest_inv (n : Nat) (sel : SelectedPositions) (view : SplitViewInfo) :
    ClosestInv sel view (fun k _ => k < n) (FindClosestSelectedPoint n sel view) := by
  induction n with
  | zero =>
    left
    exact ⟨by simp [FindClosestSelectedPoint], fun k i p hk => absurd hk (Nat.not_lt_zero k)⟩
  | succ n ih =>
    have : FindClosestSelectedPoint (n + 1) sel view =
        closestMeshStep view sel (FindClosestSelectedPoint n sel view) n := by
      simp [FindClosestSelectedPoint, List.range_succ, List.foldl_append]
    rw [this]
    exact closestMeshStep_inv sel view n _ ih

/-- A mesh returned by `CastRay` is visible in the view. -/
theorem castRay_result_visible (d0 : IntersectResult) (n : Nat) (view : SplitViewInfo)
    (hne : (CastRay d0 n view).min_geoid ≠ NONE_ID) :
    view.visibility (CastRay d0 n view).min_geoid = true := by
  rcases castRay_inv d0 view n with ⟨h0, _⟩ | ⟨_, hfirst, _, _⟩
  · rw [h0] at hne
    exact absurd rfl hne
  · exact hfirst.1

/-- A point located by `FindClosestSelectedPoint` is a candidate of one of the meshes. -/
theorem findClosest_located (n : Nat) (sel : SelectedPositions) (view : SplitViewInfo)
    (hn : n ≤ 4294967296)
    (hclose : (FindClosestSelectedPoint n sel view).is_close = true) :
    ∃ p, (FindClosestSelectedPoint n sel view).min_geoid < n ∧
      Candidate sel view (FindClosestSelectedPoint n sel view).min_geoid
        (FindClosestSelectedPoint n sel view).closest_selected_id p := by
  rcases findClosest_inv n sel view with ⟨h0, _⟩ | ⟨k, i, p, hk, hc, hacc, _, _⟩
  · rw [h0] at hclose
    cases hclose
  · have hkm : k % 4294967296 = k := Nat.mod_eq_of_lt (lt_of_lt_of_le hk hn)
    refine ⟨p, ?_, ?_⟩
    · rw [hacc]; simpa [hkm] using hk
    · rw [hacc]; simpa [hkm] using hc

/-! ## Correspondence list operations -/

theorem clampSelectedIdx_lt (idx : Option Nat) (size : Nat) (h : 0 < size) :
    clampSelectedIdx idx size < size := by
  unfold clampSelectedIdx
  simp only
  split
  · exact h
  · omega

theorem applyOp_length (points : List CastRayResult) (op : PointOp) :
    (applyOp points op).length + countRemovesNonEmpty points [op] =
      points.length + countAdds [op] := by
  cases op with
  | add pick => simp [applyOp, pushBack, countRemovesNonEmpty, countAdds]
  | move id pick => simp [applyOp, assignAt, countRemovesNonEmpty, countAdds]
  | remove idx =>
    by_cases h : 0 < points.length
    · have hlt := clampSelectedIdx_lt idx points.length h
      simp [applyOp, removeAt, countRemovesNonEmpty, countAdds, hlt, h, List.length_eraseIdx]
      omega
    · have h0 : points.length = 0 := by omega
      simp [applyOp, removeAt, countRemovesNonEmpty, countAdds, h0]

theorem runOps_length (ops : List PointOp) (points : List CastRayResult) :
    (runOps points ops).length + countRemovesNonEmpty points ops =
      points.length + countAdds ops := by
  induction ops generalizing points with
  | nil => simp [runOps, countRemovesNonEmpty, countAdds]
  | cons op ops ih =>
    have h1 := applyOp_length points op
    have h2 := ih (applyOp points op)
    have hrun : runOps points (op :: ops) = runOps (applyOp points op) ops := rfl
    rw [hrun]
    cases op with
    | add pick =>
      simp only [countRemovesNonEmpty, countAdds] at h1 h2 ⊢
      omega
    | move id pick =>
      simp only [countRemovesNonEmpty, countAdds] at h1 h2 ⊢
      omega
    | remove idx =>
      simp only [countRemovesNonEmpty, countAdds] at h1 h2 ⊢
      omega

theorem applyOp_valid (points : List CastRayResult) (op : PointOp)
    (hl : ∀ r ∈ points, ValidBary r) (hp : ∀ r ∈ opPicks [op], ValidBary r) :
    ∀ r ∈ applyOp points op, ValidBary r := by
  intro r hr
  cases op with
  | add pick =>
    simp only [applyOp, pushBack, List.mem_append, List.mem_singleton] at hr
    rcases hr with hr | hr
    · exact hl r hr
    · exact hp r (by simp [opPicks, hr])
  | move id pick =>
    simp only [applyOp, assignAt] at hr
    rcases List.mem_or_eq_of_mem_set hr with hr | hr
    · exact hl r hr
    · exact hp r (by simp [opPicks, hr])
  | remove idx =>
    simp only [applyOp, removeAt] at hr
    split at hr
    · exact hl r (List.mem_of_mem_eraseIdx hr)
    · exact hl r hr

theorem runOps_valid (ops : List PointOp) (points : List CastRayResult)
    (hl : ∀ r ∈ points, ValidBary r) (hp : ∀ r ∈ opPicks ops, ValidBary r) :
    ∀ r ∈ runOps points ops, ValidBary r := by
  induction ops generalizing points with
  | nil => simpa [runOps] using hl
  | cons op ops ih =>
    have hrun : runOps points (op :: ops) = runOps (applyOp points op) ops := rfl
    rw [hrun]
    apply ih
    · apply applyOp_valid points op hl
      intro r hr
      apply hp
      cases op <;> simp_all [opPicks]
    · intro r hr
      apply hp
      cases op <;> simp_all [opPicks]

theorem countRemovesNonEmpty_le (ops : List PointOp) (points : List CastRayResult) :
    countRemovesNonEmpty points ops ≤ countRemoves ops := by
  induction ops generalizing points with
  | nil => simp [countRemovesNonEmpty, countRemoves]
  | cons op ops ih =>
    cases op with
    | add pick => simpa [countRemovesNonEmpty, countRemoves] using ih _
    | move id pick => simpa [countRemovesNonEmpty, countRemoves] using ih _
    | remove idx =>
      have := ih (applyOp points (.remove idx))
      simp only [countRemovesNonEmpty, countRemoves]
      split <;> omega

/-! ## Claims on ray picking and on the closest selected point -/

/-- C1 (counterexample). A visible mesh whose first hit has `t = FLT_MAX` is the only
candidate, yet `CastRay` returns "none" (`~0u`) and not that mesh: the hit is not below the
initial value of the running minimum. -/
theorem castRay_skips_hit_at_flt_max :
    FirstHit edgeView 0 (demoHit 10 FLT_MAX) ∧
      (CastRay demoD0 1 edgeView).min_geoid = NONE_ID ∧
      ¬ FirstHit edgeView (CastRay demoD0 1 edgeView).min_geoid
        (CastRay demoD0 1 edgeView).intersection := by
  refine ⟨⟨rfl, rfl⟩, by decide, ?_⟩
  unfold FirstHit
  decide

/-- C1 (amended). When some visible mesh has a first hit with `t` below `FLT_MAX`, `CastRay`
returns a visible mesh together with its first hit, that hit has the smallest `t` among the
first hits of all visible meshes, and every visible mesh of lower index has a strictly
larger `t` (ties go to the lowest mesh index). -/
theorem castRay_nearest_visible (d0 : IntersectResult) (n : Nat) (view : SplitViewInfo)
    (h : ∃ k r, k < n ∧ FirstHit view k r ∧ r.t < FLT_MAX) :
    (CastRay d0 n view).min_geoid < n ∧
      FirstHit view (CastRay d0 n view).min_geoid (CastRay d0 n view).intersection ∧
      ∀ k r, k < n → FirstHit view k r →
        (CastRay d0 n view).intersection.t ≤ r.t ∧
          (k < (CastRay d0 n view).min_geoid → (CastRay d0 n view).intersection.t < r.t) := by
  rcases castRay_inv d0 view n with ⟨_, hall⟩ | ⟨hlt, hfirst, _, hmin⟩
  · obtain ⟨k, r, hk, hr, hrt⟩ := h
    exact absurd hrt (not_lt.mpr (hall k r hk hr))
  · exact ⟨hlt, hfirst, hmin⟩

/-- C1 (witness). In `demoView` the hidden mesh 0 is nearest, meshes 1 and 2 tie at `t = 5`. -/
theorem castRay_nearest_visible_witness :
    (CastRay demoD0 3 demoView).min_geoid = 1 ∧
      (CastRay demoD0 3 demoView).min_geoid < 3 ∧
      FirstHit demoView (CastRay demoD0 3 demoView).min_geoid
        (CastRay demoD0 3 demoView).intersection :=
  have h := castRay_nearest_visible demoD0 3 demoView
    ⟨2, demoHit 13 5, by decide, ⟨rfl, rfl⟩, by decide⟩
  ⟨by decide, h.1, h.2.1⟩

/-- C2. `CastRay` never returns a hidden mesh: a returned index other than `~0u` is a visible
mesh, and when every mesh with a non-empty result list is hidden the result is "none". -/
theorem castRay_never_hidden (d0 : IntersectResult) (n : Nat) (view : SplitViewInfo) :
    ((CastRay d0 n view).min_geoid ≠ NONE_ID →
        view.visibility (CastRay d0 n view).min_geoid = true) ∧
      ((∀ k, k < n → view.results_all k ≠ [] → view.visibility k = false) →
        CastRay d0 n view = castRayInit d0 ∧ (CastRay d0 n view).min_geoid = NONE_ID) := by
  rcases castRay_inv d0 view n with ⟨h0, _⟩ | ⟨hlt, hfirst, _, _⟩
  · constructor
    · intro hne
      rw [h0] at hne
      exact absurd rfl hne
    · intro _
      exact ⟨h0, by rw [h0]; rfl⟩
  · constructor
    · intro _
      exact hfirst.1
    · intro hhid
      have hne : view.results_all (CastRay d0 n view).min_geoid ≠ [] := by
        intro hnil
        have := hfirst.2
        rw [hnil] at this
        cases this
      have := hhid _ hlt hne
      rw [hfirst.1] at this
      cases this

/-- C2 (witness). A hidden mesh that is the only geometry along the ray is not returned. -/
theorem castRay_never_hidden_witness :
    CastRay demoD0 1 hiddenView = castRayInit demoD0 ∧
      (CastRay demoD0 1 hiddenView).min_geoid = NONE_ID :=
  (castRay_never_hidden demoD0 1 hiddenView).2 (fun _ _ _ => rfl)

/-- C3 (counterexample). A candidate exactly 20 pixels from the cursor does not exceed the
threshold, yet `FindClosestSelectedPoint` reports "not found". -/
theorem findClosest_not_found_at_threshold :
    Candidate thresholdSel edgeView 0 0 (demoPoint 0 20) ∧
      ¬ (g_drag_point_pix_dist_th < edgeView.pix_dist (demoPoint 0 20)) ∧
      (FindClosestSelectedPoint 1 thresholdSel edgeView).is_close = false := by
  refine ⟨⟨⟨_, rfl, rfl⟩, rfl, by decide, rfl⟩, by decide, by decide⟩

/-- C3 (amended). `FindClosestSelectedPoint` reports "not found" if and only if every
candidate is at least 20 pixels from the cursor (and then returns its initial values);
otherwise it returns a candidate whose distance is the minimum over all candidates, and
reports that distance, which is below 20. -/
theorem findClosest_threshold_minimum (n : Nat) (sel : SelectedPositions)
    (view : SplitViewInfo) (hn : n ≤ 4294967296) :
    ((FindClosestSelectedPoint n sel view).is_close = false ↔
        ∀ k i p, k < n → Candidate sel view k i p →
          g_drag_point_pix_dist_th ≤ view.pix_dist p) ∧
      ((FindClosestSelectedPoint n sel view).is_close = false →
        FindClosestSelectedPoint n sel view = closestInit) ∧
      ((FindClosestSelectedPoint n sel view).is_close = true →
        ∃ p, (FindClosestSelectedPoint n sel view).min_geoid < n ∧
          Candidate sel view (FindClosestSelectedPoint n sel view).min_geoid
            (FindClosestSelectedPoint n sel view).closest_selected_id p ∧
          (FindClosestSelectedPoint n sel view).min_dist = view.pix_dist p ∧
          view.pix_dist p < g_drag_point_pix_dist_th ∧
          ∀ k i q, k < n → Candidate sel view k i q → view.pix_dist p ≤ view.pix_dist q) := by
  rcases findClosest_inv n sel view with ⟨h0, hall⟩ | ⟨k, i, p, hk, hc, hacc, hlt, hmin⟩
  · refine ⟨⟨fun _ => hall, fun _ => by rw [h0]; rfl⟩, fun _ => h0, ?_⟩
    intro ht
    rw [h0] at ht
    cases ht
  · have hkm : k % 4294967296 = k := Nat.mod_eq_of_lt (lt_of_lt_of_le hk hn)
    refine ⟨⟨?_, ?_⟩, ?_, ?_⟩
    · intro hf
      rw [hacc] at hf
      cases hf
    · intro hall
      exact absurd hlt (not_lt.mpr (hall k i p hk hc))
    · intro hf
      rw [hacc] at hf
      cases hf
    · intro _
      refine ⟨p, ?_, ?_, ?_, hlt, fun k' i' q hk' hq => (hmin k' i' q hk' hq).1⟩
      · rw [hacc]; simpa [hkm] using hk
      · rw [hacc]; simpa [hkm] using hc
      · rw [hacc]

/-- C3 (witness). With the lists `nearSel` the nearest candidate of `demoView` is found. -/
theorem findClosest_threshold_minimum_witness :
    (FindClosestSelectedPoint 3 nearSel demoView).is_close = true ∧
      ((FindClosestSelectedPoint 3 nearSel demoView).is_close = false ↔
        ∀ k i p, k < 3 → Candidate nearSel demoView k i p →
          g_drag_point_pix_dist_th ≤ demoView.pix_dist p) :=
  ⟨by decide, (findClosest_threshold_minimum 3 nearSel demoView (by decide)).1⟩

/-- C4. When some candidate is closer than the threshold, the point returned by
`FindClosestSelectedPoint` is at the minimal distance and every other candidate at that
distance comes later in the order of the loops: it is on a higher mesh index, or on the
same mesh at a higher list index. -/
theorem findClosest_tie_lowest_index (n : Nat) (sel : SelectedPositions)
    (view : SplitViewInfo) (hn : n ≤ 4294967296)
    (h : ∃ k i p, k < n ∧ Candidate sel view k i p ∧
      view.pix_dist p < g_drag_point_pix_dist_th) :
    (FindClosestSelectedPoint n sel view).is_close = true ∧
      ∃ p, Candidate sel view (FindClosestSelectedPoint n sel view).min_geoid
          (FindClosestSelectedPoint n sel view).closest_selected_id p ∧
        (∀ k i q, k < n → Candidate sel view k i q → view.pix_dist p ≤ view.pix_dist q) ∧
        ∀ k i q, k < n → Candidate sel view k i q → view.pix_dist q = view.pix_dist p →
          (FindClosestSelectedPoint n sel view).min_geoid < k ∨
            ((FindClosestSelectedPoint n sel view).min_geoid = k ∧
              (FindClosestSelectedPoint n sel view).closest_selected_id ≤ i) := by
  rcases findClosest_inv n sel view with ⟨_, hall⟩ | ⟨k, i, p, hk, hc, hacc, hlt, hmin⟩
  · obtain ⟨k, i, p, hk, hc, hlt⟩ := h
    exact absurd hlt (not_lt.mpr (hall k i p hk hc))
  · have hkm : k % 4294967296 = k := Nat.mod_eq_of_lt (lt_of_lt_of_le hk hn)
    rw [hacc, hkm]
    refine ⟨rfl, p, hc, fun k' i' q hk' hq => (hmin k' i' q hk' hq).1, ?_⟩
    intro k' i' q hk' hq heq
    have hnb : ¬ Before k' i' k i := fun hb =>
      absurd heq (ne_of_gt ((hmin k' i' q hk' hq).2 hb))
    unfold Before at hnb
    simp only
    omega

/-- C4 (witness). In `demoView` three points tie at 7 pixels: entries 1 and 2 of mesh 1 and
entry 0 of mesh 2; entry 1 of mesh 1 is returned. -/
theorem findClosest_tie_lowest_index_witness :
    (FindClosestSelectedPoint 3 nearSel demoView).min_geoid = 1 ∧
      (FindClosestSelectedPoint 3 nearSel demoView).closest_selected_id = 1 ∧
      (FindClosestSelectedPoint 3 nearSel demoView).is_close = true :=
  ⟨by decide, by decide,
    (findClosest_tie_lowest_index 3 nearSel demoView (by decide)
      ⟨2, 0, demoPoint 2 7, by decide, ⟨⟨_, rfl, rfl⟩, rfl, by decide, rfl⟩, by decide⟩).1⟩

/-! ## Claims on the correspondence lists -/

/-- C5. On a right-button press in a view, `mouse_button_callback` returns, and it appends
the result of `CastRay` at the end of the list of the hit mesh exactly when `CastRay`
returns a mesh (which is then visible in the view) and `FindClosestSelectedPoint` reports
no point within the threshold: that list grows by one, its former entries keep index and
value, and the other lists are untouched. In every other case no list changes. -/
theorem right_press_appends_hit (d0 : IntersectResult) (n : Nat)
    (g_views : List SplitViewInfo) (s : InputGlobals) (view : SplitViewInfo)
    (hview : g_views[s.g_subwindow_id]? = some view) :
    ∃ s', mouse_button_callback d0 n g_views .RIGHT true s = some s' ∧
      (((CastRay d0 n view).min_geoid ≠ NONE_ID ∧
          (FindClosestSelectedPoint n s.g_selected_positions view).is_close = false) →
        view.visibility (CastRay d0 n view).min_geoid = true ∧
        pointsOf s'.g_selected_positions (CastRay d0 n view).min_geoid =
          pointsOf s.g_selected_positions (CastRay d0 n view).min_geoid ++ [CastRay d0 n view] ∧
        (pointsOf s'.g_selected_positions (CastRay d0 n view).min_geoid).length =
          (pointsOf s.g_selected_positions (CastRay d0 n view).min_geoid).length + 1 ∧
        (∀ i, i < (pointsOf s.g_selected_positions (CastRay d0 n view).min_geoid).length →
          (pointsOf s'.g_selected_positions (CastRay d0 n view).min_geoid)[i]? =
            (pointsOf s.g_selected_positions (CastRay d0 n view).min_geoid)[i]?) ∧
        ∀ j, j ≠ (CastRay d0 n view).min_geoid →
          s'.g_selected_positions j = s.g_selected_positions j) ∧
      (¬ ((CastRay d0 n view).min_geoid ≠ NONE_ID ∧
          (FindClosestSelectedPoint n s.g_selected_positions view).is_close = false) →
        s'.g_selected_positions = s.g_selected_positions) := by
  have hvis := castRay_result_visible d0 n view
  by_cases hc : (CastRay d0 n view).min_geoid ≠ NONE_ID ∧
      (FindClosestSelectedPoint n s.g_selected_positions view).is_close = false
  · obtain ⟨hne, hfar⟩ := hc
    refine ⟨_, by simp [mouse_button_callback, hview, hne, hvis hne, hfar]; rfl, ?_, ?_⟩
    · intro _
      refine ⟨hvis hne, ?_, ?_, ?_, ?_⟩
      · simp [pointsOf, pushBack]
      · simp [pointsOf, pushBack]
      · intro i hi
        simp only [pointsOf, pushBack, Function.update_same, Option.getD_some]
        exact List.getElem?_append_left hi
      · intro j hj
        simp [Function.update_noteq hj]
    · intro hcon
      exact absurd ⟨hne, hfar⟩ hcon
  · refine ⟨{ s with g_mouse_r_pressed := true }, ?_, fun h => absurd h hc, fun _ => rfl⟩
    by_cases hne : (CastRay d0 n view).min_geoid ≠ NONE_ID
    · have hclose : (FindClosestSelectedPoint n s.g_selected_positions view).is_close = true := by
        cases hb : (FindClosestSelectedPoint n s.g_selected_positions view).is_close with
        | true => rfl
        | false => exact absurd ⟨hne, hb⟩ hc
      simp [mouse_button_callback, hview, hne, hvis hne, hclose]
    · simp [mouse_button_callback, hview, hne]

/-- C5 (witness). In `demoView`, with no stored point near the cursor, a right press appends
the hit on mesh 1 to the list of mesh 1. -/
theorem right_press_appends_hit_witness :
    ∃ s', mouse_button_callback demoD0 3 [demoView] .RIGHT true (demoInput farSel) = some s' ∧
      pointsOf s'.g_selected_positions 1 = [demoPoint 1 30, ⟨1, demoHit 11 5⟩] := by
  obtain ⟨s', h1, h2, _⟩ :=
    right_press_appends_hit demoD0 3 [demoView] (demoInput farSel) demoView rfl
  refine ⟨s', h1, ?_⟩
  have hk : (CastRay demoD0 3 demoView).min_geoid = 1 := by decide
  have hr : CastRay demoD0 3 demoView = ⟨1, demoHit 11 5⟩ := by decide
  have h3 := (h2 ⟨by decide, by decide⟩).2.1
  rw [hk, hr] at h3
  rw [h3]
  rfl

/-- C6. When `ProcessDrags` returns, it leaves every correspondence list unchanged unless
the drag is processed in a view, `CastRay` returned a mesh and `FindClosestSelectedPoint`
located a point on that same mesh; in that case the located index is an index of that
mesh's list, exactly that entry becomes the new hit, the other entries of the list and
the other lists are unchanged, and no list changes length. -/
theorem right_drag_replaces_located_entry (d0 : IntersectResult) (n : Nat)
    (g_views : List SplitViewInfo) (want_capture_mouse : Bool) (s s' : InputGlobals)
    (hn : n ≤ 4294967296)
    (h : ProcessDrags d0 n g_views want_capture_mouse s = some s') :
    (s'.g_selected_positions = s.g_selected_positions ∨
      ∃ view, g_views[s.g_subwindow_id]? = some view ∧ want_capture_mouse = false ∧
        s.g_subwindow_id ≠ NONE_ID ∧ s.g_subwindow_id = s.g_prev_subwindow_id ∧
        s.g_to_process_drag_r = true ∧ (CastRay d0 n view).min_geoid ≠ NONE_ID ∧
        (FindClosestSelectedPoint n s.g_selected_positions view).is_close = true ∧
        (CastRay d0 n view).min_geoid =
          (FindClosestSelectedPoint n s.g_selected_positions view).min_geoid) ∧
    (∀ view, g_views[s.g_subwindow_id]? = some view → want_capture_mouse = false →
      s.g_subwindow_id ≠ NONE_ID → s.g_subwindow_id = s.g_prev_subwindow_id →
      s.g_to_process_drag_r = true → (CastRay d0 n view).min_geoid ≠ NONE_ID →
      (FindClosestSelectedPoint n s.g_selected_positions view).is_close = true →
      (CastRay d0 n view).min_geoid =
        (FindClosestSelectedPoint n s.g_selected_positions view).min_geoid →
      (FindClosestSelectedPoint n s.g_selected_positions view).closest_selected_id <
          (pointsOf s.g_selected_positions (CastRay d0 n view).min_geoid).length ∧
        (pointsOf s'.g_selected_positions (CastRay d0 n view).min_geoid)[
            (FindClosestSelectedPoint n s.g_selected_positions view).closest_selected_id]? =
          some (CastRay d0 n view) ∧
        (∀ i, i ≠ (FindClosestSelectedPoint n s.g_selected_positions view).closest_selected_id →
          (pointsOf s'.g_selected_positions (CastRay d0 n view).min_geoid)[i]? =
            (pointsOf s.g_selected_positions (CastRay d0 n view).min_geoid)[i]?) ∧
        (∀ j, j ≠ (CastRay d0 n view).min_geoid →
          s'.g_selected_positions j = s.g_selected_positions j) ∧
        ∀ j, (pointsOf s'.g_selected_positions j).length =
          (pointsOf s.g_selected_positions j).length) := by
  unfold ProcessDrags at h
  by_cases hw : want_capture_mouse = true
  · rw [if_pos hw] at h
    cases h
    refine ⟨Or.inl rfl, ?_⟩
    intro view _ hw'
    rw [hw] at hw'
    cases hw'
  rw [if_neg hw] at h
  by_cases hg : s.g_subwindow_id ≠ NONE_ID ∧ s.g_subwindow_id = s.g_prev_subwindow_id
  swap
  · rw [if_neg hg] at h
    cases h
    exact ⟨Or.inl rfl, fun view _ _ h1 h2 => absurd ⟨h1, h2⟩ hg⟩
  rw [if_pos hg] at h
  cases hv : g_views[s.g_subwindow_id]? with
  | none =>
    rw [hv] at h
    cases h
  | some view =>
    rw [hv] at h
    simp only at h
    have hwf : want_capture_mouse = false := by simpa using hw
    by_cases hd : s.g_to_process_drag_r = true
    swap
    · rw [if_neg hd] at h
      cases h
      exact ⟨Or.inl rfl, fun view _ _ _ _ h3 => absurd h3 hd⟩
    rw [if_pos hd] at h
    by_cases hr : (CastRay d0 n view).min_geoid ≠ NONE_ID
    swap
    · rw [if_neg hr] at h
      cases h
      refine ⟨Or.inl rfl, ?_⟩
      intro view' hv' _ _ _ _ h4
      cases hv'
      exact absurd h4 hr
    rw [if_pos hr] at h
    by_cases hc : (CastRay d0 n view).min_geoid =
        (FindClosestSelectedPoint n s.g_selected_positions view).min_geoid ∧
        (FindClosestSelectedPoint n s.g_selected_positions view).is_close = true
    swap
    · rw [if_neg hc] at h
      cases h
      refine ⟨Or.inl rfl, ?_⟩
      intro view' hv' _ _ _ _ _ h5 h6
      cases hv'
      exact absurd ⟨h6, h5⟩ hc
    rw [if_pos hc] at h
    cases h
    obtain ⟨hsame, hclose⟩ := hc
    refine ⟨Or.inr ⟨view, rfl, hwf, hg.1, hg.2, hd, hr, hclose, hsame⟩, ?_⟩
    intro view' hv' _ _ _ _ _ _ _
    cases hv'
    -- the located index is an index of the located mesh's list
    obtain ⟨p, hlt, hcand⟩ := findClosest_located n s.g_selected_positions view hn hclose
    obtain ⟨⟨pts, hpts, hget⟩, _⟩ := hcand
    have hlen : (FindClosestSelectedPoint n s.g_selected_positions view).closest_selected_id <
        (pointsOf s.g_selected_positions (CastRay d0 n view).min_geoid).length := by
      rw [hsame]
      simp only [pointsOf, hpts, Option.getD_some]
      by_contra hcon
      rw [List.getElem?_eq_none (not_lt.mp hcon)] at hget
      cases hget
    refine ⟨hlen, ?_, ?_, ?_, ?_⟩
    · rw [hsame] at hlen ⊢
      simp only [pointsOf, assignAt, Function.update_same, Option.getD_some]
      rw [List.getElem?_set_self]
      simpa [pointsOf] using hlen
    · intro i hi
      rw [hsame]
      simp only [pointsOf, assignAt, Function.update_same, Option.getD_some]
      exact List.getElem?_set_ne (Ne.symm hi)
    · intro j hj
      rw [hsame] at hj
      exact Function.update_noteq hj _ _
    · intro j
      by_cases hj : j = (FindClosestSelectedPoint n s.g_selected_positions view).min_geoid
      · rw [hj]
        simp only [hsame, pointsOf, assignAt, Function.update_same, Option.getD_some,
          List.length_set]
      · simp only [pointsOf, Function.update_noteq hj]

/-- Under valid views `ProcessDrags` returns a state. -/
theorem processDrags_returns (d0 : IntersectResult) (n : Nat) (g_views : List SplitViewInfo)
    (want_capture_mouse : Bool) (s : InputGlobals) (view : SplitViewInfo)
    (hview : g_views[s.g_subwindow_id]? = some view) :
    ∃ s', ProcessDrags d0 n g_views want_capture_mouse s = some s' := by
  unfold ProcessDrags
  rw [hview]
  split
  · exact ⟨_, rfl⟩
  · split
    · exact ⟨_, rfl⟩
    · exact ⟨_, rfl⟩

/-- C6 (witness). In `demoView` the drag lands on mesh 1 and the nearest stored point is
entry 1 of mesh 1: that entry becomes the new hit. -/
theorem right_drag_replaces_located_entry_witness :
    ∃ s', ProcessDrags demoD0 3 [demoView] false (demoInput nearSel) = some s' ∧
      (pointsOf s'.g_selected_positions 1)[1]? = some ⟨1, demoHit 11 5⟩ ∧
      (pointsOf s'.g_selected_positions 1)[0]? = some (demoPoint 1 30) := by
  refine ⟨_, rfl, ?_⟩
  have h := (right_drag_replaces_located_entry demoD0 3 [demoView] false (demoInput nearSel) _
    (by decide) rfl).2 demoView rfl rfl (by decide) rfl rfl (by decide) (by decide) (by decide)
  have hk : (CastRay demoD0 3 demoView).min_geoid = 1 := by decide
  have hr : CastRay demoD0 3 demoView = ⟨1, demoHit 11 5⟩ := by decide
  have hi : (FindClosestSelectedPoint 3 (demoInput nearSel).g_selected_positions
      demoView).closest_selected_id = 1 := by decide
  rw [hk, hi, hr] at h
  refine ⟨h.2.1, ?_⟩
  rw [h.2.2.1 0 (by decide)]
  rfl

/-- C7 (counterexample). A `Remove` pressed on the empty list erases nothing: after a remove
and one add of a valid pick the list has one entry, while adds minus removes is zero. -/
theorem remove_on_empty_breaks_count :
    (∀ r ∈ opPicks [PointOp.remove none, PointOp.add (demoPoint 0 0)], ValidBary r) ∧
      (runOps [] [PointOp.remove none, PointOp.add (demoPoint 0 0)]).length = 1 ∧
      countAdds [PointOp.remove none, PointOp.add (demoPoint 0 0)] = 1 ∧
      countRemoves [PointOp.remove none, PointOp.add (demoPoint 0 0)] = 1 ∧
      ((runOps [] [PointOp.remove none, PointOp.add (demoPoint 0 0)]).length : Int) ≠
        (countAdds [PointOp.remove none, PointOp.add (demoPoint 0 0)] : Int) -
          (countRemoves [PointOp.remove none, PointOp.add (demoPoint 0 0)] : Int) := by
  refine ⟨?_, by decide, by decide, by decide, by decide⟩
  intro r hr
  simp only [opPicks, List.mem_singleton] at hr
  subst hr
  norm_num [ValidBary, demoPoint]

/-- C7 (amended). For every sequence of add, move and remove operations run from the empty
list, with picks that satisfy `u ≥ 0`, `v ≥ 0`, `u + v ≤ 1`, the length of the list is the
number of adds minus the number of removes issued on a non-empty list, and every remaining
entry satisfies `u ≥ 0`, `v ≥ 0`, `u + v ≤ 1`. -/
theorem correspondence_ops_length_bary (ops : List PointOp)
    (hp : ∀ r ∈ opPicks ops, ValidBary r) :
    ((runOps [] ops).length : Int) =
        (countAdds ops : Int) - (countRemovesNonEmpty [] ops : Int) ∧
      countRemovesNonEmpty [] ops ≤ countRemoves ops ∧
      ∀ r ∈ runOps [] ops, ValidBary r := by
  have hlen := runOps_length ops []
  refine ⟨?_, countRemovesNonEmpty_le ops [], runOps_valid ops [] (fun r hr => by cases hr) hp⟩
  simp only [List.length_nil] at hlen
  omega

/-- C7 (witness). Two adds, a move, a remove at index 1, a remove at a stale index, a remove
on the then empty list and a last add leave one entry: three adds, two effective removes. -/
theorem correspondence_ops_length_bary_witness :
    ((runOps [] [PointOp.add (demoPoint 0 0), PointOp.add (demoPoint 0 1),
        PointOp.move 0 (demoPoint 0 0), PointOp.remove (some 1), PointOp.remove (some 5),
        PointOp.remove none, PointOp.add (demoPoint 0 1)]).length : Int) = 3 - 2 := by
  have h := (correspondence_ops_length_bary [PointOp.add (demoPoint 0 0),
    PointOp.add (demoPoint 0 1), PointOp.move 0 (demoPoint 0 0), PointOp.remove (some 1),
    PointOp.remove (some 5), PointOp.remove none, PointOp.add (demoPoint 0 1)] (by
      intro r hr
      simp only [opPicks, List.mem_cons, List.mem_singleton, List.not_mem_nil, or_false] at hr
      rcases hr with hr | hr | hr | hr <;> subst hr <;> norm_num [ValidBary, demoPoint])).1
  rw [h]
  decide

/-! ## Claims on the algorithm state machine -/

theorem validate_func_fields (src_id dst_id : Int) (s : AppState) :
    (validate_func src_id dst_id s).1 = decide (0 ≤ src_id ∧ 0 ≤ dst_id ∧ src_id ≠ dst_id) ∧
      (validate_func src_id dst_id s).2.g_icp_run = s.g_icp_run ∧
      (validate_func src_id dst_id s).2.g_nonrigidicp_run = s.g_nonrigidicp_run ∧
      (validate_func src_id dst_id s).2.g_textrans_run = s.g_textrans_run ∧
      (validate_func src_id dst_id s).2.g_icp_data = s.g_icp_data ∧
      (validate_func src_id dst_id s).2.g_nonrigidicp_data = s.g_nonrigidicp_data ∧
      (validate_func src_id dst_id s).2.g_textrans_data = s.g_textrans_data ∧
      (validate_func src_id dst_id s).2.g_callback_finished = s.g_callback_finished ∧
      ((validate_func src_id dst_id s).1 = true → (validate_func src_id dst_id s).2 = s) := by
  unfold validate_func
  by_cases h1 : src_id < 0 ∨ dst_id < 0
  · rw [if_pos h1]
    refine ⟨?_, rfl, rfl, rfl, rfl, rfl, rfl, rfl, fun h => by cases h⟩
    symm
    rw [decide_eq_false_iff_not]
    omega
  · rw [if_neg h1]
    by_cases h2 : src_id = dst_id
    · rw [if_pos h2]
      refine ⟨?_, rfl, rfl, rfl, rfl, rfl, rfl, rfl, fun h => by cases h⟩
      symm
      rw [decide_eq_false_iff_not]
      omega
    · rw [if_neg h2]
      refine ⟨?_, rfl, rfl, rfl, rfl, rfl, rfl, rfl, fun _ => rfl⟩
      symm
      rw [decide_eq_true_iff]
      omega

/-- The handler of "Run" itself does not test the status: run at a state with the status
`STARTED`, source 0 and target 1, it would rewrite the input block to source 1 and target 0.
What keeps the handler from running there is the result dialog, see `uiFrame`. -/
theorem start_while_started_overwrites_input :
    demoNonrigidStarted.g_nonrigidicp_run = .STARTED ∧
      demoNonrigidStarted.g_nonrigidicp_data.src_mesh = some 0 ∧
      (runNonrigidIcp 1 0 demoNonrigidStarted).g_nonrigidicp_data.src_mesh = some 1 ∧
      (runNonrigidIcp 1 0 demoNonrigidStarted).g_nonrigidicp_data ≠
        demoNonrigidStarted.g_nonrigidicp_data := by
  refine ⟨rfl, rfl, rfl, ?_⟩
  intro h
  have := congrArg NonrigidIcpData.src_mesh h
  exact absurd this (by decide)

/-- What a "Run" handler does when it runs. With a selected source and target that differ,
it stores the request in the input block (rigid ICP also clears its output histories),
clears the completion flag and sets the status to `STARTED`; otherwise it leaves status, job
data and completion flag of the three kinds as they were. -/
theorem run_handlers_do_not_test_status (ext : Externals) (src_id dst_id : Int)
    (s : AppState) :
    ((0 ≤ src_id ∧ 0 ≤ dst_id ∧ src_id ≠ dst_id) →
      ((runNonrigidIcp src_id dst_id s).g_nonrigidicp_run = .STARTED ∧
        (runNonrigidIcp src_id dst_id s).g_nonrigidicp_data =
          { s.g_nonrigidicp_data with
            src_mesh := some src_id.toNat, dst_mesh := some dst_id.toNat } ∧
        (runNonrigidIcp src_id dst_id s).g_callback_finished = false) ∧
      ((runTextrans src_id dst_id s).g_textrans_run = .STARTED ∧
        (runTextrans src_id dst_id s).g_textrans_data =
          { s.g_textrans_data with
            src_mesh := some src_id.toNat, dst_mesh := some dst_id.toNat } ∧
        (runTextrans src_id dst_id s).g_callback_finished = false) ∧
      (∀ src_mesh dst_mesh, s.g_meshes[src_id.toNat]? = some src_mesh →
        s.g_meshes[dst_id.toNat]? = some dst_mesh →
        ∃ s', runRigidIcp ext src_id dst_id s = some s' ∧ s'.g_icp_run = .STARTED ∧
          s'.g_icp_data = { s.g_icp_data with
            src_mesh := some src_id.toNat
            src_points :=
              apply_trans ext src_mesh.vertices (s.g_model_matrices src_id.toNat) false
            dst_points :=
              apply_trans ext dst_mesh.vertices (s.g_model_matrices dst_id.toNat) false
            src_normals :=
              apply_trans ext src_mesh.normals (s.g_model_matrices src_id.toNat) true
            dst_normals :=
              apply_trans ext dst_mesh.normals (s.g_model_matrices dst_id.toNat) true
            dst_faces := dst_mesh.vertex_indices
            callback := true
            output := ⟨[], []⟩ } ∧
          s'.g_callback_finished = false)) ∧
    (¬ (0 ≤ src_id ∧ 0 ≤ dst_id ∧ src_id ≠ dst_id) →
      ((runNonrigidIcp src_id dst_id s).g_nonrigidicp_run = s.g_nonrigidicp_run ∧
        (runNonrigidIcp src_id dst_id s).g_nonrigidicp_data = s.g_nonrigidicp_data ∧
        (runNonrigidIcp src_id dst_id s).g_callback_finished = s.g_callback_finished) ∧
      ((runTextrans src_id dst_id s).g_textrans_run = s.g_textrans_run ∧
        (runTextrans src_id dst_id s).g_textrans_data = s.g_textrans_data ∧
        (runTextrans src_id dst_id s).g_callback_finished = s.g_callback_finished) ∧
      ∃ s', runRigidIcp ext src_id dst_id s = some s' ∧ s'.g_icp_run = s.g_icp_run ∧
        s'.g_icp_data = s.g_icp_data ∧ s'.g_callback_finished = s.g_callback_finished) := by
  obtain ⟨hv, h1, h2, h3, h4, h5, h6, h7, hsame⟩ := validate_func_fields src_id dst_id s
  constructor
  · intro hvalid
    have hok : (validate_func src_id dst_id s).1 = true := by
      rw [hv]; exact decide_eq_true hvalid
    have hs0 := hsame hok
    have hsrc : meshPtr src_id = some src_id.toNat := by simp [meshPtr, hvalid.1]
    have hdst : meshPtr dst_id = some dst_id.toNat := by simp [meshPtr, hvalid.2.1]
    refine ⟨?_, ?_, ?_⟩
    · simp [runNonrigidIcp, hok, hs0, hsrc, hdst]
    · simp [runTextrans, hok, hs0, hsrc, hdst]
    · intro src_mesh dst_mesh hsm hdm
      simp only [runRigidIcp, hok, if_true, hs0, hsrc, hsm, hdm]
      exact ⟨_, rfl, rfl, rfl, rfl⟩
  · intro hinvalid
    have hok : (validate_func src_id dst_id s).1 = false := by
      rw [hv]; exact decide_eq_false hinvalid
    refine ⟨?_, ?_, ?_⟩
    · simp only [runNonrigidIcp, hok]
      exact ⟨h2, h5, h7⟩
    · simp only [runTextrans, hok]
      exact ⟨h3, h6, h7⟩
    · simp only [runRigidIcp, hok]
      exact ⟨_, rfl, h1, h4, h7⟩

/-- From the idle demo state "Run" of non-rigid ICP with source 0 and target 1 sets
`STARTED`; "Run" with source 0 and target 0 changes nothing of the job. -/
theorem run_handlers_do_not_test_status_witness :
    (runNonrigidIcp 0 1 demoState).g_nonrigidicp_run = .STARTED ∧
      (runNonrigidIcp 0 0 demoState).g_nonrigidicp_run = demoState.g_nonrigidicp_run :=
  ⟨((run_handlers_do_not_test_status demoExt 0 1 demoState).1 (by decide)).1.1,
    ((run_handlers_do_not_test_status demoExt 0 0 demoState).2 (by decide)).1.1⟩

/-! ### The worker -/

theorem icpProcessCallback_frame (s s' : AppState) (output : IcpOutput)
    (h : IcpProcessCallback s output = some s') :
    s'.g_icp_start_trans = s.g_icp_start_trans ∧
      s'.g_icp_data.src_mesh = s.g_icp_data.src_mesh ∧
      s'.g_update_bvh = s.g_update_bvh ∧ s'.g_meshes = s.g_meshes := by
  unfold IcpProcessCallback at h
  split at h
  · cases h
    exact ⟨rfl, rfl, rfl, rfl⟩
  · cases h

theorem icpCallbacks_frame (outputs : List IcpOutput) (s s' : AppState)
    (h : icpCallbacks s outputs = some s') :
    s'.g_icp_start_trans = s.g_icp_start_trans ∧
      s'.g_icp_data.src_mesh = s.g_icp_data.src_mesh ∧
      s'.g_update_bvh = s.g_update_bvh ∧ s'.g_meshes = s.g_meshes := by
  induction outputs generalizing s with
  | nil =>
    simp only [icpCallbacks] at h
    cases h
    exact ⟨rfl, rfl, rfl, rfl⟩
  | cons output rest ih =>
    simp only [icpCallbacks] at h
    cases hc : IcpProcessCallback s output with
    | none => rw [hc] at h; cases h
    | some s1 =>
      rw [hc] at h
      obtain ⟨a1, a2, a3, a4⟩ := icpProcessCallback_frame s s1 output hc
      obtain ⟨b1, b2, b3, b4⟩ := ih s1 h
      exact ⟨b1.trans a1, b2.trans a2, b3.trans a3, b4.trans a4⟩

/-- What `IcpProcess` leaves once the status is `RUNNING`: the source transform is the last
transform of the solver's history composed with the transform at promotion, the refresh
flag of the source mesh and the completion flag are set, and the status is `HALTING`. -/
theorem icpRunning_result (ext : Externals) (s s' : AppState)
    (h : icpRunning ext s = some s') :
    ∃ src last, s.g_icp_data.src_mesh = some src ∧
      (ext.RigidIcp s.g_icp_data).transform_histry.getLast? = some last ∧
      s'.g_model_matrices src = last.mul (s.g_model_matrices src) ∧
      s'.g_update_bvh src = true ∧ s'.g_callback_finished = true ∧
      s'.g_icp_run = .HALTING := by
  unfold icpRunning at h
  cases hsrc : s.g_icp_data.src_mesh with
  | none => rw [hsrc] at h; cases h
  | some src =>
    rw [hsrc] at h
    simp only at h
    split at h
    · cases h
    · rename_i s2 hcb
      obtain ⟨c1, c2, _, _⟩ := icpCallbacks_frame _ _ s2 hcb
      simp only at c1 c2
      unfold IcpFinishCallback at h
      simp only [c2, hsrc] at h
      cases hlast : (ext.RigidIcp s.g_icp_data).transform_histry.getLast? with
      | none => rw [hlast] at h; cases h
      | some last =>
        rw [hlast] at h
        simp only [Option.some.injEq] at h
        subst h
        refine ⟨src, last, rfl, rfl, ?_, ?_, rfl, rfl⟩
        · simp [c1]
        · simp

theorem update_mesh_frame (ext : Externals) (nicp : ext.Nicp) (src : Nat) (update_base : Bool)
    (s s' : AppState) (h : update_mesh ext nicp src update_base s = some s') :
    s'.g_model_matrices = s.g_model_matrices ∧ s'.g_update_bvh = s.g_update_bvh ∧
      s'.g_nonrigidicp_data = s.g_nonrigidicp_data ∧
      s'.g_callback_finished = s.g_callback_finished ∧
      (update_base = true → ∃ mesh', s'.g_meshes[src]? = some mesh' ∧
        mesh'.vertices = (ext.deformed nicp (s.g_model_matrices src)).1) := by
  unfold update_mesh at h
  cases hm : s.g_meshes[src]? with
  | none => rw [hm] at h; cases h
  | some mesh =>
    rw [hm] at h
    simp only at h
    split at h
    · cases h
    · rename_i rv _
      simp only [Option.some.injEq] at h
      subst h
      refine ⟨rfl, rfl, rfl, rfl, ?_⟩
      intro hub
      have hlt : src < s.g_meshes.length := by
        by_contra hcon
        rw [List.getElem?_eq_none (not_lt.mp hcon)] at hm
        cases hm
      refine ⟨_, List.getElem?_set_self hlt, ?_⟩
      simp [hub]

theorem nicpStages_frame (ext : Externals) (src : Nat) (todo : Nat) (i : Int)
    (nicp nicp' : ext.Nicp) (s s' : AppState)
    (h : nicpStages ext src todo i nicp s = some (nicp', s')) :
    s'.g_model_matrices = s.g_model_matrices ∧ s'.g_update_bvh = s.g_update_bvh ∧
      s'.g_nonrigidicp_data = s.g_nonrigidicp_data ∧
      s'.g_callback_finished = s.g_callback_finished := by
  induction todo generalizing i nicp s with
  | zero =>
    simp only [nicpStages, Option.some.injEq, Prod.mk.injEq] at h
    obtain ⟨_, h2⟩ := h
    subst h2
    exact ⟨rfl, rfl, rfl, rfl⟩
  | succ todo ih =>
    simp only [nicpStages] at h
    split at h
    · cases h
    · rename_i s2 hu
      obtain ⟨a1, a2, a3, a4, _⟩ := update_mesh_frame ext _ src false _ s2 hu
      obtain ⟨b1, b2, b3, b4⟩ := ih _ _ s2 h
      exact ⟨b1.trans a1, b2.trans a2, b3.trans a3, b4.trans a4⟩

/-- What `NonrigidIcpProcess` leaves once the status is `RUNNING`: the vertices of the
source mesh are the deformed vertices of the solver after its stages, the refresh flag of
the source mesh and the completion flag are set, and the status is `HALTING`. -/
theorem nonrigidIcpRunning_result (ext : Externals) (s s' : AppState)
    (h : nonrigidIcpRunning ext s = some s') :
    ∃ src input nicp s1 mesh', s.g_nonrigidicp_data.src_mesh = some src ∧
      nicpInput s = some input ∧
      nicpStages ext src s.g_nonrigidicp_data.step.toNat 1 (ext.nicp_init input) s =
        some (nicp, s1) ∧
      s'.g_meshes[src]? = some mesh' ∧
      mesh'.vertices = (ext.deformed nicp (s.g_model_matrices src)).1 ∧
      s'.g_update_bvh src = true ∧ s'.g_callback_finished = true ∧
      s'.g_nonrigidicp_run = .HALTING := by
  unfold nonrigidIcpRunning at h
  split at h
  · rename_i src input hsrc hin
    split at h
    · cases h
    · rename_i nicp s1 hst
      obtain ⟨a1, _, _, _⟩ := nicpStages_frame ext src _ _ _ nicp _ s1 hst
      simp only at h
      split at h
      · cases h
      · rename_i s3 hu
        obtain ⟨_, _, _, _, b5⟩ := update_mesh_frame ext nicp src true _ s3 hu
        obtain ⟨mesh', hm1, hm2⟩ := b5 rfl
        simp only [Option.some.injEq] at h
        subst h
        refine ⟨src, input, nicp, s1, mesh', hsrc, hin, hst, hm1, ?_, ?_, rfl, rfl⟩
        · rw [hm2]
          simp only [a1]
        · simp
  · cases h

/-- What `TextransProcess` leaves once the status is `RUNNING`: the texture of the source
mesh is the inpainted transfer result, the completion flag is set, the status is `HALTING`,
and the refresh flags are as before. -/
theorem textransRunning_result (ext : Externals) (s s' : AppState)
    (h : textransRunning ext s = some s') :
    ∃ src dst src_mesh dst_mesh mesh', s.g_textrans_data.src_mesh = some src ∧
      s.g_textrans_data.dst_mesh = some dst ∧ s.g_meshes[src]? = some src_mesh ∧
      s.g_meshes[dst]? = some dst_mesh ∧ s'.g_meshes[src]? = some mesh' ∧
      mesh'.diffuse_tex =
        ext.inpainted (ext.TexTransNoCorresp dst_mesh.diffuse_tex dst_mesh
          (s.g_model_matrices dst) src_mesh (s.g_model_matrices src)
          s.g_textrans_data.dst_size.2 s.g_textrans_data.dst_size.1) ∧
      mesh'.vertices = src_mesh.vertices ∧
      s'.g_callback_finished = true ∧ s'.g_textrans_run = .HALTING ∧
      s'.g_update_bvh = s.g_update_bvh := by
  unfold textransRunning at h
  simp only at h
  split at h
  · rename_i src dst hsrc hdst
    split at h
    · rename_i src_mesh dst_mesh hsm hdm
      simp only [Option.some.injEq] at h
      subst h
      have hlt : src < s.g_meshes.length := by
        by_contra hcon
        rw [List.getElem?_eq_none (not_lt.mp hcon)] at hsm
        cases hsm
      exact ⟨src, dst, src_mesh, dst_mesh, _, hsrc, hdst, hsm, hdm,
        List.getElem?_set_self hlt, rfl, rfl, rfl, rfl, rfl⟩
    · cases h
  · cases h

/-- C9 (counterexample). The worker finishes a started texture transfer on source mesh 0
and sets the completion flag, but the refresh flag (`g_update_bvh`) of mesh 0 is still
false. -/
theorem textrans_leaves_refresh_flag :
    demoTextransStarted.g_textrans_run = .STARTED ∧
      demoTextransStarted.g_textrans_data.src_mesh = some 0 ∧
      demoTextransStarted.g_update_bvh 0 = false ∧
      ∃ s', TextransProcess demoExt demoTextransStarted = some s' ∧
        s'.g_callback_finished = true ∧ s'.g_update_bvh 0 = false :=
  ⟨rfl, rfl, rfl, _, rfl, rfl, rfl⟩

/-- C9 (amended). When the worker finishes a `STARTED` job it has applied the result and set
the completion flag. Rigid ICP: the source transform is the last transform of the history
composed with the source transform at promotion, and the refresh flag of the source mesh
is set. Non-rigid ICP: the vertices of the source mesh are the deformed vertices, and the
refresh flag of the source mesh is set. Texture transfer: the texture of the source mesh is
the transferred texture, and the refresh flags are left as they were. A poll of a kind that
is not `STARTED` changes nothing. -/
theorem worker_applies_result (ext : Externals) (s s' : AppState) :
    (IcpProcess ext s = some s' → s.g_icp_run = .STARTED →
      ∃ src last, s.g_icp_data.src_mesh = some src ∧
        (ext.RigidIcp s.g_icp_data).transform_histry.getLast? = some last ∧
        s'.g_model_matrices src = last.mul (s.g_model_matrices src) ∧
        s'.g_update_bvh src = true ∧ s'.g_callback_finished = true) ∧
    (NonrigidIcpProcess ext s = some s' → s.g_nonrigidicp_run = .STARTED →
      ∃ src input nicp s1 mesh', s.g_nonrigidicp_data.src_mesh = some src ∧
        nicpInput { s with g_nonrigidicp_run := .RUNNING } = some input ∧
        nicpStages ext src s.g_nonrigidicp_data.step.toNat 1 (ext.nicp_init input)
          { s with g_nonrigidicp_run := .RUNNING } = some (nicp, s1) ∧
        s'.g_meshes[src]? = some mesh' ∧
        mesh'.vertices = (ext.deformed nicp (s.g_model_matrices src)).1 ∧
        s'.g_update_bvh src = true ∧ s'.g_callback_finished = true) ∧
    (TextransProcess ext s = some s' → s.g_textrans_run = .STARTED →
      ∃ src dst src_mesh dst_mesh mesh', s.g_textrans_data.src_mesh = some src ∧
        s.g_textrans_data.dst_mesh = some dst ∧ s.g_meshes[src]? = some src_mesh ∧
        s.g_meshes[dst]? = some dst_mesh ∧ s'.g_meshes[src]? = some mesh' ∧
        mesh'.diffuse_tex =
          ext.inpainted (ext.TexTransNoCorresp dst_mesh.diffuse_tex dst_mesh
            (s.g_model_matrices dst) src_mesh (s.g_model_matrices src)
            s.g_textrans_data.dst_size.2 s.g_textrans_data.dst_size.1) ∧
        s'.g_callback_finished = true ∧ s'.g_update_bvh = s.g_update_bvh) ∧
    (s.g_icp_run ≠ .STARTED → IcpProcess ext s = some s) ∧
    (s.g_nonrigidicp_run ≠ .STARTED → NonrigidIcpProcess ext s = some s) ∧
    (s.g_textrans_run ≠ .STARTED → TextransProcess ext s = some s) := by
  refine ⟨?_, ?_, ?_, ?_, ?_, ?_⟩
  · intro h hst
    simp only [IcpProcess, hst, if_true] at h
    obtain ⟨src, last, h1, h2, h3, h4, h5, _⟩ := icpRunning_result ext _ s' h
    exact ⟨src, last, h1, h2, h3, h4, h5⟩
  · intro h hst
    simp only [NonrigidIcpProcess, hst, if_true] at h
    obtain ⟨src, input, nicp, s1, mesh', h1, h2, h3, h4, h5, h6, h7, _⟩ :=
      nonrigidIcpRunning_result ext _ s' h
    exact ⟨src, input, nicp, s1, mesh', h1, h2, h3, h4, h5, h6, h7⟩
  · intro h hst
    simp only [TextransProcess, hst, if_true] at h
    obtain ⟨src, dst, src_mesh, dst_mesh, mesh', h1, h2, h3, h4, h5, h6, _, h8, _, h10⟩ :=
      textransRunning_result ext _ s' h
    exact ⟨src, dst, src_mesh, dst_mesh, mesh', h1, h2, h3, h4, h5, h6, h8, h10⟩
  · intro hne
    simp [IcpProcess, hne]
  · intro hne
    simp [NonrigidIcpProcess, hne]
  · intro hne
    simp [TextransProcess, hne]

/-- C9 (witness). The worker finishes the started rigid and non-rigid jobs of the demo state
on source mesh 0: refresh flag and completion flag are set. -/
theorem worker_applies_result_witness :
    (∃ s', IcpProcess demoExt demoRigidStarted = some s' ∧
      s'.g_update_bvh 0 = true ∧ s'.g_callback_finished = true) ∧
    (∃ s', NonrigidIcpProcess demoExt demoNonrigidStarted = some s' ∧
      s'.g_update_bvh 0 = true ∧ s'.g_callback_finished = true) := by
  constructor
  · have hsome : (IcpProcess demoExt demoRigidStarted).isSome = true := by decide
    cases h : IcpProcess demoExt demoRigidStarted with
    | none => rw [h] at hsome; cases hsome
    | some s' =>
      obtain ⟨src, last, h1, _, _, h4, h5⟩ :=
        (worker_applies_result demoExt demoRigidStarted s').1 h rfl
      have hsrc : src = 0 := (Option.some.inj h1).symm
      rw [hsrc] at h4
      exact ⟨s', rfl, h4, h5⟩
  · have hsome : (NonrigidIcpProcess demoExt demoNonrigidStarted).isSome = true := by decide
    cases h : NonrigidIcpProcess demoExt demoNonrigidStarted with
    | none => rw [h] at hsome; cases hsome
    | some s' =>
      obtain ⟨src, _, _, _, _, h1, _, _, _, _, h6, h7⟩ :=
        (worker_applies_result demoExt demoNonrigidStarted s').2.1 h rfl
      have hsrc : src = 0 := (Option.some.inj h1).symm
      rw [hsrc] at h6
      exact ⟨s', rfl, h6, h7⟩

/-- C10 (counterexample). With the texture transfer job `RUNNING`, the result dialog open and
the completion flag not set, the worker itself sets the status to `HALTING`; the dialog is
still open, so no dismissal by the user was involved. -/
theorem worker_returns_job_to_idle :
    demoTextransRunning.g_textrans_run = .RUNNING ∧
      demoTextransRunning.popup_algorithm_callback = true ∧
      demoTextransRunning.g_callback_finished = false ∧
      ∃ s', textransRunning demoExt demoTextransRunning = some s' ∧
        s'.g_textrans_run = .HALTING ∧ s'.popup_algorithm_callback = true :=
  ⟨rfl, rfl, rfl, _, rfl, rfl, rfl⟩

/-- C10 (amended). A status goes from `RUNNING` to `HALTING` only through the worker: once a
job is `RUNNING`, each of the three process functions ends by setting the completion flag and
the status `HALTING`, and a whole call on a `STARTED` job ends in `HALTING`. No action of
the UI thread changes a status other than to `STARTED`, and the result dialog closes only
when the completion flag is set and "OK" is pressed, without changing a status. -/
theorem running_to_idle_only_by_worker (ext : Externals) (s s' : AppState) :
    (∀ a, uiStep ext s a = some s' →
      (s'.g_icp_run = s.g_icp_run ∨ s'.g_icp_run = .STARTED) ∧
      (s'.g_nonrigidicp_run = s.g_nonrigidicp_run ∨ s'.g_nonrigidicp_run = .STARTED) ∧
      (s'.g_textrans_run = s.g_textrans_run ∨ s'.g_textrans_run = .STARTED)) ∧
    (∀ ok_clicked reset_points,
      (algorithmCallbackPopup ok_clicked reset_points s).1.g_icp_run = s.g_icp_run ∧
      (algorithmCallbackPopup ok_clicked reset_points s).1.g_nonrigidicp_run =
        s.g_nonrigidicp_run ∧
      (algorithmCallbackPopup ok_clicked reset_points s).1.g_textrans_run = s.g_textrans_run ∧
      ((algorithmCallbackPopup ok_clicked reset_points s).1.popup_algorithm_callback ≠
          s.popup_algorithm_callback →
        s.g_callback_finished = true ∧ ok_clicked = true)) ∧
    (icpRunning ext s = some s' →
      s'.g_callback_finished = true ∧ s'.g_icp_run = .HALTING) ∧
    (nonrigidIcpRunning ext s = some s' →
      s'.g_callback_finished = true ∧ s'.g_nonrigidicp_run = .HALTING) ∧
    (textransRunning ext s = some s' →
      s'.g_callback_finished = true ∧ s'.g_textrans_run = .HALTING) ∧
    (IcpProcess ext s = some s' → s.g_icp_run = .STARTED → s'.g_icp_run = .HALTING) ∧
    (NonrigidIcpProcess ext s = some s' → s.g_nonrigidicp_run = .STARTED →
      s'.g_nonrigidicp_run = .HALTING) ∧
    (TextransProcess ext s = some s' → s.g_textrans_run = .STARTED →
      s'.g_textrans_run = .HALTING) := by
  have hpop : ∀ ok_clicked reset_points,
      (algorithmCallbackPopup ok_clicked reset_points s).1.g_icp_run = s.g_icp_run ∧
      (algorithmCallbackPopup ok_clicked reset_points s).1.g_nonrigidicp_run =
        s.g_nonrigidicp_run ∧
      (algorithmCallbackPopup ok_clicked reset_points s).1.g_textrans_run = s.g_textrans_run ∧
      ((algorithmCallbackPopup ok_clicked reset_points s).1.popup_algorithm_callback ≠
          s.popup_algorithm_callback →
        s.g_callback_finished = true ∧ ok_clicked = true) := by
    intro ok_clicked reset_points
    unfold algorithmCallbackPopup
    split
    · rename_i hc
      exact ⟨rfl, rfl, rfl, fun _ => ⟨hc.2.1, hc.2.2⟩⟩
    · exact ⟨rfl, rfl, rfl, fun hne => absurd rfl hne⟩
  refine ⟨?_, hpop, ?_, ?_, ?_, ?_, ?_, ?_⟩
  · intro a h
    cases a with
    | run_rigid_icp src_id dst_id =>
      obtain ⟨hv, h1, h2, h3, _, _, _, _, hsame⟩ := validate_func_fields src_id dst_id s
      simp only [uiStep, runRigidIcp] at h
      split at h
      · split at h
        · simp only [Option.some.injEq] at h
          subst h
          exact ⟨Or.inr rfl, Or.inl h2, Or.inl h3⟩
        · cases h
      · simp only [Option.some.injEq] at h
        subst h
        exact ⟨Or.inl h1, Or.inl h2, Or.inl h3⟩
    | run_nonrigid_icp src_id dst_id =>
      obtain ⟨hv, h1, h2, h3, _, _, _, _, hsame⟩ := validate_func_fields src_id dst_id s
      simp only [uiStep, runNonrigidIcp, Option.some.injEq] at h
      subst h
      split
      · exact ⟨Or.inl h1, Or.inr rfl, Or.inl h3⟩
      · exact ⟨Or.inl h1, Or.inl h2, Or.inl h3⟩
    | run_textrans src_id dst_id =>
      obtain ⟨hv, h1, h2, h3, _, _, _, _, hsame⟩ := validate_func_fields src_id dst_id s
      simp only [uiStep, runTextrans, Option.some.injEq] at h
      subst h
      split
      · exact ⟨Or.inl h1, Or.inl h2, Or.inr rfl⟩
      · exact ⟨Or.inl h1, Or.inl h2, Or.inl h3⟩
    | popup ok_clicked =>
      simp only [uiStep, Option.some.injEq] at h
      subst h
      obtain ⟨p1, p2, p3, _⟩ := hpop ok_clicked false
      exact ⟨Or.inl p1, Or.inl p2, Or.inl p3⟩
  · intro h
    obtain ⟨_, _, _, _, _, _, h5, h6⟩ := icpRunning_result ext s s' h
    exact ⟨h5, h6⟩
  · intro h
    obtain ⟨_, _, _, _, _, _, _, _, _, _, _, h7, h8⟩ := nonrigidIcpRunning_result ext s s' h
    exact ⟨h7, h8⟩
  · intro h
    obtain ⟨_, _, _, _, _, _, _, _, _, _, _, _, h8, h9, _⟩ := textransRunning_result ext s s' h
    exact ⟨h8, h9⟩
  · intro h hst
    simp only [IcpProcess, hst, if_true] at h
    obtain ⟨_, _, _, _, _, _, _, h6⟩ := icpRunning_result ext _ s' h
    exact h6
  · intro h hst
    simp only [NonrigidIcpProcess, hst, if_true] at h
    obtain ⟨_, _, _, _, _, _, _, _, _, _, _, _, h8⟩ := nonrigidIcpRunning_result ext _ s' h
    exact h8
  · intro h hst
    simp only [TextransProcess, hst, if_true] at h
    obtain ⟨_, _, _, _, _, _, _, _, _, _, _, _, _, h9, _⟩ := textransRunning_result ext _ s' h
    exact h9

/-- C10 (witness). In the demo state the worker takes the started rigid ICP job to `HALTING`
in one call, and an "OK" on the open dialog while the job runs changes no status. -/
theorem running_to_idle_only_by_worker_witness :
    (∃ s', IcpProcess demoExt demoRigidStarted = some s' ∧ s'.g_icp_run = .HALTING) ∧
      (algorithmCallbackPopup true false demoTextransRunning).1.g_textrans_run = .RUNNING := by
  constructor
  · have hsome : (IcpProcess demoExt demoRigidStarted).isSome = true := by decide
    cases h : IcpProcess demoExt demoRigidStarted with
    | none => rw [h] at hsome; cases hsome
    | some s' =>
      exact ⟨s', rfl,
        (running_to_idle_only_by_worker demoExt demoRigidStarted s').2.2.2.2.2.1 h rfl⟩
  · exact ((running_to_idle_only_by_worker demoExt demoTextransRunning
      demoTextransRunning).2.1 true false).2.2.1

/-! ## Claims on the view strips -/

theorem isCursorOnView_iff (W N x i : Nat) (hW : W < 4294967296) (hi : i < N) :
    IsCursorOnView W N x i = true ↔ W / N * i ≤ x ∧ x < W / N * (i + 1) := by
  have h2 : W / N * (i + 1) ≤ W := by
    calc W / N * (i + 1) ≤ W / N * N := Nat.mul_le_mul_left _ hi
      _ ≤ W := Nat.div_mul_le_self W N
  have h1 : W / N * i ≤ W / N * (i + 1) := Nat.mul_le_mul_left _ (Nat.le_succ i)
  have m1 : W / N * i % 4294967296 = W / N * i := Nat.mod_eq_of_lt (by omega)
  have m2 : W / N * (i + 1) % 4294967296 = W / N * (i + 1) := Nat.mod_eq_of_lt (by omega)
  unfold IsCursorOnView
  simp only [m1, m2]
  constructor
  · intro h
    by_contra hc
    rw [if_neg hc] at h
    cases h
  · intro h
    rw [if_pos h]

/-- C20 (counterexample). With a framebuffer 3 pixels wide and 2 views the strips are
`[0, 1)` and `[1, 2)`: the cursor column 2 lies in `[0, 3)` and in no view. -/
theorem cursor_column_in_no_view :
    (2 : Nat) < 3 ∧ ∀ vidx, vidx < 2 → IsCursorOnView 3 2 2 vidx = false := by
  decide

/-- C20 (amended). For every width `1 ≤ W < 2^31` and view count `N ≥ 1`, with `w = W / N`
(integer division): view `i` is drawn at `[i·w, (i+1)·w)` with width `w` and full height,
and that interval is the set of cursor columns of the view; a column lies in at most one
view; every column of `[0, N·w)` lies in exactly one view and no column of `[N·w, W)` lies
in a view; the strips cover `[0, W)` when `N` divides `W`. -/
theorem view_strips_partition (W H N : Nat) (hW : 1 ≤ W) (hW31 : W < 2147483648)
    (_hN : 1 ≤ N) :
    (∀ i, i < N → viewViewport W H N i = (W / N * i, 0, W / N, H) ∧
      GetWidthHeightForView W H N = (W / N, H) ∧
      ∀ x, IsCursorOnView W N x i = true ↔ W / N * i ≤ x ∧ x < W / N * i + W / N) ∧
    (∀ x i j, i < N → j < N → IsCursorOnView W N x i = true →
      IsCursorOnView W N x j = true → i = j) ∧
    (∀ x, x < N * (W / N) → ∃ i, i < N ∧ IsCursorOnView W N x i = true) ∧
    (∀ x i, N * (W / N) ≤ x → i < N → IsCursorOnView W N x i = false) ∧
    N * (W / N) ≤ W ∧ (N ∣ W → N * (W / N) = W) := by
  have hW32 : W < 4294967296 := by omega
  refine ⟨?_, ?_, ?_, ?_, Nat.mul_div_le W N, fun hd => Nat.mul_div_cancel' hd⟩
  · intro i hi
    have h2 : W / N * i ≤ W := by
      calc W / N * i ≤ W / N * N := Nat.mul_le_mul_left _ (Nat.le_of_lt hi)
        _ ≤ W := Nat.div_mul_le_self W N
    refine ⟨?_, rfl, ?_⟩
    · simp only [viewViewport]
      rw [Nat.mod_eq_of_lt (by omega)]
    · intro x
      rw [isCursorOnView_iff W N x i hW32 hi, Nat.mul_succ]
  · intro x i j hi hj h1 h2
    rw [isCursorOnView_iff W N x i hW32 hi] at h1
    rw [isCursorOnView_iff W N x j hW32 hj] at h2
    by_contra hne
    rcases Nat.lt_or_gt_of_ne hne with hlt | hlt
    · have : W / N * (i + 1) ≤ W / N * j := Nat.mul_le_mul_left _ hlt
      omega
    · have : W / N * (j + 1) ≤ W / N * i := Nat.mul_le_mul_left _ hlt
      omega
  · intro x hx
    have hw : 0 < W / N := by
      rcases Nat.eq_zero_or_pos (W / N) with h0 | hpos
      · rw [h0] at hx; omega
      · exact hpos
    refine ⟨x / (W / N), ?_, ?_⟩
    · rw [Nat.div_lt_iff_lt_mul hw]; exact hx
    · rw [isCursorOnView_iff W N x _ hW32 (by rw [Nat.div_lt_iff_lt_mul hw]; exact hx)]
      exact ⟨Nat.mul_div_le x (W / N), Nat.lt_mul_div_succ x hw⟩
  · intro x i hx hi
    cases hb : IsCursorOnView W N x i with
    | false => rfl
    | true =>
      rw [isCursorOnView_iff W N x i hW32 hi] at hb
      have : W / N * (i + 1) ≤ W / N * N := Nat.mul_le_mul_left _ hi
      have hc : W / N * N = N * (W / N) := Nat.mul_comm _ _
      omega

/-- C20 (witness). A framebuffer 1920 pixels wide with 2 views: two strips 960 wide, column
1000 lies in view 1. -/
theorem view_strips_partition_witness :
    viewViewport 1920 1080 2 1 = (960, 0, 960, 1080) ∧
      (∃ i, i < 2 ∧ IsCursorOnView 1920 2 1000 i = true) ∧ 2 * (1920 / 2) = 1920 :=
  have h := view_strips_partition 1920 1080 2 (by decide) (by decide) (by decide)
  ⟨by simpa using (h.1 1 (by decide)).1, h.2.2.1 1000 (by decide), h.2.2.2.2.2 (by decide)⟩
/-! ## Claims on Remove and Import -/

/-- C16. `Remove` deletes exactly the entry at the index the view has selected when the
button is handled, if that index is below the list length: the list is one shorter, the
entries before the index keep their place and the entries after it move up by one. Otherwise
it does nothing. The index a panel pass works with (any view, any stored index) is strictly
below the length of the list it finds, whenever that list is non-empty. -/
theorem remove_deletes_selected_entry (points : List CastRayResult)
    (selected_point_idx : Option Nat) (select_click : Option Nat) :
    (pointsPanelPass selected_point_idx points select_click true).2 =
        removeAt points (pointsPanelPass selected_point_idx points select_click true).1 ∧
      (∀ idx, idx < points.length →
        (removeAt points idx).length + 1 = points.length ∧
        (∀ j, j < idx → (removeAt points idx)[j]? = points[j]?) ∧
        (∀ j, idx ≤ j → (removeAt points idx)[j]? = points[j + 1]?)) ∧
      (∀ idx, ¬ idx < points.length → removeAt points idx = points) ∧
      (∀ idx other_idx other_click remove_click, 0 < (removeAt points idx).length →
        (pointsPanelPass other_idx (removeAt points idx) other_click remove_click).1 <
          (removeAt points idx).length) := by
  refine ⟨rfl, ?_, ?_, ?_⟩
  · intro idx hidx
    have heq : removeAt points idx = points.eraseIdx idx := by
      simp [removeAt, hidx]
    rw [heq]
    refine ⟨?_, ?_, ?_⟩
    · rw [List.length_eraseIdx, if_pos hidx]
      omega
    · intro j hj
      rw [List.getElem?_eraseIdx, if_pos hj]
    · intro j hj
      rw [List.getElem?_eraseIdx, if_neg (by omega)]
  · intro idx hidx
    simp [removeAt, hidx]
  · intro idx other_idx other_click remove_click hpos
    simp only [pointsPanelPass]
    have hc := clampSelectedIdx_lt other_idx _ hpos
    cases other_click with
    | none => exact hc
    | some n =>
      simp only
      split
      · assumption
      · exact hc

/-- C16 (witness). Three entries, stored index 1: `Remove` deletes the middle entry; a view
whose stored index is 2 is clamped back to 0 by its next pass. -/
theorem remove_deletes_selected_entry_witness :
    (pointsPanelPass (some 1) [demoPoint 0 1, demoPoint 0 2, demoPoint 0 3] none true).2 =
        [demoPoint 0 1, demoPoint 0 3] ∧
      (pointsPanelPass (some 2) (removeAt [demoPoint 0 1, demoPoint 0 2, demoPoint 0 3] 1)
        none false).1 < (removeAt [demoPoint 0 1, demoPoint 0 2, demoPoint 0 3] 1).length :=
  have h := remove_deletes_selected_entry [demoPoint 0 1, demoPoint 0 2, demoPoint 0 3]
    (some 1) none
  ⟨by rw [h.1]; decide, h.2.2.2 1 (some 2) none false (by decide)⟩

theorem importRecords_eq_map (d0 : IntersectResult) (i : Nat) (pofs : List PointOnFace) :
    importRecords d0 i pofs = pofs.map (importedEntry d0 i) := by
  have key : ∀ (l : List PointOnFace) (acc : List CastRayResult),
      l.foldl (fun points pof => pushBack points (importedEntry d0 i pof)) acc =
        acc ++ l.map (importedEntry d0 i) := by
    intro l
    induction l with
    | nil => intro acc; simp
    | cons pof rest ih =>
      intro acc
      simp only [List.foldl_cons, List.map_cons]
      rw [ih]
      simp [pushBack]
  simpa [importRecords] using key pofs []

/-- C12. `Import` is all-or-nothing. If the point type is the unsupported 3D point, the
loader throws or it yields no record, every correspondence list and `reset_points` are as
before. If the loader yields a non-empty record list, the list of the mesh becomes exactly
the records (triangle id, `u`, `v`) in file order, each tagged with the mesh index, and the
other lists are untouched. -/
theorem import_all_or_nothing (d0 : IntersectResult)
    (LoadPoints : String → PointOnFaceType → Option (List PointOnFace))
    (i : Nat) (path : String) (pof_type : PointOnFaceType) (s : ImportState) :
    ((pof_type = .THREED_POINT ∨ LoadPoints path pof_type = none ∨
        LoadPoints path pof_type = some []) →
      (importButton d0 LoadPoints i path pof_type s).g_selected_positions =
          s.g_selected_positions ∧
        (importButton d0 LoadPoints i path pof_type s).reset_points = s.reset_points) ∧
    (∀ pofs, pof_type ≠ .THREED_POINT → LoadPoints path pof_type = some pofs → pofs ≠ [] →
      (importButton d0 LoadPoints i path pof_type s).g_selected_positions i =
          some (pofs.map (importedEntry d0 i)) ∧
        (pointsOf (importButton d0 LoadPoints i path pof_type s).g_selected_positions i).length =
          pofs.length ∧
        (∀ (j : Nat) (pof : PointOnFace), pofs[j]? = some pof →
          (pointsOf (importButton d0 LoadPoints i path pof_type s).g_selected_positions i)[j]? =
            some (CastRayResult.mk i { d0 with fid := pof.fid, u := pof.u, v := pof.v })) ∧
        (∀ j, j ≠ i →
          (importButton d0 LoadPoints i path pof_type s).g_selected_positions j =
            s.g_selected_positions j) ∧
        (importButton d0 LoadPoints i path pof_type s).reset_points = true) := by
  constructor
  · rintro (h | h | h)
    · simp [importButton, h]
    · by_cases ht : pof_type = .THREED_POINT
      · simp [importButton, ht]
      · simp [importButton, ht, h]
    · by_cases ht : pof_type = .THREED_POINT
      · simp [importButton, ht]
      · simp [importButton, ht, h]
  · intro pofs ht hl hne
    have hemp : pofs.isEmpty = false := by
      cases pofs with
      | nil => exact absurd rfl hne
      | cons a l => rfl
    have hsel : (importButton d0 LoadPoints i path pof_type s).g_selected_positions =
        Function.update s.g_selected_positions i (some (pofs.map (importedEntry d0 i))) := by
      simp [importButton, ht, hl, hemp, importRecords_eq_map]
    have hreset : (importButton d0 LoadPoints i path pof_type s).reset_points = true := by
      simp [importButton, ht, hl, hemp]
    rw [hsel]
    refine ⟨by simp, by simp [pointsOf], ?_, ?_, hreset⟩
    · intro j pof hj
      simp [pointsOf, List.getElem?_map, hj, importedEntry]
    · intro j hj
      simp [Function.update_noteq hj]

/-- C12 (witness). A file with two records replaces the three entries of mesh 1; a loader
that throws leaves the lists as they were. -/
theorem import_all_or_nothing_witness :
    (importButton demoD0 goodLoadPoints 1 "points.json" .POINT_ON_TRIANGLE
        (demoImport nearSel)).g_selected_positions 1 =
        some [⟨1, ⟨0, 0, 1, 0⟩⟩, ⟨1, ⟨0, 1, 0, 0⟩⟩] ∧
      (importButton demoD0 (fun _ _ => none) 1 "points.json" .POINT_ON_TRIANGLE
        (demoImport nearSel)).g_selected_positions = nearSel :=
  ⟨((import_all_or_nothing demoD0 goodLoadPoints 1 "points.json" .POINT_ON_TRIANGLE
      (demoImport nearSel)).2 _ (by decide) rfl (by decide)).1,
    ((import_all_or_nothing demoD0 (fun _ _ => none) 1 "points.json" .POINT_ON_TRIANGLE
      (demoImport nearSel)).1 (Or.inr (Or.inl rfl))).1⟩

/-- C13 (counterexample). A file whose only record has `u = -1` and triangle id 5 is
imported into a mesh with one triangle: the stored entry has a negative `u` and a triangle
id that is not a face index of the mesh. -/
theorem import_keeps_invalid_record :
    ∃ r, r ∈ pointsOf (importButton demoD0 badLoadPoints 0 "points.json" .POINT_ON_TRIANGLE
        (demoImport nearSel)).g_selected_positions 0 ∧
      r.intersection.u < 0 ∧ ¬ r.intersection.fid < (demoMesh ⟨1, 1, [1]⟩).vertex_indices.length ∧
      ¬ ValidEntry (demoMesh ⟨1, 1, [1]⟩).vertex_indices.length r := by
  refine ⟨⟨0, ⟨5, -1, 0, 0⟩⟩, ?_, ?_, ?_, ?_⟩
  · simp [pointsOf, importButton, badLoadPoints, importRecords, pushBack, importedEntry, demoD0]
  · norm_num
  · decide
  · intro h
    have := h.2
    revert this
    decide

/-- C13 (amended). After an `Import` that loads a non-empty record list, the entries of the
list of the mesh are the records as they are in the file, without any validation: every
entry satisfies `u ≥ 0`, `v ≥ 0`, `u + v ≤ 1` and has a valid face index if and only if
every record of the file does. -/
theorem import_entries_valid_iff (d0 : IntersectResult)
    (LoadPoints : String → PointOnFaceType → Option (List PointOnFace))
    (i n_faces : Nat) (path : String) (pof_type : PointOnFaceType) (s : ImportState)
    (pofs : List PointOnFace) (ht : pof_type ≠ .THREED_POINT)
    (hl : LoadPoints path pof_type = some pofs) (hne : pofs ≠ []) :
    (∀ r ∈ pointsOf (importButton d0 LoadPoints i path pof_type s).g_selected_positions i,
        ValidEntry n_faces r) ↔
      ∀ pof ∈ pofs, ValidRecord n_faces pof := by
  have hemp : pofs.isEmpty = false := by
    cases pofs with
    | nil => exact absurd rfl hne
    | cons a l => rfl
  have hsel : pointsOf (importButton d0 LoadPoints i path pof_type s).g_selected_positions i =
      pofs.map (importedEntry d0 i) := by
    simp [importButton, ht, hl, hemp, importRecords_eq_map, pointsOf]
  rw [hsel]
  constructor
  · intro h pof hp
    have := h (importedEntry d0 i pof) (List.mem_map_of_mem _ hp)
    exact ⟨this.1.1, this.1.2.1, this.1.2.2, this.2⟩
  · intro h r hr
    obtain ⟨pof, hp, rfl⟩ := List.mem_map.mp hr
    have := h pof hp
    exact ⟨⟨this.1, this.2.1, this.2.2.1⟩, this.2.2.2⟩

/-- C13 (witness). The two records of the valid file give two valid entries on a mesh with
one triangle. -/
theorem import_entries_valid_iff_witness :
    ValidEntry 1 (importedEntry demoD0 0 ⟨0, 0, 1⟩) ∧
      ValidEntry 1 (importedEntry demoD0 0 ⟨0, 1, 0⟩) :=
  have h := (import_entries_valid_iff demoD0 goodLoadPoints 0 1 "points.json"
    .POINT_ON_TRIANGLE (demoImport nearSel) [⟨0, 0, 1⟩, ⟨0, 1, 0⟩] (by decide) rfl
    (by decide)).2 (by
      intro pof hp
      simp only [List.mem_cons, List.mem_singleton, List.not_mem_nil, or_false] at hp
      rcases hp with hp | hp <;> subst hp <;> norm_num [ValidRecord])
  ⟨h _ (by simp [pointsOf, importButton, goodLoadPoints, importRecords, pushBack]),
    h _ (by simp [pointsOf, importButton, goodLoadPoints, importRecords, pushBack])⟩
/-! ## Claims on the occlusion test -/

theorem overlayPasses_iff (view : OverlayView) (k : Nat) (p : CastRayResult) :
    overlayPasses view k p = true ↔
      view.cam_z p ≤ 0 ∧ view.front_id p ≠ NONE_ID ∧ view.mesh_id k = view.front_id p ∧
        view.hit_dist p ≤ view.depth_threshold := by
  unfold overlayPasses
  by_cases h1 : view.cam_z p > 0
  · simp [h1]
  · by_cases h2 : view.front_id p = NONE_ID
    · simp [h1, h2]
    · by_cases h3 : view.mesh_id k = view.front_id p
      · by_cases h4 : view.hit_dist p > view.depth_threshold
        · simp [h1, h2, h3, h4]
        · simp only [h1, h2, h3, h4, if_false, ne_eq, not_true_eq_false, not_false_eq_true,
            true_and, true_iff]
          exact ⟨not_lt.mp h1, not_lt.mp h4⟩
      · simp [h1, h2, h3]

theorem overlayPointLoop_mem (view : OverlayView) (k : Nat) (points : List CastRayResult)
    (texts : List Text) (j : Nat) (t : Text) :
    t ∈ (List.range j).foldl (overlayPointStep view k points) texts ↔
      t ∈ texts ∨ ∃ i p, i < j ∧ points[i]? = some p ∧ overlayPasses view k p = true ∧
        t = ⟨i, view.text_x p, view.text_y p⟩ := by
  induction j with
  | zero => simp
  | succ j ih =>
    rw [List.range_succ, List.foldl_append]
    simp only [List.foldl_cons, List.foldl_nil]
    generalize (List.range j).foldl (overlayPointStep view k points) texts = acc at ih ⊢
    unfold overlayPointStep
    cases hp : points[j]? with
    | none =>
      simp only
      rw [ih]
      constructor
      · rintro (h | ⟨i, p, hi, h⟩)
        · exact Or.inl h
        · exact Or.inr ⟨i, p, Nat.lt_succ_of_lt hi, h⟩
      · rintro (h | ⟨i, p, hi, hget, h⟩)
        · exact Or.inl h
        · rcases Nat.lt_succ_iff_lt_or_eq.mp hi with hi | hi
          · exact Or.inr ⟨i, p, hi, hget, h⟩
          · subst hi
            rw [hp] at hget
            cases hget
    | some q =>
      simp only
      by_cases hq : overlayPasses view k q = true
      · rw [if_pos hq, List.mem_append, ih, List.mem_singleton]
        constructor
        · rintro ((h | ⟨i, p, hi, h⟩) | h)
          · exact Or.inl h
          · exact Or.inr ⟨i, p, Nat.lt_succ_of_lt hi, h⟩
          · exact Or.inr ⟨j, q, Nat.lt_succ_self j, hp, hq, h⟩
        · rintro (h | ⟨i, p, hi, hget, hpass, ht⟩)
          · exact Or.inl (Or.inl h)
          · rcases Nat.lt_succ_iff_lt_or_eq.mp hi with hi | hi
            · exact Or.inl (Or.inr ⟨i, p, hi, hget, hpass, ht⟩)
            · subst hi
              rw [hp] at hget
              cases hget
              exact Or.inr ht
      · rw [if_neg hq, ih]
        constructor
        · rintro (h | ⟨i, p, hi, h⟩)
          · exact Or.inl h
          · exact Or.inr ⟨i, p, Nat.lt_succ_of_lt hi, h⟩
        · rintro (h | ⟨i, p, hi, hget, hpass, ht⟩)
          · exact Or.inl h
          · rcases Nat.lt_succ_iff_lt_or_eq.mp hi with hi | hi
            · exact Or.inr ⟨i, p, hi, hget, hpass, ht⟩
            · subst hi
              rw [hp] at hget
              cases hget
              exact absurd hpass hq

theorem overlayTexts_mem (n : Nat) (sel : SelectedPositions) (view : OverlayView) (t : Text) :
    t ∈ overlayTexts n sel view ↔
      ∃ k i p, k < n ∧ view.visibility k = true ∧ (pointsOf sel k)[i]? = some p ∧
        overlayPasses view k p = true ∧ t = ⟨i, view.text_x p, view.text_y p⟩ := by
  induction n with
  | zero => simp [overlayTexts]
  | succ n ih =>
    have hstep : overlayTexts (n + 1) sel view =
        overlayMeshStep view sel (overlayTexts n sel view) n := by
      simp [overlayTexts, List.range_succ, List.foldl_append]
    rw [hstep]
    unfold overlayMeshStep
    by_cases hv : view.visibility n = false
    · rw [if_pos hv, ih]
      constructor
      · rintro ⟨k, i, p, hk, h⟩
        exact ⟨k, i, p, Nat.lt_succ_of_lt hk, h⟩
      · rintro ⟨k, i, p, hk, hvis, h⟩
        rcases Nat.lt_succ_iff_lt_or_eq.mp hk with hk | hk
        · exact ⟨k, i, p, hk, hvis, h⟩
        · subst hk
          rw [hv] at hvis
          cases hvis
    · rw [if_neg hv, overlayPointLoop_mem, ih]
      have hvis : view.visibility n = true := by simpa using hv
      constructor
      · rintro (⟨k, i, p, hk, h⟩ | ⟨i, p, _, hget, hpass, ht⟩)
        · exact ⟨k, i, p, Nat.lt_succ_of_lt hk, h⟩
        · exact ⟨n, i, p, Nat.lt_succ_self n, hvis, hget, hpass, ht⟩
      · rintro ⟨k, i, p, hk, hvis', hget, hpass, ht⟩
        rcases Nat.lt_succ_iff_lt_or_eq.mp hk with hk | hk
        · exact Or.inl ⟨k, i, p, hk, hvis', hget, hpass, ht⟩
        · subst hk
          refine Or.inr ⟨i, p, ?_, hget, hpass, ht⟩
          by_contra hcon
          rw [List.getElem?_eq_none (not_lt.mp hcon)] at hget
          cases hget

/-- C14. In the overlay pass the label of a point of a visible mesh is pushed exactly when
the point is not behind the camera, the front-most mesh at the point exists and is the mesh
of the point, and the hit on that mesh is within the depth tolerance of the point; the
labels handed to the renderer are those of such points. In particular a point whose hit on
its own mesh is farther than the tolerance gets no label, whatever the other tests say. -/
theorem overlay_label_only_if_unoccluded (n : Nat) (sel : SelectedPositions)
    (view : OverlayView) :
    (∀ k p, overlayPasses view k p = true ↔
      view.cam_z p ≤ 0 ∧ view.front_id p ≠ NONE_ID ∧ view.mesh_id k = view.front_id p ∧
        view.hit_dist p ≤ view.depth_threshold) ∧
    (∀ k p, view.mesh_id k = view.front_id p → view.depth_threshold < view.hit_dist p →
      overlayPasses view k p = false) ∧
    (∀ t, t ∈ overlayTexts n sel view ↔
      ∃ k i p, k < n ∧ view.visibility k = true ∧ (pointsOf sel k)[i]? = some p ∧
        view.cam_z p ≤ 0 ∧ view.front_id p ≠ NONE_ID ∧ view.mesh_id k = view.front_id p ∧
        view.hit_dist p ≤ view.depth_threshold ∧ t = ⟨i, view.text_x p, view.text_y p⟩) := by
  refine ⟨overlayPasses_iff view, ?_, ?_⟩
  · intro k p _ hfar
    cases hb : overlayPasses view k p with
    | false => rfl
    | true =>
      have := ((overlayPasses_iff view k p).mp hb).2.2.2
      exact absurd hfar (not_lt.mpr this)
  · intro t
    rw [overlayTexts_mem]
    constructor
    · rintro ⟨k, i, p, hk, hv, hget, hpass, ht⟩
      obtain ⟨h1, h2, h3, h4⟩ := (overlayPasses_iff view k p).mp hpass
      exact ⟨k, i, p, hk, hv, hget, h1, h2, h3, h4, ht⟩
    · rintro ⟨k, i, p, hk, hv, hget, h1, h2, h3, h4, ht⟩
      exact ⟨k, i, p, hk, hv, hget, (overlayPasses_iff view k p).mpr ⟨h1, h2, h3, h4⟩, ht⟩

/-- C14 (witness). A point on the far side of its own mesh gets no label; the same point
facing the camera gets the label 0. -/
theorem overlay_label_only_if_unoccluded_witness :
    overlayPasses farSideView 0 (demoPoint 0 3) = false ∧
      overlayTexts 1 onePointSel farSideView = [] ∧
      overlayTexts 1 onePointSel frontView = [⟨0, 3, 0⟩] :=
  ⟨(overlay_label_only_if_unoccluded 1 onePointSel farSideView).2.1 0 (demoPoint 0 3) rfl
      (by decide), by decide, by decide⟩

/-- C15 (the code at the failing input). A stored point on the far side of its own mesh, and
a stored point behind the camera, 3 pixels from the cursor: the overlay pass gives neither
a label, and `FindClosestSelectedPoint` returns each of them. -/
theorem findClosest_returns_occluded_point :
    overlayTexts 1 onePointSel farSideView = [] ∧
      FindClosestSelectedPoint 1 onePointSel farSideView.toSplitViewInfo = ⟨true, 0, 0, 3⟩ ∧
      overlayTexts 1 onePointSel behindView = [] ∧
      FindClosestSelectedPoint 1 onePointSel behindView.toSplitViewInfo = ⟨true, 0, 0, 3⟩ := by
  decide
/-! ## Claims on the scene registry -/

theorem loadMesh_length_le (lx : LoaderExternals) (path : String) (ptr : Nat) (s : Scene)
    (h : s.g_meshes.length ≤ 4) : (LoadMesh lx path ptr s).g_meshes.length ≤ 4 := by
  unfold LoadMesh
  split
  · exact h
  · split
    · split
      · exact h
      · simp only [List.length_append, List.length_singleton]
        omega
    · exact h

theorem runSceneOps_length_le (lx : LoaderExternals) (ops : List SceneOp) (s : Scene)
    (h : s.g_meshes.length ≤ 4) : (runSceneOps lx s ops).g_meshes.length ≤ 4 := by
  induction ops generalizing s with
  | nil => exact h
  | cons op ops ih =>
    have hrun : runSceneOps lx s (op :: ops) = runSceneOps lx (applySceneOp lx s op) ops := rfl
    rw [hrun]
    apply ih
    cases op with
    | load path ptr => exact loadMesh_length_le lx path ptr s h
    | clear => simp [applySceneOp, Clear]

/-- C18. `LoadMesh` is all-or-nothing. If 4 meshes are loaded, the extension is neither
`obj` nor `OBJ`, or the loader fails, the scene is unchanged. Otherwise the mesh is appended
to the mesh, name and path lists and gets an identity transform, a set refresh flag and an
empty correspondence list, the entries of the other meshes being untouched. The number of
loaded meshes never exceeds 4, after any sequence of loads and clears. -/
theorem loadMesh_all_or_nothing (lx : LoaderExternals) (path : String) (ptr : Nat)
    (s : Scene) :
    ((4 ≤ s.g_meshes.length ∨ ¬ (lx.ExtractExt path = "obj" ∨ lx.ExtractExt path = "OBJ") ∨
        lx.LoadObj path = none) → LoadMesh lx path ptr s = s) ∧
    (∀ mesh, s.g_meshes.length < 4 → (lx.ExtractExt path = "obj" ∨ lx.ExtractExt path = "OBJ") →
      lx.LoadObj path = some mesh →
      (LoadMesh lx path ptr s).g_meshes = s.g_meshes ++ [ptr] ∧
      (LoadMesh lx path ptr s).g_mesh_names = s.g_mesh_names ++ [lx.ExtractFilename path] ∧
      (LoadMesh lx path ptr s).g_mesh_paths = s.g_mesh_paths ++ [path] ∧
      (LoadMesh lx path ptr s).g_model_matrices ptr = some Affine3.identity ∧
      (LoadMesh lx path ptr s).g_update_bvh ptr = some true ∧
      (LoadMesh lx path ptr s).g_selected_positions ptr = some [] ∧
      ∀ q, q ≠ ptr →
        (LoadMesh lx path ptr s).g_model_matrices q = s.g_model_matrices q ∧
        (LoadMesh lx path ptr s).g_update_bvh q = s.g_update_bvh q ∧
        (LoadMesh lx path ptr s).g_selected_positions q = s.g_selected_positions q) ∧
    (s.g_meshes.length ≤ 4 → (LoadMesh lx path ptr s).g_meshes.length ≤ 4) ∧
    (∀ ops, (runSceneOps lx emptyScene ops).g_meshes.length ≤ 4) := by
  refine ⟨?_, ?_, loadMesh_length_le lx path ptr s, fun ops =>
    runSceneOps_length_le lx ops emptyScene (by simp [emptyScene])⟩
  · rintro (h | h | h)
    · simp [LoadMesh, h]
    · simp [LoadMesh, h]
    · unfold LoadMesh
      split
      · rfl
      · split
        · rw [h]
        · rfl
  · intro mesh hlen hext hload
    have h4 : ¬ 4 ≤ s.g_meshes.length := by omega
    simp only [LoadMesh, if_neg h4, if_pos hext, hload, Function.update_same, true_and]
    intro q hq
    simp [Function.update_noteq hq]

/-- C18 (witness). The demo loader loads `a.obj` into the empty scene and refuses `a.txt`. -/
theorem loadMesh_all_or_nothing_witness :
    (LoadMesh demoLoader "a.obj" 7 emptyScene).g_meshes = [7] ∧
      (LoadMesh demoLoader "a.obj" 7 emptyScene).g_model_matrices 7 = some Affine3.identity ∧
      LoadMesh demoLoader "a.txt" 7 emptyScene = emptyScene :=
  have h := (loadMesh_all_or_nothing demoLoader "a.obj" 7 emptyScene).2.1
    (demoMesh ⟨1, 1, [1]⟩) (by decide) (by decide) rfl
  ⟨h.1, h.2.2.2.1,
    (loadMesh_all_or_nothing demoLoader "a.txt" 7 emptyScene).1 (Or.inr (Or.inl (by decide)))⟩

/-- C19 (the code at the failing input). After a mesh is loaded and the scene is cleared, no
mesh is loaded and the mesh has no correspondence list, but it still has a model transform
and a refresh flag. -/
theorem clear_keeps_transform :
    (runSceneOps demoLoader emptyScene [.load "a.obj" 7, .clear]).g_meshes = [] ∧
      (runSceneOps demoLoader emptyScene [.load "a.obj" 7, .clear]).g_selected_positions 7 =
        none ∧
      (runSceneOps demoLoader emptyScene [.load "a.obj" 7, .clear]).g_model_matrices 7 =
        some Affine3.identity ∧
      (runSceneOps demoLoader emptyScene [.load "a.obj" 7, .clear]).g_update_bvh 7 =
        some true := by
  decide
/-! ## Claims on the alignment by selected points -/

theorem extractPos_congr (s s' : AppState) (results : List CastRayResult)
    (h1 : s'.g_meshes = s.g_meshes) (h2 : s'.g_model_matrices = s.g_model_matrices) :
    ExtractPos s' results = ExtractPos s results := by
  have hg : ∀ res geoid, GetPos s' res geoid = GetPos s res geoid := by
    intro res geoid
    simp only [GetPos, h1, h2]
  simp only [ExtractPos, hg]

theorem extractPos_length (s : AppState) (results : List CastRayResult) (ps : List Vec3)
    (h : ExtractPos s results = some ps) : ps.length = results.length := by
  unfold ExtractPos at h
  induction results generalizing ps with
  | nil =>
    rw [List.mapM_nil] at h
    cases h
    rfl
  | cons r rest ih =>
    simp only [List.mapM_cons, Option.bind_eq_bind, Option.pure_def, Option.bind_eq_some] at h
    obtain ⟨p, _, ps', hps', hcons⟩ := h
    cases hcons
    simp [ih ps' hps']

theorem pointsOf_touchKey (sel : SelectedPositions) (k j : Nat) :
    pointsOf (touchKey sel k) j = pointsOf sel j := by
  unfold touchKey
  by_cases h : j = k
  · subst h
    simp [pointsOf]
  · simp [pointsOf, Function.update_noteq h]

theorem extractPos_with_sel (s : AppState) (sel : SelectedPositions)
    (results : List CastRayResult) :
    ExtractPos { s with g_selected_positions := sel } results = ExtractPos s results :=
  extractPos_congr s _ results rfl rfl
/-- C17 (counterexample). In the demo state with three correspondences on each mesh the
request is accepted, and besides the transform of the source mesh its refresh flag
changes, from false to true. -/
theorem alignment_sets_refresh_flag :
    demoAlignState.g_update_bvh 0 = false ∧
      (runAlignment demoAlign false 0 1 false demoAlignState).map
        (fun x => x.1.g_update_bvh 0) = some true ∧
      (runAlignment demoAlign false 0 1 false demoAlignState).map
        (fun x => x.1.g_model_matrices 0) = some (demoShift.mul Affine3.identity) := by
  refine ⟨rfl, by decide, rfl⟩

/-- C17 (amended). When the "Run" of the alignment by selected points returns: if a source and
a target are selected, they differ, the source has at least 3 correspondences and the two
lists have equal length, the transform of the source mesh becomes `src2dst` composed with
its previous value and the refresh flag of the source mesh is set, while no other transform,
no other refresh flag and no correspondence list changes; in every other case an error
message is set and no transform, refresh flag or correspondence list changes. -/
theorem alignment_by_points (ax : AlignExternals) (with_scale : Bool) (src_id dst_id : Int)
    (reset_points : Bool) (s s' : AppState) (r : Bool)
    (h : runAlignment ax with_scale src_id dst_id reset_points s = some (s', r)) :
    ((0 ≤ src_id ∧ 0 ≤ dst_id ∧ src_id ≠ dst_id ∧
        3 ≤ (pointsOf s.g_selected_positions src_id.toNat).length ∧
        (pointsOf s.g_selected_positions src_id.toNat).length =
          (pointsOf s.g_selected_positions dst_id.toNat).length) →
      ∃ src_points dst_points,
        ExtractPos s (pointsOf s.g_selected_positions src_id.toNat) = some src_points ∧
        ExtractPos s (pointsOf s.g_selected_positions dst_id.toNat) = some dst_points ∧
        s'.g_model_matrices src_id.toNat =
          (if with_scale = true then
              ax.FindSimilarityTransformFrom3dCorrespondences src_points dst_points
            else ax.FindRigidTransformFrom3dCorrespondences src_points dst_points).mul
            (s.g_model_matrices src_id.toNat) ∧
        (∀ k, k ≠ src_id.toNat → s'.g_model_matrices k = s.g_model_matrices k) ∧
        s'.g_update_bvh src_id.toNat = true ∧
        (∀ k, k ≠ src_id.toNat → s'.g_update_bvh k = s.g_update_bvh k) ∧
        (∀ k, pointsOf s'.g_selected_positions k = pointsOf s.g_selected_positions k) ∧
        r = true) ∧
    (¬ (0 ≤ src_id ∧ 0 ≤ dst_id ∧ src_id ≠ dst_id ∧
        3 ≤ (pointsOf s.g_selected_positions src_id.toNat).length ∧
        (pointsOf s.g_selected_positions src_id.toNat).length =
          (pointsOf s.g_selected_positions dst_id.toNat).length) →
      s'.g_error_message ≠ .empty ∧ s'.popup_error = true ∧
        s'.g_model_matrices = s.g_model_matrices ∧ s'.g_update_bvh = s.g_update_bvh ∧
        (∀ k, pointsOf s'.g_selected_positions k = pointsOf s.g_selected_positions k) ∧
        r = reset_points) := by
  unfold runAlignment validate_func at h
  by_cases h1 : src_id < 0 ∨ dst_id < 0
  · -- nothing selected
    simp only [if_pos h1] at h
    simp only [Bool.false_eq_true, if_false, Option.some.injEq, Prod.mk.injEq] at h
    obtain ⟨hs, hr⟩ := h
    subst hs
    refine ⟨fun hacc => by omega, fun _ => ⟨by simp, rfl, rfl, rfl, fun _ => rfl, hr.symm⟩⟩
  · simp only [if_neg h1] at h
    by_cases h2 : src_id = dst_id
    · simp only [if_pos h2] at h
      simp only [Bool.false_eq_true, if_false, Option.some.injEq, Prod.mk.injEq] at h
      obtain ⟨hs, hr⟩ := h
      subst hs
      refine ⟨fun hacc => absurd h2 hacc.2.2.1,
        fun _ => ⟨by simp, rfl, rfl, rfl, fun _ => rfl, hr.symm⟩⟩
    · simp only [if_neg h2, if_true] at h
      have hvalid : 0 ≤ src_id ∧ 0 ≤ dst_id ∧ src_id ≠ dst_id := by omega
      split at h
      swap
      · cases h
      -- positions of the two lists, read in the state with the touched keys
      have hp1 : pointsOf (touchKey s.g_selected_positions src_id.toNat) src_id.toNat =
          pointsOf s.g_selected_positions src_id.toNat := pointsOf_touchKey _ _ _
      have hp2 : pointsOf (touchKey (touchKey s.g_selected_positions src_id.toNat)
          dst_id.toNat) dst_id.toNat = pointsOf s.g_selected_positions dst_id.toNat := by
        rw [pointsOf_touchKey, pointsOf_touchKey]
      have hall : ∀ k, pointsOf (touchKey (touchKey s.g_selected_positions src_id.toNat)
          dst_id.toNat) k = pointsOf s.g_selected_positions k := by
        intro k
        rw [pointsOf_touchKey, pointsOf_touchKey]
      simp only [hp1, hp2] at h
      simp only [extractPos_with_sel] at h
      split at h
      swap
      · cases h
      rename_i src_points dst_points hsp hdp
      have hl1 := extractPos_length s _ src_points hsp
      have hl2 := extractPos_length s _ dst_points hdp
      by_cases hc : 3 ≤ src_points.length ∧ src_points.length = dst_points.length
      · rw [if_pos hc] at h
        simp only [Option.some.injEq, Prod.mk.injEq] at h
        obtain ⟨hs, hr⟩ := h
        subst hs
        constructor
        · intro _
          refine ⟨src_points, dst_points, hsp, hdp, ?_, ?_, ?_, ?_, hall, hr.symm⟩
          · simp
          · intro k hk
            simp [Function.update_noteq hk]
          · simp
          · intro k hk
            simp [Function.update_noteq hk]
        · intro hnot
          exact absurd ⟨hvalid.1, hvalid.2.1, hvalid.2.2, by omega, by omega⟩ hnot
      · rw [if_neg hc] at h
        simp only [Option.some.injEq, Prod.mk.injEq] at h
        obtain ⟨hs, hr⟩ := h
        subst hs
        constructor
        · intro hacc
          exact absurd ⟨by omega, by omega⟩ hc
        · intro _
          refine ⟨?_, rfl, rfl, rfl, hall, hr.symm⟩
          simp only
          split <;> simp

/-- C17 (witness). In the demo state with three correspondences on each mesh "Run" with
source 0 and target 1 sets the refresh flag of mesh 0 and leaves the other transforms. -/
theorem alignment_by_points_witness :
    ∃ s' r, runAlignment demoAlign false 0 1 false demoAlignState = some (s', r) ∧
      s'.g_update_bvh 0 = true ∧ s'.g_model_matrices 1 = demoAlignState.g_model_matrices 1 ∧
      r = true := by
  have hsome : (runAlignment demoAlign false 0 1 false demoAlignState).isSome = true := by
    decide
  cases h : runAlignment demoAlign false 0 1 false demoAlignState with
  | none => rw [h] at hsome; cases hsome
  | some x =>
    obtain ⟨s', r⟩ := x
    obtain ⟨_, _, _, _, _, h4, h5, _, _, h8⟩ :=
      (alignment_by_points demoAlign false 0 1 false demoAlignState s' r h).1
        ⟨by decide, by decide, by decide, by decide, by decide⟩
    exact ⟨s', r, rfl, h5, h4 1 (by decide), h8⟩
/-! ## Claims on the inputs of the algorithms -/

theorem icpRunning_output (ext : Externals) (s s' : AppState)
    (h : icpRunning ext s = some s') :
    s'.g_icp_data.output = ext.RigidIcp s.g_icp_data := by
  unfold icpRunning at h
  split at h
  · cases h
  · simp only at h
    split at h
    · cases h
    · unfold IcpFinishCallback at h
      simp only at h
      split at h
      · cases h
      · rename_i s4 hfin
        simp only [Option.some.injEq] at h
        subst h
        split at hfin
        · simp only [Option.some.injEq] at hfin
          subst hfin
          rfl
        · cases hfin

theorem textransRunning_output (ext : Externals) (s s' : AppState)
    (h : textransRunning ext s = some s') :
    ∃ src dst src_mesh dst_mesh, s.g_textrans_data.src_mesh = some src ∧
      s.g_textrans_data.dst_mesh = some dst ∧ s.g_meshes[src]? = some src_mesh ∧
      s.g_meshes[dst]? = some dst_mesh ∧
      s'.g_textrans_data.output =
        ext.TexTransNoCorresp dst_mesh.diffuse_tex dst_mesh (s.g_model_matrices dst) src_mesh
          (s.g_model_matrices src) s.g_textrans_data.dst_size.2 s.g_textrans_data.dst_size.1 := by
  unfold textransRunning at h
  simp only at h
  split at h
  · rename_i src dst hsrc hdst
    split at h
    · rename_i src_mesh dst_mesh hsm hdm
      simp only [Option.some.injEq] at h
      subst h
      exact ⟨src, dst, src_mesh, dst_mesh, hsrc, hdst, hsm, hdm, rfl⟩
    · cases h
  · cases h

theorem nicpInput_fields (s : AppState) (input : NicpInput) (h : nicpInput s = some input) :
    ∃ src dst, s.g_nonrigidicp_data.src_mesh = some src ∧
      s.g_nonrigidicp_data.dst_mesh = some dst ∧
      s.g_meshes[src]? = some input.src ∧ s.g_meshes[dst]? = some input.dst ∧
      input.src_trans = s.g_model_matrices src ∧ input.dst_trans = s.g_model_matrices dst ∧
      input.src_landmarks = (pointsOf s.g_selected_positions src).map
        (fun res => (res.intersection.fid, res.intersection.u, res.intersection.v)) ∧
      ExtractPos s (pointsOf s.g_selected_positions dst) = some input.dst_landmark_positions := by
  unfold nicpInput at h
  simp only at h
  split at h
  · rename_i src dst hsrc hdst
    split at h
    · rename_i src_mesh dst_mesh src_sel dst_sel hsm hdm hss hds
      split at h
      · cases h
      · rename_i dst_pos hpos
        simp only [Option.some.injEq] at h
        subst h
        refine ⟨src, dst, hsrc, hdst, hsm, hdm, rfl, rfl, ?_, ?_⟩
        · simp [pointsOf, hss]
        · simp [pointsOf, hds, hpos]
    · cases h
  · cases h

/-- C11 (the code at the failing input). Two executions agree at the start of a non-rigid
job; in one of them a point is added to the list of the source mesh and the source mesh is
shifted before the worker promotes the job. The solver is handed different landmarks and a
different source transform. -/
theorem nonrigid_inputs_read_at_promotion :
    demoNonrigidEdited.g_nonrigidicp_data = demoNonrigidStarted.g_nonrigidicp_data ∧
      (nicpInput { demoNonrigidStarted with g_nonrigidicp_run := .RUNNING }).map
        (fun input => (input.src_landmarks, input.src_trans)) =
        some ([], Affine3.identity) ∧
      (nicpInput { demoNonrigidEdited with g_nonrigidicp_run := .RUNNING }).map
        (fun input => (input.src_landmarks, input.src_trans)) =
        some ([(0, 0, 0)], demoShift) := by
  refine ⟨rfl, by decide, by decide⟩

/-- What each algorithm is run on. The inputs of rigid ICP are fixed at the start of the
job: whatever edits of the correspondence lists and of the model transforms are made before
the worker promotes the job, the solver is run on the input block written by the "Run"
handler. For non-rigid ICP only the two mesh references are fixed at the start: the meshes,
the transforms, the landmarks and the landmark targets handed to the solver are those of the
scene state at promotion; likewise the texture transfer is run on the meshes and transforms
at promotion. -/
theorem solver_inputs_fixed_or_live (ext : Externals) (s t t' : AppState)
    (sel' : SelectedPositions) (mm' : Nat → Affine3) :
    (s.g_icp_run = .STARTED → IcpProcess ext s = some t →
      IcpProcess ext { s with g_selected_positions := sel', g_model_matrices := mm' } =
        some t' →
      t.g_icp_data.output = ext.RigidIcp s.g_icp_data ∧
        t'.g_icp_data.output = ext.RigidIcp s.g_icp_data) ∧
    (∀ input, nicpInput s = some input →
      ∃ src dst, s.g_nonrigidicp_data.src_mesh = some src ∧
        s.g_nonrigidicp_data.dst_mesh = some dst ∧
        s.g_meshes[src]? = some input.src ∧ s.g_meshes[dst]? = some input.dst ∧
        input.src_trans = s.g_model_matrices src ∧ input.dst_trans = s.g_model_matrices dst ∧
        input.src_landmarks = (pointsOf s.g_selected_positions src).map
          (fun res => (res.intersection.fid, res.intersection.u, res.intersection.v)) ∧
        ExtractPos s (pointsOf s.g_selected_positions dst) =
          some input.dst_landmark_positions) ∧
    (s.g_textrans_run = .STARTED → TextransProcess ext s = some t →
      ∃ src dst src_mesh dst_mesh, s.g_textrans_data.src_mesh = some src ∧
        s.g_textrans_data.dst_mesh = some dst ∧ s.g_meshes[src]? = some src_mesh ∧
        s.g_meshes[dst]? = some dst_mesh ∧
        t.g_textrans_data.output =
          ext.TexTransNoCorresp dst_mesh.diffuse_tex dst_mesh (s.g_model_matrices dst)
            src_mesh (s.g_model_matrices src) s.g_textrans_data.dst_size.2
            s.g_textrans_data.dst_size.1) := by
  refine ⟨?_, nicpInput_fields s, ?_⟩
  · intro hst h1 h2
    simp only [IcpProcess, hst, if_true] at h1 h2
    have o1 := icpRunning_output ext _ t h1
    have o2 := icpRunning_output ext _ t' h2
    exact ⟨o1, o2⟩
  · intro hst h
    simp only [TextransProcess, hst, if_true] at h
    have o := textransRunning_output ext _ t h
    exact o

/-- The started rigid job of the demo state gives the solver the same input block whether
or not the lists and the transforms are edited before promotion. -/
theorem solver_inputs_fixed_or_live_witness :
    ∃ t t', IcpProcess demoExt demoRigidStarted = some t ∧
      IcpProcess demoExt { demoRigidStarted with
        g_selected_positions := nearSel, g_model_matrices := fun _ => demoShift } = some t' ∧
      t.g_icp_data.output = t'.g_icp_data.output := by
  have hsome : (IcpProcess demoExt demoRigidStarted).isSome = true := by decide
  have hsome' : (IcpProcess demoExt { demoRigidStarted with
      g_selected_positions := nearSel, g_model_matrices := fun _ => demoShift }).isSome =
      true := by decide
  cases h : IcpProcess demoExt demoRigidStarted with
  | none => rw [h] at hsome; cases hsome
  | some t =>
    cases h' : IcpProcess demoExt { demoRigidStarted with
        g_selected_positions := nearSel, g_model_matrices := fun _ => demoShift } with
    | none => rw [h'] at hsome'; cases hsome'
    | some t' =>
      obtain ⟨h1, h2⟩ := (solver_inputs_fixed_or_live demoExt demoRigidStarted t t' nearSel
        (fun _ => demoShift)).1 rfl h h'
      exact ⟨t, t', rfl, rfl, h1.trans h2.symm⟩

/-! ## Claims on the resize of the window -/

theorem toInt32_of_lt (n : Nat) (h : n < 2147483648) : toInt32 n = (n : Int) := by
  unfold toInt32
  have h1 : n % 4294967296 = n := Nat.mod_eq_of_lt (by omega)
  rw [h1, if_pos h]

/-- C21. For every resize to a width `W ≥ 1` and a height `H ≥ 1` (values of an `int`),
`window_size_callback` stores `W` and `H`, and for every view `i` of the `N` views, whose
`id` is `i` as `Init` set it: the camera pose `c2w` is the one before the resize, the offset
of the view is `(i * (W / N), 0)`, the size of its camera and of its renderer is
`(W / N, H)`, and the viewport that `DrawViews` gives it is `(i * (W / N), 0, W / N, H)`. -/
theorem resize_keeps_pose_and_sets_strips (W H : Nat) (s : DragGlobals) (i : Nat)
    (view : SplitViewFields) (hW : 1 ≤ W) (hH : 1 ≤ H) (hW31 : W < 2147483648)
    (hH31 : H < 2147483648) (hview : s.g_views[i]? = some view) (hid : view.id = i) :
    (window_size_callback W H s).g_width = W ∧ (window_size_callback W H s).g_height = H ∧
    (window_size_callback W H s).g_views.length = s.g_views.length ∧
    ∃ view', (window_size_callback W H s).g_views[i]? = some view' ∧
      view'.camera.c2w = view.camera.c2w ∧
      view'.offset = (((i * (W / s.g_views.length) : Nat) : Int), 0) ∧
      view'.camera.width = ((W / s.g_views.length : Nat) : Int) ∧
      view'.camera.height = (H : Int) ∧
      view'.renderer_size = (W / s.g_views.length, H) ∧
      viewViewport W H s.g_views.length i =
        (i * (W / s.g_views.length), 0, W / s.g_views.length, H) := by
  have hguard : ¬ (W < 1 ∧ H < 1) := by omega
  have hi : i < s.g_views.length := by
    by_contra hcon
    rw [List.getElem?_eq_none (not_lt.mp hcon)] at hview
    cases hview
  have hdiv : W / s.g_views.length ≤ W := Nat.div_le_self _ _
  have hmul : i * (W / s.g_views.length) ≤ W := by
    calc i * (W / s.g_views.length) ≤ s.g_views.length * (W / s.g_views.length) :=
          Nat.mul_le_mul_right _ (le_of_lt hi)
      _ ≤ W := Nat.mul_div_le _ _
  refine ⟨by simp only [window_size_callback, if_neg hguard],
    by simp only [window_size_callback, if_neg hguard],
    by simp only [window_size_callback, if_neg hguard, List.length_map], ?_⟩
  have hget : (window_size_callback W H s).g_views[i]? = some
      { view.Reset W H s.g_views.length with
        camera := { (view.Reset W H s.g_views.length).camera with c2w := view.camera.c2w } } := by
    simp only [window_size_callback, if_neg hguard, List.getElem?_map, hview, Option.map_some']
  refine ⟨_, hget, rfl, ?_, ?_, ?_, rfl, ?_⟩
  · simp only [SplitViewFields.Reset, GetWidthHeightForView, hid]
    rw [toInt32_of_lt _ (by omega)]
  · simp only [SplitViewFields.Reset, GetWidthHeightForView]
    rw [toInt32_of_lt _ (by omega)]
  · simp only [SplitViewFields.Reset, GetWidthHeightForView]
    rw [toInt32_of_lt _ (by omega)]
  · simp only [viewViewport]
    rw [Nat.mul_comm, Nat.mod_eq_of_lt (by omega)]

/-- C21 (witness). With two views, the resize from 1920 by 1080 to 1280 by 720 keeps both
camera poses and leaves two views 640 wide and 720 high, at `x = 0` and at `x = 640`. -/
theorem resize_keeps_pose_and_sets_strips_witness :
    (∃ view', (window_size_callback 1280 720 demoWindow).g_views[0]? = some view' ∧
      view'.camera.c2w = (demoViewFields 0).camera.c2w ∧ view'.offset = (0, 0) ∧
      view'.renderer_size = (640, 720) ∧ viewViewport 1280 720 2 0 = (0, 0, 640, 720)) ∧
    (∃ view', (window_size_callback 1280 720 demoWindow).g_views[1]? = some view' ∧
      view'.camera.c2w = (demoViewFields 1).camera.c2w ∧ view'.offset = (640, 0) ∧
      view'.renderer_size = (640, 720) ∧ viewViewport 1280 720 2 1 = (640, 0, 640, 720)) := by
  constructor
  · obtain ⟨_, _, _, v, h1, h2, h3, _, _, h6, h7⟩ :=
      resize_keeps_pose_and_sets_strips 1280 720 demoWindow 0 (demoViewFields 0)
        (by decide) (by decide) (by decide) (by decide) rfl rfl
    exact ⟨v, h1, h2, h3, h6, h7⟩
  · obtain ⟨_, _, _, v, h1, h2, h3, _, _, h6, h7⟩ :=
      resize_keeps_pose_and_sets_strips 1280 720 demoWindow 1 (demoViewFields 1)
        (by decide) (by decide) (by decide) (by decide) rfl rfl
    exact ⟨v, h1, h2, h3, h6, h7⟩

/-! ## Claims on surface point references -/

theorem affine_apply_barycentric (T : Affine3) (v0 v1 v2 : Vec3) (u v : ℚ) :
    Affine3.identity.apply (barycentricPoint (T.apply v0) (T.apply v1) (T.apply v2) u v) =
      T.apply (barycentricPoint v0 v1 v2 u v) := by
  simp only [Affine3.identity, Affine3.apply, barycentricPoint, Vec3.add, Vec3.sub, Vec3.smul,
    Vec3.dot, Vec3.mk.injEq]
  refine ⟨by ring, by ring, by ring⟩

theorem getPos_eq (s : AppState) (intersection : IntersectResult) (geoid : Nat) (mesh : Mesh)
    (hmesh : s.g_meshes[geoid]? = some mesh) :
    GetPos s intersection geoid =
      (mesh.vertex_indices[intersection.fid]?).bind (fun face =>
        (mesh.vertices[face.i0]?).bind (fun v0 =>
          (mesh.vertices[face.i1]?).bind (fun v1 =>
            (mesh.vertices[face.i2]?).bind (fun v2 =>
              some ((s.g_model_matrices geoid).apply
                (barycentricPoint v0 v1 v2 intersection.u intersection.v)))))) := by
  simp only [GetPos, hmesh]
  cases hf : mesh.vertex_indices[intersection.fid]? with
  | none => simp
  | some face =>
    simp only [Option.some_bind]
    cases h0 : mesh.vertices[face.i0]? <;> cases h1 : mesh.vertices[face.i1]? <;>
      cases h2 : mesh.vertices[face.i2]? <;> simp [barycentricPoint]

/-- C23 (counterexample). In the arithmetic of `float`, `Apply transform` changes the result
of `GetPos`. Mesh 0 is the triangle `(1, 0, 0)`, `(2, 0, 0)`, `(1, 1, 0)` with the shift by
`(-1 / 2, 0, 0)` as model transform, and the surface point is `(fid, u, v) = (0, 2⁻²⁴, 0)`;
all these numbers are values of `float`, and so are the three transformed vertices
`(1 / 2, 0, 0)`, `(3 / 2, 0, 0)`, `(1 / 2, 1, 0)`, which `Transform` therefore stores without
rounding. Before the press `GetPos` rounds `1 + 2⁻²⁴` to 1 and returns `(1 / 2, 0, 0)`; after
the press it returns `(1 / 2 + 2⁻²⁴, 0, 0)`, which is the exact position. -/
theorem getPos_float_changes_under_apply_transform :
    roundF32 (1 / 16777216) = 1 / 16777216 ∧ roundF32 (-1 / 2) = -1 / 2 ∧
    GetPosF32 floatState ⟨0, 1 / 16777216, 0, 0⟩ 0 = some ⟨1 / 2, 0, 0⟩ ∧
    (applyTransformButton float32MeshExt 0 floatState).bind
        (fun r => (r.1.g_meshes[0]?).map (fun mesh => mesh.vertices)) =
      some [⟨1 / 2, 0, 0⟩, ⟨3 / 2, 0, 0⟩, ⟨1 / 2, 1, 0⟩] ∧
    (applyTransformButton float32MeshExt 0 floatState).bind
        (fun r => GetPosF32 r.1 ⟨0, 1 / 16777216, 0, 0⟩ 0) =
      some ⟨8388609 / 16777216, 0, 0⟩ ∧
    GetPos floatState ⟨0, 1 / 16777216, 0, 0⟩ 0 = some ⟨8388609 / 16777216, 0, 0⟩ := by
  refine ⟨by decide!, by decide!, by decide!, by decide!, by decide!, by decide!⟩

/-- C23 (amended). In exact arithmetic (`GetPos` over the rationals), for every mesh `i`,
model transform `T = g_model_matrices[i]` and surface point reference `(fid, u, v)`:
`GetPos` returns `T` applied to the barycentric point
`u * (v1 - v0) + v * (v2 - v0) + v0` of the triangle `fid` (and fails only when the triangle
or one of its vertices does not exist); `Apply transform`, whose `Transform(T)` maps every
vertex `p` to `T * p` and keeps the triangles, returns, resets the model transform to the
identity, and leaves the result of `GetPos` on mesh `i` and every correspondence list as
they were. -/
theorem getPos_invariant_under_apply_transform (mx : MeshExternals) (i : Nat) (s : AppState)
    (mesh : Mesh) (hmesh : s.g_meshes[i]? = some mesh)
    (hvertices : (mx.Transform mesh (s.g_model_matrices i)).vertices =
      mesh.vertices.map (s.g_model_matrices i).apply)
    (hfaces : (mx.Transform mesh (s.g_model_matrices i)).vertex_indices = mesh.vertex_indices) :
    (∀ (intersection : IntersectResult) (face : Face) (v0 v1 v2 : Vec3),
      mesh.vertex_indices[intersection.fid]? = some face → mesh.vertices[face.i0]? = some v0 →
      mesh.vertices[face.i1]? = some v1 → mesh.vertices[face.i2]? = some v2 →
      GetPos s intersection i = some ((s.g_model_matrices i).apply
        (barycentricPoint v0 v1 v2 intersection.u intersection.v))) ∧
    ∃ s', applyTransformButton mx i s = some (s', true) ∧
      s'.g_model_matrices i = Affine3.identity ∧
      s'.g_selected_positions = s.g_selected_positions ∧
      ∀ intersection, GetPos s' intersection i = GetPos s intersection i := by
  constructor
  · intro intersection face v0 v1 v2 hf h0 h1 h2
    rw [getPos_eq s intersection i mesh hmesh, hf, Option.some_bind, h0, Option.some_bind, h1,
      Option.some_bind, h2, Option.some_bind]
  · have hi : i < s.g_meshes.length := by
      by_contra hcon
      rw [List.getElem?_eq_none (not_lt.mp hcon)] at hmesh
      cases hmesh
    obtain ⟨s', hs'⟩ : ∃ s' : AppState, s' = { s with
        g_meshes := s.g_meshes.set i (mx.Transform mesh (s.g_model_matrices i))
        g_model_matrices := Function.update s.g_model_matrices i Affine3.identity
        g_update_bvh := Function.update s.g_update_bvh i true } := ⟨_, rfl⟩
    have hbtn : applyTransformButton mx i s = some (s', true) := by
      simp only [applyTransformButton, hmesh, hs']
    have hm : s'.g_meshes[i]? = some (mx.Transform mesh (s.g_model_matrices i)) := by
      rw [hs']
      exact List.getElem?_set_self hi
    have hT : s'.g_model_matrices i = Affine3.identity := by
      rw [hs']
      exact Function.update_same _ _ _
    have hsel : s'.g_selected_positions = s.g_selected_positions := by
      rw [hs']
    refine ⟨s', hbtn, hT, hsel, ?_⟩
    intro intersection
    rw [getPos_eq s intersection i mesh hmesh, getPos_eq s' intersection i _ hm, hT, hfaces,
      hvertices]
    cases hf : mesh.vertex_indices[intersection.fid]? with
    | none => simp only [Option.none_bind]
    | some face =>
      simp only [Option.some_bind, List.getElem?_map]
      cases h0 : mesh.vertices[face.i0]? with
      | none => simp only [Option.map_none', Option.none_bind]
      | some v0 =>
        cases h1 : mesh.vertices[face.i1]? with
        | none => simp only [Option.map_none', Option.map_some', Option.none_bind,
            Option.some_bind]
        | some v1 =>
          cases h2 : mesh.vertices[face.i2]? with
          | none => simp only [Option.map_none', Option.map_some', Option.none_bind,
              Option.some_bind]
          | some v2 =>
            simp only [Option.map_some', Option.some_bind]
            rw [affine_apply_barycentric]

/-- C23 (witness). Mesh 0 of the demo state moved by the shift `(1, 0, 0)`: the point
`(fid, u, v) = (0, 0, 1)` is at `(1, 1, 0)` before and after `Apply transform`. -/
theorem getPos_invariant_under_apply_transform_witness :
    GetPos demoShifted ⟨0, 0, 1, 0⟩ 0 = some ⟨1, 1, 0⟩ ∧
      ∃ s', applyTransformButton demoMeshExt 0 demoShifted = some (s', true) ∧
        GetPos s' ⟨0, 0, 1, 0⟩ 0 = some ⟨1, 1, 0⟩ := by
  obtain ⟨hg, s', h1, _, _, h4⟩ := getPos_invariant_under_apply_transform demoMeshExt 0
    demoShifted (demoMesh ⟨1, 1, [1]⟩) rfl rfl rfl
  have hpos : GetPos demoShifted ⟨0, 0, 1, 0⟩ 0 = some ⟨1, 1, 0⟩ := by
    rw [hg ⟨0, 0, 1, 0⟩ ⟨0, 1, 2⟩ ⟨0, 0, 0⟩ ⟨1, 0, 0⟩ ⟨0, 1, 0⟩ rfl rfl rfl rfl]
    norm_num [demoShifted, demoShift, Affine3.apply, barycentricPoint, Vec3.dot, Vec3.add,
      Vec3.sub, Vec3.smul]
  exact ⟨hpos, s', h1, (h4 _).trans hpos⟩

/-! ## Claims on the safety of the handlers -/

/-- C24 (the code at the failing input). In the state that `cursor_enter_callback` leaves,
for the two views of `g_views` and any number of meshes: the current view is `~0u`, which is
no index of `g_views`, and a right-button press reads `g_views[g_subwindow_id]` all the
same, out of bounds, while `ProcessDrags` tests `g_subwindow_id != ~0u` first and does
nothing. -/
theorem right_press_without_view_out_of_bounds (d0 : IntersectResult) (n : Nat)
    (v0 v1 : SplitViewInfo) (want_capture_mouse : Bool) (s : InputGlobals) :
    (cursor_enter_callback s).g_subwindow_id = NONE_ID ∧
      [v0, v1][(cursor_enter_callback s).g_subwindow_id]? = none ∧
      mouse_button_callback d0 n [v0, v1] .RIGHT true (cursor_enter_callback s) = none ∧
      ProcessDrags d0 n [v0, v1] want_capture_mouse (cursor_enter_callback s) =
        some (cursor_enter_callback s) := by
  have hnone : [v0, v1][NONE_ID]? = none := List.getElem?_eq_none (by simp [NONE_ID])
  refine ⟨rfl, hnone, ?_, ?_⟩
  · simp only [mouse_button_callback, cursor_enter_callback, hnone, if_true]
  · simp only [ProcessDrags, cursor_enter_callback, ne_eq, not_true_eq_false, false_and,
      if_false, ite_self]

/-! ## Claims on the completion of a rigid ICP job -/

theorem icpProcessCallback_some_iff (s : AppState) (output : IcpOutput) (src : Nat)
    (hsrc : s.g_icp_data.src_mesh = some src) :
    (∃ s', IcpProcessCallback s output = some s') ↔
      output.loss_histroty ≠ [] ∧ output.transform_histry ≠ [] := by
  unfold IcpProcessCallback
  rw [hsrc]
  cases hl : output.loss_histroty.getLast? with
  | none =>
    rw [List.getLast?_eq_none_iff] at hl
    simp [hl]
  | some loss =>
    cases ht : output.transform_histry.getLast? with
    | none =>
      rw [List.getLast?_eq_none_iff] at ht
      simp [ht]
    | some last =>
      have h1 : output.loss_histroty ≠ [] := by
        intro hcon
        rw [hcon] at hl
        cases hl
      have h2 : output.transform_histry ≠ [] := by
        intro hcon
        rw [hcon] at ht
        cases ht
      simp [h1, h2]

theorem icpCallbacks_some_iff (outputs : List IcpOutput) (s : AppState) (src : Nat)
    (hsrc : s.g_icp_data.src_mesh = some src) :
    (∃ s', icpCallbacks s outputs = some s') ↔
      ∀ o ∈ outputs, o.loss_histroty ≠ [] ∧ o.transform_histry ≠ [] := by
  induction outputs generalizing s with
  | nil => simp [icpCallbacks]
  | cons output rest ih =>
    simp only [icpCallbacks, List.mem_cons, forall_eq_or_imp]
    cases hc : IcpProcessCallback s output with
    | none =>
      have hno : ¬ (output.loss_histroty ≠ [] ∧ output.transform_histry ≠ []) := by
        rw [← icpProcessCallback_some_iff s output src hsrc, hc]
        simp
      simp [hno]
    | some s1 =>
      have hyes : output.loss_histroty ≠ [] ∧ output.transform_histry ≠ [] := by
        rw [← icpProcessCallback_some_iff s output src hsrc]
        exact ⟨s1, hc⟩
      have hsrc1 : s1.g_icp_data.src_mesh = some src :=
        (icpProcessCallback_frame s s1 output hc).2.1.trans hsrc
      simp only [ih s1 hsrc1]
      exact ⟨fun h => ⟨hyes, h⟩, fun h => h.2⟩

/-- C25 (counterexample). A started rigid ICP job with `iter_max = 0` whose solver leaves both
histories empty: when `IcpFinishCallback` takes `back()` of the transform history at line
193, the history is empty, so that the last element of an empty history is read. Such a read
is undefined behaviour, for which the code guarantees no outcome and the embedding has no
final state. -/
theorem icp_reads_back_of_empty_history :
    demoRigidZeroIter.g_icp_run = .STARTED ∧ demoRigidZeroIter.g_icp_data.iter_max = 0 ∧
      emptyHistoryExt.RigidIcp demoRigidZeroIter.g_icp_data = ⟨[], []⟩ ∧
      (emptyHistoryExt.RigidIcp demoRigidZeroIter.g_icp_data).transform_histry.getLast? = none ∧
      IcpProcess emptyHistoryExt demoRigidZeroIter = none := by
  refine ⟨rfl, rfl, rfl, rfl, ?_⟩
  have hsome : (IcpProcess emptyHistoryExt demoRigidZeroIter).isSome = false := by decide
  cases h : IcpProcess emptyHistoryExt demoRigidZeroIter with
  | none => rfl
  | some s' => rw [h] at hsome; cases hsome

/-- C25 (amended). A started rigid ICP job on a source mesh whose solver leaves something to
read completes with the output of the solver: if every output passed to the progress
callback has a non-empty loss history and a non-empty transform history, and the transform
history is non-empty when the solver returns, then `IcpProcess` and its callbacks return,
every `back()` being taken of a non-empty history, the output of the job is the one the
solver left, the completion flag is set and the status is `HALTING`. -/
theorem icp_completes_on_nonempty_histories (ext : Externals) (s : AppState) (src : Nat)
    (hst : s.g_icp_run = .STARTED) (hsrc : s.g_icp_data.src_mesh = some src)
    (hprog : s.g_icp_data.callback = true → ∀ o ∈ ext.RigidIcp_progress s.g_icp_data,
      o.loss_histroty ≠ [] ∧ o.transform_histry ≠ [])
    (hfin : (ext.RigidIcp s.g_icp_data).transform_histry ≠ []) :
    ∃ s', IcpProcess ext s = some s' ∧ s'.g_icp_data.output = ext.RigidIcp s.g_icp_data ∧
      s'.g_callback_finished = true ∧ s'.g_icp_run = .HALTING := by
  have hproc : IcpProcess ext s = icpRunning ext { s with g_icp_run := .RUNNING } := by
    simp only [IcpProcess, hst, if_true]
  rw [hproc]
  unfold icpRunning
  simp only [hsrc]
  have hiff := icpCallbacks_some_iff
    (if s.g_icp_data.callback = true then ext.RigidIcp_progress s.g_icp_data else [])
    { s with g_icp_run := .RUNNING, g_icp_start_trans := s.g_model_matrices src } src hsrc
  have hall : ∀ o ∈ (if s.g_icp_data.callback = true then ext.RigidIcp_progress s.g_icp_data
      else []), o.loss_histroty ≠ [] ∧ o.transform_histry ≠ [] := by
    by_cases hcb : s.g_icp_data.callback = true
    · simpa [hcb] using hprog hcb
    · simp [hcb]
  obtain ⟨s2, hcbs⟩ := hiff.mpr hall
  rw [hcbs]
  have hsrc2 : s2.g_icp_data.src_mesh = some src :=
    (icpCallbacks_frame _ _ s2 hcbs).2.1.trans hsrc
  simp only [IcpFinishCallback, hsrc2]
  cases hlast : (ext.RigidIcp s.g_icp_data).transform_histry.getLast? with
  | none => exact absurd (List.getLast?_eq_none_iff.mp hlast) hfin
  | some last => exact ⟨_, rfl, rfl, rfl, rfl⟩

/-- C25 (witness). The started rigid job of the demo state, whose solver leaves one loss and
one transform, completes: the completion flag is set and the status is `HALTING`. -/
theorem icp_completes_on_nonempty_histories_witness :
    ∃ s', IcpProcess demoExt demoRigidStarted = some s' ∧
      s'.g_icp_data.output = ⟨[1], [demoShift]⟩ ∧ s'.g_callback_finished = true ∧
      s'.g_icp_run = .HALTING :=
  icp_completes_on_nonempty_histories demoExt demoRigidStarted 0 rfl rfl
    (fun _ o ho => (by cases ho)) (by decide)

/-! ## Claims on the shutdown -/

theorem algorithmProcess_exits (ext : Externals) (finish : Nat → Bool) (m : Nat) :
    ∀ (fuel k : Nat) (s s' : AppState), (∀ j, k ≤ j → j < k + m → finish j = false) →
      finish (k + m) = true → workerIterations ext m s = some s' → m < fuel →
      AlgorithmProcess ext finish fuel k s = .exited (k + m) s' := by
  induction m with
  | zero =>
    intro fuel k s s' _ hfin hit hfuel
    obtain ⟨fuel, rfl⟩ : ∃ f, fuel = f + 1 := ⟨fuel - 1, by omega⟩
    simp only [workerIterations, Option.some.injEq] at hit
    subst hit
    rw [Nat.add_zero] at hfin
    simp only [AlgorithmProcess, Nat.add_zero]
    rw [if_pos hfin]
  | succ m ih =>
    intro fuel k s s' hbefore hfin hit hfuel
    obtain ⟨fuel, rfl⟩ : ∃ f, fuel = f + 1 := ⟨fuel - 1, by omega⟩
    have hk : finish k = false := hbefore k (le_refl k) (by omega)
    simp only [workerIterations] at hit
    simp only [AlgorithmProcess, hk, Bool.false_eq_true, if_false]
    cases hstep : AlgorithmProcess_iteration ext s with
    | none => rw [hstep] at hit; cases hit
    | some s1 =>
      rw [hstep] at hit
      simp only at hit ⊢
      have h := ih fuel (k + 1) s1 s' (fun j hj1 hj2 => hbefore j (by omega) (by omega))
        (by rw [show k + 1 + m = k + (m + 1) by omega]; exact hfin) hit (by omega)
      rw [h, show k + 1 + m = k + (m + 1) by omega]

/-- C26 (counterexample). From the state in which the main loop is left, the first five
statements of the cleanup release the ImGui backends, the ImGui context, the window and
GLFW, and after them the stop flag is still not set and the worker is not joined; the
statement that sets the flag is the sixth. -/
theorem graphics_released_before_stop_flag :
    demoMain.graphicsAlive ∧ (cleanupAfter 5 demoMain).graphicsReleased ∧
      (cleanupAfter 5 demoMain).g_algorithm_process_finish = false ∧
      (cleanupAfter 5 demoMain).algorithm_thread_joined = false ∧
      main_cleanup[5]? = some .set_algorithm_process_finish := by
  refine ⟨?_, ?_, rfl, rfl, rfl⟩
  · exact ⟨rfl, rfl, rfl, rfl, rfl⟩
  · exact ⟨rfl, rfl, rfl, rfl, rfl⟩

/-- C26 (amended). On shutdown `main` first releases the graphics resources (ImGui backends
and context, window, GLFW), with the stop flag and the worker untouched, then sets
`g_algorithm_process_finish`, and joins the worker last. The worker loop reads the flag
before each iteration: if the flag is first read as set by loop test number `m` and the `m`
iterations before it return, the loop is left after exactly `m` iterations, in the state
they produced. -/
theorem shutdown_order_and_worker_exit (ext : Externals) (finish : Nat → Bool) (m fuel : Nat)
    (s s' : AppState) (hbefore : ∀ j, j < m → finish j = false) (hfin : finish m = true)
    (hit : workerIterations ext m s = some s') (hfuel : m < fuel) :
    AlgorithmProcess ext finish fuel 0 s = .exited m s' ∧
    (∀ r : MainState, ∀ k, k ≤ 5 →
      (cleanupAfter k r).g_algorithm_process_finish = r.g_algorithm_process_finish ∧
      (cleanupAfter k r).algorithm_thread_joined = r.algorithm_thread_joined) ∧
    (∀ r : MainState, (cleanupAfter 5 r).graphicsReleased ∧
      (cleanupAfter 6 r).graphicsReleased ∧
      (cleanupAfter 6 r).g_algorithm_process_finish = true ∧
      (cleanupAfter 6 r).algorithm_thread_joined = r.algorithm_thread_joined ∧
      (cleanupAfter 7 r).g_algorithm_process_finish = true ∧
      (cleanupAfter 7 r).algorithm_thread_joined = true ∧
      cleanupAfter 7 r = main_cleanup.foldl runStatement r) := by
  refine ⟨?_, ?_, ?_⟩
  · have h := algorithmProcess_exits ext finish m fuel 0 s s'
      (fun j _ hj => hbefore j (by omega)) (by simpa using hfin) hit hfuel
    simpa using h
  · intro r k hk
    interval_cases k <;> exact ⟨rfl, rfl⟩
  · intro r
    exact ⟨⟨rfl, rfl, rfl, rfl, rfl⟩, ⟨rfl, rfl, rfl, rfl, rfl⟩, rfl, rfl, rfl, rfl, rfl⟩

/-- C26 (witness). With no job started and the stop flag read as set from loop test 2 on,
the worker loop is left after two iterations. -/
theorem shutdown_order_and_worker_exit_witness :
    AlgorithmProcess demoExt (fun k => decide (2 ≤ k)) 3 0 demoState = .exited 2 demoState :=
  (shutdown_order_and_worker_exit demoExt (fun k => decide (2 ≤ k)) 2 3 demoState demoState
    (fun j hj => by interval_cases j <;> rfl) rfl rfl (by decide)).1

/-! ## Claims on the stiffness schedule -/

theorem nicpStages_registrate (ext : Externals) (src : Nat) (todo : Nat) :
    ∀ (i : Int) (nicp nicp' : ext.Nicp) (s s' : AppState),
      nicpStages ext src todo i nicp s = some (nicp', s') →
      nicp' = registrateAll ext s.g_nonrigidicp_data
        ((List.range todo).map (fun (k : Nat) => stageAlpha s.g_nonrigidicp_data (i + (k : Int)))) nicp := by
  induction todo with
  | zero =>
    intro i nicp nicp' s s' h
    simp only [nicpStages, Option.some.injEq, Prod.mk.injEq] at h
    simp only [List.range_zero, List.map_nil, registrateAll, List.foldl_nil]
    exact h.1.symm
  | succ todo ih =>
    intro i nicp nicp' s s' h
    simp only [nicpStages] at h
    split at h
    · cases h
    · rename_i s2 hu
      obtain ⟨_, _, a3, _, _⟩ := update_mesh_frame ext _ src false _ s2 hu
      simp only at a3
      have h2 := ih (i + 1) _ nicp' s2 s' h
      rw [a3] at h2
      rw [h2, List.range_succ_eq_map]
      simp only [registrateAll, List.map_cons, List.map_map, List.foldl_cons, Nat.cast_zero,
        add_zero]
      congr 2
      funext k
      simp only [Function.comp_apply, Nat.succ_eq_add_one, Nat.cast_add, Nat.cast_one]
      congr 1
      ring

theorem stageAlphas_getElem (d : NonrigidIcpData) (k : Nat) (hk : k < d.step.toNat) :
    (stageAlphas d)[k]? =
      some (d.max_alpha - ((k : ℚ) + 1) * (d.max_alpha - d.min_alpha) / (d.step : ℚ)) := by
  simp only [stageAlphas, List.getElem?_map, List.getElem?_range hk, Option.map_some',
    stageAlpha]
  push_cast
  rfl

/-- C27 (counterexample). With stiffness bounds 10 and 0 and two stages, the solver is called
with the stiffness values 5 and 0: the first stage does not use `max_alpha = 10`. -/
theorem first_stage_below_alpha_max :
    demoStiffnessStarted.g_nonrigidicp_data.max_alpha = 10 ∧
      demoStiffnessStarted.g_nonrigidicp_data.min_alpha = 0 ∧
      demoStiffnessStarted.g_nonrigidicp_data.step = 2 ∧
      (nicpStages recordingExt 0 2 1 ([] : List ℚ) demoStiffnessStarted).map Prod.fst =
        some ([5, 0] : List ℚ) := by
  refine ⟨rfl, rfl, rfl, ?_⟩
  have hsome : (nicpStages recordingExt 0 2 1 ([] : List ℚ) demoStiffnessStarted).isSome =
      true := by decide
  cases h : nicpStages recordingExt 0 2 1 ([] : List ℚ) demoStiffnessStarted with
  | none => rw [h] at hsome; cases hsome
  | some r =>
    obtain ⟨nicp', s'⟩ := r
    have h2 := nicpStages_registrate recordingExt 0 2 1 [] nicp' demoStiffnessStarted s' h
    simp only [Option.map_some', Option.some.injEq]
    rw [h2]
    norm_num [registrateAll, recordingExt, stageAlpha, demoStiffnessStarted, List.range_succ]
    rfl

/-- C27 (amended). When `NonrigidIcpProcess` finishes a started job with step count `n`, the
solver has been called for exactly the stages `i = 1, ..., n`, in this order, stage `i`
with the stiffness `max_alpha - i * (max_alpha - min_alpha) / n`; with `n ≤ 0` no stage is
run. For `n ≥ 1` and `max_alpha ≥ min_alpha` the values do not increase from stage to stage
and the last stage uses `min_alpha`, while the first stage uses
`max_alpha - (max_alpha - min_alpha) / n`, which is `max_alpha` only when the two bounds
are equal. -/
theorem nonrigid_stiffness_schedule (ext : Externals) (s s' : AppState)
    (hst : s.g_nonrigidicp_run = .STARTED) (h : NonrigidIcpProcess ext s = some s') :
    (∃ src input nicp s1, s.g_nonrigidicp_data.src_mesh = some src ∧
      nicpInput { s with g_nonrigidicp_run := .RUNNING } = some input ∧
      nicpStages ext src s.g_nonrigidicp_data.step.toNat 1 (ext.nicp_init input)
        { s with g_nonrigidicp_run := .RUNNING } = some (nicp, s1) ∧
      nicp = registrateAll ext s.g_nonrigidicp_data (stageAlphas s.g_nonrigidicp_data)
        (ext.nicp_init input)) ∧
    (stageAlphas s.g_nonrigidicp_data).length = s.g_nonrigidicp_data.step.toNat ∧
    (∀ k, k < s.g_nonrigidicp_data.step.toNat →
      (stageAlphas s.g_nonrigidicp_data)[k]? =
        some (s.g_nonrigidicp_data.max_alpha - ((k : ℚ) + 1) *
          (s.g_nonrigidicp_data.max_alpha - s.g_nonrigidicp_data.min_alpha) /
            (s.g_nonrigidicp_data.step : ℚ))) ∧
    (s.g_nonrigidicp_data.step ≤ 0 → stageAlphas s.g_nonrigidicp_data = []) ∧
    (1 ≤ s.g_nonrigidicp_data.step →
      s.g_nonrigidicp_data.min_alpha ≤ s.g_nonrigidicp_data.max_alpha →
      (stageAlphas s.g_nonrigidicp_data).head? =
        some (s.g_nonrigidicp_data.max_alpha -
          (s.g_nonrigidicp_data.max_alpha - s.g_nonrigidicp_data.min_alpha) /
            (s.g_nonrigidicp_data.step : ℚ)) ∧
      (stageAlphas s.g_nonrigidicp_data).getLast? = some s.g_nonrigidicp_data.min_alpha ∧
      (stageAlphas s.g_nonrigidicp_data).Pairwise (fun a b => b ≤ a) ∧
      ((stageAlphas s.g_nonrigidicp_data).head? = some s.g_nonrigidicp_data.max_alpha ↔
        s.g_nonrigidicp_data.max_alpha = s.g_nonrigidicp_data.min_alpha)) := by
  refine ⟨?_, by simp [stageAlphas], fun k hk => stageAlphas_getElem _ k hk, ?_, ?_⟩
  · simp only [NonrigidIcpProcess, hst, if_true] at h
    obtain ⟨src, input, nicp, s1, _, h1, h2, h3, _⟩ := nonrigidIcpRunning_result ext _ s' h
    refine ⟨src, input, nicp, s1, h1, h2, h3, ?_⟩
    have h4 := nicpStages_registrate ext src _ 1 _ nicp _ s1 h3
    rw [h4]
    simp only [stageAlphas]
    congr 2
    funext k
    congr 1
    ring
  · intro hle
    have h0 : s.g_nonrigidicp_data.step.toNat = 0 := Int.toNat_eq_zero.mpr hle
    simp [stageAlphas, h0]
  · intro hstep hle
    obtain ⟨n, hn⟩ : ∃ n : Nat, s.g_nonrigidicp_data.step.toNat = n + 1 :=
      ⟨s.g_nonrigidicp_data.step.toNat - 1, by omega⟩
    have hcast : ((s.g_nonrigidicp_data.step : Int) : ℚ) = (n : ℚ) + 1 := by
      have h1 : (s.g_nonrigidicp_data.step.toNat : Int) = s.g_nonrigidicp_data.step :=
        Int.toNat_of_nonneg (by omega)
      rw [← h1, hn]
      push_cast
      rfl
    have hpos : (0 : ℚ) < (n : ℚ) + 1 := by positivity
    have hhead : (stageAlphas s.g_nonrigidicp_data).head? =
        some (s.g_nonrigidicp_data.max_alpha -
          (s.g_nonrigidicp_data.max_alpha - s.g_nonrigidicp_data.min_alpha) /
            (s.g_nonrigidicp_data.step : ℚ)) := by
      simp only [stageAlphas, hn, List.range_succ_eq_map, List.map_cons, List.head?_cons,
        stageAlpha, Nat.cast_zero, zero_add, Int.cast_one, one_mul]
    refine ⟨hhead, ?_, ?_, ?_⟩
    · simp only [stageAlphas, hn, List.range_succ, List.map_append, List.map_cons, List.map_nil,
        List.getLast?_append, List.getLast?_singleton, stageAlpha]
      rw [hcast]
      push_cast
      field_simp
    · simp only [stageAlphas, List.pairwise_map]
      refine List.Pairwise.imp ?_ (List.pairwise_lt_range _)
      intro a b hab
      simp only [stageAlpha]
      rw [hcast]
      have hab' : (a : ℚ) + 1 ≤ (b : ℚ) + 1 := by
        have : (a : ℚ) ≤ (b : ℚ) := by exact_mod_cast le_of_lt hab
        linarith
      have hd : 0 ≤ s.g_nonrigidicp_data.max_alpha - s.g_nonrigidicp_data.min_alpha := by
        linarith
      push_cast
      have hmul : ((a : ℚ) + 1) * (s.g_nonrigidicp_data.max_alpha -
          s.g_nonrigidicp_data.min_alpha) / ((n : ℚ) + 1) ≤
          ((b : ℚ) + 1) * (s.g_nonrigidicp_data.max_alpha -
            s.g_nonrigidicp_data.min_alpha) / ((n : ℚ) + 1) :=
        div_le_div_of_nonneg_right (mul_le_mul_of_nonneg_right hab' hd) (le_of_lt hpos)
      linarith
    · rw [hhead, Option.some.injEq, hcast]
      constructor
      · intro heq
        have hz : (s.g_nonrigidicp_data.max_alpha - s.g_nonrigidicp_data.min_alpha) /
            ((n : ℚ) + 1) = 0 := by linarith
        rcases div_eq_zero_iff.mp hz with h0 | h0
        · linarith
        · linarith
      · intro heq
        rw [heq]
        simp

/-- C27 (witness). The started non-rigid job of the demo state (two stages) finishes, and its
two stages use the stiffness values `101 / 20` and `1 / 10` for the bounds 10 and `1 / 10`. -/
theorem nonrigid_stiffness_schedule_witness :
    (∃ s', NonrigidIcpProcess demoExt demoNonrigidStarted = some s') ∧
      stageAlphas demoNonrigidStarted.g_nonrigidicp_data = [101 / 20, 1 / 10] := by
  have hsome : (NonrigidIcpProcess demoExt demoNonrigidStarted).isSome = true := by decide
  cases h : NonrigidIcpProcess demoExt demoNonrigidStarted with
  | none => rw [h] at hsome; cases hsome
  | some s' =>
    obtain ⟨_, hlen, hget, _, _⟩ :=
      nonrigid_stiffness_schedule demoExt demoNonrigidStarted s' rfl h
    refine ⟨⟨s', rfl⟩, ?_⟩
    have h0 := hget 0 (by decide)
    have h1 := hget 1 (by decide)
    have hl : (stageAlphas demoNonrigidStarted.g_nonrigidicp_data).length = 2 := hlen
    apply List.ext_getElem? 
    intro k
    rcases k with _ | _ | k
    · rw [h0]
      norm_num [demoNonrigidStarted, runNonrigidIcp, validate_func, demoState]
    · rw [h1]
      norm_num [demoNonrigidStarted, runNonrigidIcp, validate_func, demoState]
    · rw [List.getElem?_eq_none (by omega), List.getElem?_eq_none (by simp)]

/-! ## Claims on orbit, pan and zoom -/

theorem normGt_drag_th_iff (diff : Vec2) : diff.normGt drag_th = true ↔ diff ≠ ⟨0, 0⟩ := by
  obtain ⟨x, y⟩ := diff
  simp only [Vec2.normGt, drag_th, lt_self_iff_false, mul_zero, false_or, decide_eq_true_eq,
    ne_eq, Vec2.mk.injEq]
  constructor
  · rintro h ⟨hx, hy⟩
    rw [hx, hy] at h
    norm_num at h
  · intro h
    by_contra hcon
    have hx2 : 0 ≤ x * x := mul_self_nonneg x
    have hy2 : 0 ≤ y * y := mul_self_nonneg y
    have hx0 : x * x = 0 := by linarith
    have hy0 : y * y = 0 := by linarith
    exact h ⟨mul_self_eq_zero.mp hx0, mul_self_eq_zero.mp hy0⟩

theorem quaternion_mulVec_normSq (q : Quaternion) (v : Vec3) (hq : q.normSq = 1) :
    (q.toRotationMatrix.mulVec v).normSq = v.normSq := by
  obtain ⟨w, x, y, z⟩ := q
  obtain ⟨a, b, c⟩ := v
  simp only [Quaternion.normSq] at hq
  simp only [Quaternion.toRotationMatrix, Mat3.mulVec, Vec3.normSq, Vec3.dot]
  linear_combination (4 * ((y * c - z * b) ^ 2 + (z * a - x * c) ^ 2 + (x * b - y * a) ^ 2)) * hq

theorem quaternion_mul_normSq (a b : Quaternion) : (a.mul b).normSq = a.normSq * b.normSq := by
  simp only [Quaternion.mul, Quaternion.normSq]
  ring

theorem angleAxis_normSq (mx : MathExternals) (angle : ℚ) (axis : Vec3) :
    (AngleAxis mx angle axis).normSq =
      mx.cos (angle / 2) ^ 2 + mx.sin (angle / 2) ^ 2 * axis.normSq := by
  simp only [AngleAxis, Quaternion.normSq, Vec3.normSq, Vec3.dot]
  ring

theorem orbit_position (p : Vec3) (R : Mat3) (cur : Affine3) :
    ((((Affine3.translation p).mul (Affine3.ofLinear R ⟨0, 0, 0⟩)).mul
      (Affine3.translation p.neg)).mul cur).t.sub p = R.mulVec (cur.t.sub p) := by
  simp only [Affine3.mul, Affine3.apply, Affine3.translation, Affine3.ofLinear, Affine3.rowMul,
    Vec3.add, Vec3.sub, Vec3.smul, Vec3.dot, Vec3.neg, Mat3.mulVec, Vec3.mk.injEq]
  refine ⟨by ring, by ring, by ring⟩

theorem angleAxis_rotationAboutAxis (mx : MathExternals) (θ : ℚ) (k : Vec3)
    (ht : TrigAt mx θ) (hk : k.normSq = 1) :
    (AngleAxis mx θ k).toRotationMatrix = rotationAboutAxis (mx.cos θ) (mx.sin θ) k := by
  obtain ⟨h1, h2, h3⟩ := ht
  obtain ⟨kx, ky, kz⟩ := k
  simp only [Vec3.normSq, Vec3.dot] at hk
  rw [h2, h3]
  simp only [AngleAxis, Quaternion.toRotationMatrix, rotationAboutAxis, Mat3.mk.injEq,
    Vec3.mk.injEq]
  refine ⟨⟨?_, ?_, ?_⟩, ⟨?_, ?_, ?_⟩, ⟨?_, ?_, ?_⟩⟩
  · linear_combination (kx ^ 2 - 1) * h1 + (-2 * mx.sin (θ / 2) ^ 2) * hk
  · linear_combination (kx * ky) * h1
  · linear_combination (kx * kz) * h1
  · linear_combination (ky * kx) * h1
  · linear_combination (ky ^ 2 - 1) * h1 + (-2 * mx.sin (θ / 2) ^ 2) * hk
  · linear_combination (ky * kz) * h1
  · linear_combination (kz * kx) * h1
  · linear_combination (kz * ky) * h1
  · linear_combination (kz ^ 2 - 1) * h1 + (-2 * mx.sin (θ / 2) ^ 2) * hk

theorem quaternion_mul_rotationMatrix (a b : Quaternion) (ha : a.normSq = 1)
    (hb : b.normSq = 1) :
    (a.mul b).toRotationMatrix = a.toRotationMatrix.mul b.toRotationMatrix := by
  obtain ⟨aw, ax, ay, az⟩ := a
  obtain ⟨bw, bx, by_, bz⟩ := b
  simp only [Quaternion.normSq] at ha hb
  simp only [Quaternion.mul, Quaternion.toRotationMatrix, Mat3.mul, Mat3.col0, Mat3.col1,
    Mat3.col2, Vec3.dot, Mat3.mk.injEq, Vec3.mk.injEq]
  refine ⟨⟨?_, ?_, ?_⟩, ⟨?_, ?_, ?_⟩, ⟨?_, ?_, ?_⟩⟩
  · linear_combination
      ((bw ^ 2 + bx ^ 2 - by_ ^ 2 - bz ^ 2) - (1 + 2 * (bw * bw + bx * bx + by_ * by_ + bz * bz - 1))) * ha +
      ((aw ^ 2 + ax ^ 2 - ay ^ 2 - az ^ 2) - 1) * hb
  · linear_combination (2 * (bx * by_ - bz * bw)) * ha + (2 * (ax * ay - az * aw)) * hb
  · linear_combination (2 * (bx * bz + by_ * bw)) * ha + (2 * (ax * az + ay * aw)) * hb
  · linear_combination (2 * (bx * by_ + bz * bw)) * ha + (2 * (ax * ay + az * aw)) * hb
  · linear_combination
      ((bw ^ 2 - bx ^ 2 + by_ ^ 2 - bz ^ 2) - (1 + 2 * (bw * bw + bx * bx + by_ * by_ + bz * bz - 1))) * ha +
      ((aw ^ 2 - ax ^ 2 + ay ^ 2 - az ^ 2) - 1) * hb
  · linear_combination (2 * (by_ * bz - bx * bw)) * ha + (2 * (ay * az - ax * aw)) * hb
  · linear_combination (2 * (bx * bz - by_ * bw)) * ha + (2 * (ax * az - ay * aw)) * hb
  · linear_combination (2 * (by_ * bz + bx * bw)) * ha + (2 * (ay * az + ax * aw)) * hb
  · linear_combination
      ((bw ^ 2 - bx ^ 2 - by_ ^ 2 + bz ^ 2) - (1 + 2 * (bw * bw + bx * bx + by_ * by_ + bz * bz - 1))) * ha +
      ((aw ^ 2 - ax ^ 2 - ay ^ 2 + az ^ 2) - 1) * hb

theorem vec3_neg_normSq (a : Vec3) : a.neg.normSq = a.normSq := by
  simp only [Vec3.neg, Vec3.normSq, Vec3.dot]
  ring

theorem orbitRotation_rotationAboutAxis (mx : MathExternals) (g_height : Nat) (diff : Vec2)
    (view : SplitViewFields)
    (hx : TrigAt mx (orbitAngle mx g_height diff.x view))
    (hy : TrigAt mx (orbitAngle mx g_height diff.y view))
    (h0 : (mx.rotation view.camera.c2w).col0.normSq = 1)
    (h1 : (mx.rotation view.camera.c2w).col1.normSq = 1) :
    (orbitRotation mx g_height diff view).toRotationMatrix =
      (rotationAboutAxis (mx.cos (orbitAngle mx g_height diff.x view))
          (mx.sin (orbitAngle mx g_height diff.x view))
          (mx.rotation view.camera.c2w).col1.neg).mul
        (rotationAboutAxis (mx.cos (orbitAngle mx g_height diff.y view))
          (mx.sin (orbitAngle mx g_height diff.y view))
          (mx.rotation view.camera.c2w).col0.neg) := by
  have hn0 : (mx.rotation view.camera.c2w).col0.neg.normSq = 1 := by
    rw [vec3_neg_normSq, h0]
  have hn1 : (mx.rotation view.camera.c2w).col1.neg.normSq = 1 := by
    rw [vec3_neg_normSq, h1]
  have hqx : (AngleAxis mx (orbitAngle mx g_height diff.x view)
      (mx.rotation view.camera.c2w).col1.neg).normSq = 1 := by
    rw [angleAxis_normSq, hn1, mul_one]
    exact hx.1
  have hqy : (AngleAxis mx (orbitAngle mx g_height diff.y view)
      (mx.rotation view.camera.c2w).col0.neg).normSq = 1 := by
    rw [angleAxis_normSq, hn0, mul_one]
    exact hy.1
  have hrot : orbitRotation mx g_height diff view =
      (AngleAxis mx (orbitAngle mx g_height diff.x view)
          (mx.rotation view.camera.c2w).col1.neg).mul
        (AngleAxis mx (orbitAngle mx g_height diff.y view)
          (mx.rotation view.camera.c2w).col0.neg) := rfl
  rw [hrot, quaternion_mul_rotationMatrix _ _ hqx hqy,
    angleAxis_rotationAboutAxis mx _ _ hx hn1, angleAxis_rotationAboutAxis mx _ _ hy hn0]

/-- C28. For a frame height other than zero and every cursor move `diff` of a left drag on a
view with pivot `p = offset_to_rot_center`, in exact arithmetic: a zero move leaves the view
as it is; a non-zero move sets the camera pose to `Translation(p) * R * Translation(-p) * c2w`
with `R` the matrix of `R_offset`, so that the new position minus `p` is `R` applied to the
old position minus `p`. When `cos` and `sin` satisfy at the two angles
`2 * pi * diff.x / g_height * rotate_speed` and `2 * pi * diff.y / g_height * rotate_speed`
the identities of the half angle that hold over the reals, and columns 0 and 1 of the camera
rotation are unit vectors, `R` is the product of the rotation (in the sense of Rodrigues'
formula) by the first angle about the opposite of column 1 (up) and the rotation by the
second angle about the opposite of column 0 (right), in this order. When `cos² + sin² = 1`
at the two half angles and the two columns are unit vectors, the squared distance between the
camera position and the pivot is unchanged. -/
theorem orbit_about_pivot (mx : MathExternals) (g_height : Nat) (diff : Vec2)
    (view : SplitViewFields) (_hH : g_height ≠ 0) :
    (orbitDrag mx g_height ⟨0, 0⟩ view = view) ∧
    (diff ≠ ⟨0, 0⟩ →
      (orbitDrag mx g_height diff view).camera.c2w =
        (((Affine3.translation view.offset_to_rot_center).mul
          (Affine3.ofLinear (orbitRotation mx g_height diff view).toRotationMatrix ⟨0, 0, 0⟩)).mul
          (Affine3.translation view.offset_to_rot_center.neg)).mul view.camera.c2w ∧
      (orbitDrag mx g_height diff view).camera.c2w.t.sub view.offset_to_rot_center =
        (orbitRotation mx g_height diff view).toRotationMatrix.mulVec
          (view.camera.c2w.t.sub view.offset_to_rot_center)) ∧
    (TrigAt mx (orbitAngle mx g_height diff.x view) →
      TrigAt mx (orbitAngle mx g_height diff.y view) →
      (mx.rotation view.camera.c2w).col0.normSq = 1 →
      (mx.rotation view.camera.c2w).col1.normSq = 1 →
      (orbitRotation mx g_height diff view).toRotationMatrix =
        (rotationAboutAxis (mx.cos (2 * mx.pi * diff.x / (g_height : ℚ) * view.rotate_speed))
            (mx.sin (2 * mx.pi * diff.x / (g_height : ℚ) * view.rotate_speed))
            (mx.rotation view.camera.c2w).col1.neg).mul
          (rotationAboutAxis (mx.cos (2 * mx.pi * diff.y / (g_height : ℚ) * view.rotate_speed))
            (mx.sin (2 * mx.pi * diff.y / (g_height : ℚ) * view.rotate_speed))
            (mx.rotation view.camera.c2w).col0.neg)) ∧
    (mx.cos (2 * mx.pi * diff.x / (g_height : ℚ) * view.rotate_speed / 2) ^ 2 +
        mx.sin (2 * mx.pi * diff.x / (g_height : ℚ) * view.rotate_speed / 2) ^ 2 = 1 →
      mx.cos (2 * mx.pi * diff.y / (g_height : ℚ) * view.rotate_speed / 2) ^ 2 +
        mx.sin (2 * mx.pi * diff.y / (g_height : ℚ) * view.rotate_speed / 2) ^ 2 = 1 →
      (mx.rotation view.camera.c2w).col0.normSq = 1 →
      (mx.rotation view.camera.c2w).col1.normSq = 1 →
      ((orbitDrag mx g_height diff view).camera.c2w.t.sub view.offset_to_rot_center).normSq =
        (view.camera.c2w.t.sub view.offset_to_rot_center).normSq) := by
  have hzero : orbitDrag mx g_height ⟨0, 0⟩ view = view := by
    have hn : ¬ ((⟨0, 0⟩ : Vec2).normGt drag_th = true) := by
      rw [normGt_drag_th_iff]
      simp
    simp only [orbitDrag, if_neg hn]
  have hpose : diff ≠ ⟨0, 0⟩ → (orbitDrag mx g_height diff view).camera.c2w =
      (((Affine3.translation view.offset_to_rot_center).mul
        (Affine3.ofLinear (orbitRotation mx g_height diff view).toRotationMatrix ⟨0, 0, 0⟩)).mul
        (Affine3.translation view.offset_to_rot_center.neg)).mul view.camera.c2w := by
    intro hd
    simp only [orbitDrag, if_pos ((normGt_drag_th_iff diff).mpr hd)]
  refine ⟨hzero, fun hd => ⟨hpose hd, ?_⟩, ?_, ?_⟩
  · rw [hpose hd]
    exact orbit_position _ _ _
  · intro hx hy h0 h1
    exact orbitRotation_rotationAboutAxis mx g_height diff view hx hy h0 h1
  · intro hx hy h0 h1
    by_cases hd : diff = ⟨0, 0⟩
    · rw [hd, hzero]
    · rw [hpose hd, orbit_position]
      apply quaternion_mulVec_normSq
      simp only [orbitRotation, orbitAngle, quaternion_mul_normSq, angleAxis_normSq,
        vec3_neg_normSq, h0, h1, mul_one, hx, hy]

/-- C28 (witness). A camera at `(0, 0, 5)` turned a quarter about its viewing axis, with the
pivot at `(1, 2, 3)`, in a frame of height 1, dragged by `(1, 2)` with `cos` and `sin` of
`orbitMath` (angles 2 and 4): `R` is the product of the two rotations, with the entries
written out, the new pose is the one written out, and the camera stays at squared distance 9
from the pivot. -/
theorem orbit_about_pivot_witness :
    (orbitRotation orbitMath 1 ⟨1, 2⟩ orbitView).toRotationMatrix =
        ⟨⟨-527 / 625, 0, 336 / 625⟩, ⟨8064 / 15625, -7 / 25, 12648 / 15625⟩,
          ⟨2352 / 15625, 24 / 25, 3689 / 15625⟩⟩ ∧
      (orbitDrag orbitMath 1 ⟨1, 2⟩ orbitView).camera.c2w =
        ⟨⟨0, 527 / 625, 336 / 625⟩, ⟨-7 / 25, -8064 / 15625, 12648 / 15625⟩,
          ⟨24 / 25, -2352 / 15625, 3689 / 15625⟩,
          ⟨1824 / 625, 57232 / 15625, 21901 / 15625⟩⟩ ∧
      ((orbitDrag orbitMath 1 ⟨1, 2⟩ orbitView).camera.c2w.t.sub ⟨1, 2, 3⟩).normSq = 9 := by
  have htx : TrigAt orbitMath (orbitAngle orbitMath 1 (⟨1, 2⟩ : Vec2).x orbitView) := by
    norm_num [TrigAt, orbitAngle, orbitMath, orbitView, demoViewFields]
  have hty : TrigAt orbitMath (orbitAngle orbitMath 1 (⟨1, 2⟩ : Vec2).y orbitView) := by
    norm_num [TrigAt, orbitAngle, orbitMath, orbitView, demoViewFields]
  have h0 : (orbitMath.rotation orbitView.camera.c2w).col0.normSq = 1 := by
    norm_num [orbitMath, orbitView, demoViewFields, Affine3.linear, Mat3.col0, Vec3.normSq,
      Vec3.dot]
  have h1 : (orbitMath.rotation orbitView.camera.c2w).col1.normSq = 1 := by
    norm_num [orbitMath, orbitView, demoViewFields, Affine3.linear, Mat3.col1, Vec3.normSq,
      Vec3.dot]
  obtain ⟨_, h2, h3, h4⟩ := orbit_about_pivot orbitMath 1 ⟨1, 2⟩ orbitView (by decide)
  have hR := h3 htx hty h0 h1
  have hRv : (orbitRotation orbitMath 1 ⟨1, 2⟩ orbitView).toRotationMatrix =
      ⟨⟨-527 / 625, 0, 336 / 625⟩, ⟨8064 / 15625, -7 / 25, 12648 / 15625⟩,
        ⟨2352 / 15625, 24 / 25, 3689 / 15625⟩⟩ := by
    rw [hR]
    norm_num [rotationAboutAxis, Mat3.mul, Mat3.col0, Mat3.col1, Mat3.col2, Vec3.dot, Vec3.neg,
      orbitMath, orbitView, demoViewFields, Affine3.linear]
  refine ⟨hRv, ?_, ?_⟩
  · rw [(h2 (by simp)).1, hRv]
    norm_num [orbitView, demoViewFields, Affine3.mul, Affine3.apply, Affine3.translation,
      Affine3.ofLinear, Affine3.rowMul, Vec3.add, Vec3.sub, Vec3.smul, Vec3.dot, Vec3.neg]
  · have h := h4 htx.1 hty.1 h0 h1
    have hp : orbitView.offset_to_rot_center = ⟨1, 2, 3⟩ := rfl
    rw [hp] at h
    rw [h]
    norm_num [orbitView, demoViewFields, Vec3.normSq, Vec3.dot, Vec3.sub]

/-- C29. A middle drag with a zero cursor move leaves the view as it is. A middle drag with
a non-zero move `diff` and a wheel step `yoffset` set the linear part of the camera pose to
the camera rotation, and move the camera position by
`trans_speed * (-diff.x * x_axis + diff.y * y_axis)` and by
`-yoffset * wheel_speed * z_axis`, where the axes are the columns 0, 1 and 2 of the camera
rotation. The camera rotation is therefore unchanged (the rotation of a pose whose linear
part is a rotation being that linear part), and for a rigid pose, whose rotation is its
linear part, the whole linear part is unchanged: the camera is only translated, along its
own axes. -/
theorem pan_zoom_translate_only (mx : MathExternals) (diff : Vec2) (yoffset : ℚ)
    (view : SplitViewFields) :
    (panDrag mx ⟨0, 0⟩ view = view) ∧
    (diff ≠ ⟨0, 0⟩ →
      (panDrag mx diff view).camera.c2w.linear = mx.rotation view.camera.c2w ∧
      (panDrag mx diff view).camera.c2w.t =
        view.camera.c2w.t.add (Vec3.smul view.trans_speed
          ((Vec3.smul (-diff.x) (mx.rotation view.camera.c2w).col0).add
            (Vec3.smul diff.y (mx.rotation view.camera.c2w).col1)))) ∧
    ((wheelZoom mx yoffset view).camera.c2w.linear = mx.rotation view.camera.c2w ∧
      (wheelZoom mx yoffset view).camera.c2w.t =
        view.camera.c2w.t.add
          (Vec3.smul (-yoffset * view.wheel_speed) (mx.rotation view.camera.c2w).col2)) ∧
    ((∀ t, mx.rotation (Affine3.ofLinear (mx.rotation view.camera.c2w) t) =
        mx.rotation view.camera.c2w) →
      mx.rotation (panDrag mx diff view).camera.c2w = mx.rotation view.camera.c2w ∧
      mx.rotation (wheelZoom mx yoffset view).camera.c2w = mx.rotation view.camera.c2w) ∧
    (mx.rotation view.camera.c2w = view.camera.c2w.linear →
      (panDrag mx diff view).camera.c2w.linear = view.camera.c2w.linear ∧
      (wheelZoom mx yoffset view).camera.c2w.linear = view.camera.c2w.linear ∧
      (panDrag mx diff view).camera.c2w.t =
        view.camera.c2w.t.add (Vec3.smul view.trans_speed
          ((Vec3.smul (-diff.x) view.camera.c2w.linear.col0).add
            (Vec3.smul diff.y view.camera.c2w.linear.col1))) ∧
      (wheelZoom mx yoffset view).camera.c2w.t =
        view.camera.c2w.t.add
          (Vec3.smul (-yoffset * view.wheel_speed) view.camera.c2w.linear.col2)) := by
  have hzero : panDrag mx ⟨0, 0⟩ view = view := by
    have hn : ¬ ((⟨0, 0⟩ : Vec2).normGt drag_th = true) := by
      rw [normGt_drag_th_iff]
      simp
    simp only [panDrag, if_neg hn]
  have hpan : diff ≠ ⟨0, 0⟩ →
      (panDrag mx diff view).camera.c2w.linear = mx.rotation view.camera.c2w ∧
      (panDrag mx diff view).camera.c2w.t =
        view.camera.c2w.t.add (Vec3.smul view.trans_speed
          ((Vec3.smul (-diff.x) (mx.rotation view.camera.c2w).col0).add
            (Vec3.smul diff.y (mx.rotation view.camera.c2w).col1))) := by
    intro hd
    simp only [panDrag, if_pos ((normGt_drag_th_iff diff).mpr hd)]
    refine ⟨rfl, ?_⟩
    simp only [Affine3.ofLinear, Vec3.add, Vec3.smul, Vec3.neg, Mat3.col0, Mat3.col1,
      Vec3.mk.injEq]
    refine ⟨by ring, by ring, by ring⟩
  have hzoom : (wheelZoom mx yoffset view).camera.c2w.linear = mx.rotation view.camera.c2w ∧
      (wheelZoom mx yoffset view).camera.c2w.t =
        view.camera.c2w.t.add
          (Vec3.smul (-yoffset * view.wheel_speed) (mx.rotation view.camera.c2w).col2) := by
    refine ⟨rfl, ?_⟩
    simp only [wheelZoom, Affine3.ofLinear, Vec3.add, Vec3.smul, Mat3.col2, Vec3.mk.injEq]
    refine ⟨by ring, by ring, by ring⟩
  refine ⟨hzero, hpan, hzoom, ?_, ?_⟩
  · intro hidem
    constructor
    · by_cases hd : diff = ⟨0, 0⟩
      · rw [hd, hzero]
      · simp only [panDrag, if_pos ((normGt_drag_th_iff diff).mpr hd)]
        exact hidem _
    · exact hidem _
  intro hrigid
  by_cases hd : diff = ⟨0, 0⟩
  · refine ⟨by rw [hd, hzero], hzoom.1.trans hrigid, ?_, by rw [← hrigid]; exact hzoom.2⟩
    rw [hd, hzero]
    simp only [Vec3.add, Vec3.smul, neg_zero, zero_mul, mul_zero, add_zero]
  · exact ⟨(hpan hd).1.trans hrigid, hzoom.1.trans hrigid, by rw [← hrigid]; exact (hpan hd).2,
      by rw [← hrigid]; exact hzoom.2⟩

/-- C29 (witness). The demo camera at `(0, 0, 5)` with unit speeds: a middle drag by 20
pixels to the right moves it to `(-20, 0, 5)`, a wheel step of 2 moves it to `(0, 0, 3)`,
and the linear part of the pose stays the identity. -/
theorem pan_zoom_translate_only_witness :
    (panDrag demoMath ⟨20, 0⟩ (demoViewFields 0)).camera.c2w =
        ⟨⟨1, 0, 0⟩, ⟨0, 1, 0⟩, ⟨0, 0, 1⟩, ⟨-20, 0, 5⟩⟩ ∧
      (wheelZoom demoMath 2 (demoViewFields 0)).camera.c2w =
        ⟨⟨1, 0, 0⟩, ⟨0, 1, 0⟩, ⟨0, 0, 1⟩, ⟨0, 0, 3⟩⟩ := by
  obtain ⟨h1, h2, h3, h4⟩ :=
    (pan_zoom_translate_only demoMath ⟨20, 0⟩ 2 (demoViewFields 0)).2.2.2.2 rfl
  have hlin : ∀ T : Affine3, T = ⟨T.linear.r0, T.linear.r1, T.linear.r2, T.t⟩ := fun T => rfl
  constructor
  · rw [hlin (panDrag demoMath ⟨20, 0⟩ (demoViewFields 0)).camera.c2w, h1, h3]
    norm_num [demoViewFields, Affine3.linear, Mat3.col0, Mat3.col1, Vec3.add, Vec3.smul]
  · rw [hlin (wheelZoom demoMath 2 (demoViewFields 0)).camera.c2w, h2, h4]
    norm_num [demoViewFields, Affine3.linear, Mat3.col2, Vec3.add, Vec3.smul]

/-! ## Claims on the routing of drags and wheel steps -/

theorem find_range_spec (p : Nat → Bool) (n : Nat) :
    (∀ v, (List.range n).find? p = some v →
      v < n ∧ p v = true ∧ ∀ u, u < v → p u = false) ∧
    ((List.range n).find? p = none → ∀ u, u < n → p u = false) := by
  induction n with
  | zero =>
    refine ⟨fun v h => ?_, fun _ u hu => absurd hu (Nat.not_lt_zero u)⟩
    simp at h
  | succ n ih =>
    obtain ⟨ih1, ih2⟩ := ih
    rw [List.range_succ, List.find?_append]
    cases hf : (List.range n).find? p with
    | some w =>
      obtain ⟨a1, a2, a3⟩ := ih1 w hf
      refine ⟨fun v h => ?_, fun h => ?_⟩
      · have h' : some w = some v := h
        cases h'
        exact ⟨by omega, a2, a3⟩
      · have h' : some w = none := h
        cases h'
    | none =>
      have hnone := ih2 hf
      cases hp : p n with
      | true =>
        refine ⟨fun v h => ?_, fun h => ?_⟩
        · have h' : List.find? p [n] = some v := h
          simp only [List.find?_cons, hp, Option.some.injEq] at h'
          subst h'
          exact ⟨by omega, hp, hnone⟩
        · have h' : List.find? p [n] = none := h
          simp [hp] at h'
      | false =>
        refine ⟨fun v h => ?_, fun _ u hu => ?_⟩
        · have h' : List.find? p [n] = some v := h
          simp [hp] at h'
        · by_cases hun : u = n
          · rw [hun]; exact hp
          · exact hnone u (by omega)

theorem processDrags_guard (d0 : IntersectResult) (n : Nat) (g_views : List SplitViewInfo)
    (want_capture_mouse : Bool) (s s' : InputGlobals)
    (h : ProcessDrags d0 n g_views want_capture_mouse s = some s')
    (hne : s'.g_selected_positions ≠ s.g_selected_positions) :
    want_capture_mouse = false ∧ s.g_subwindow_id ≠ NONE_ID ∧
      s.g_subwindow_id = s.g_prev_subwindow_id := by
  unfold ProcessDrags at h
  by_cases hw : want_capture_mouse = true
  · rw [if_pos hw] at h
    cases h
    exact absurd rfl hne
  rw [if_neg hw] at h
  by_cases hg : s.g_subwindow_id ≠ NONE_ID ∧ s.g_subwindow_id = s.g_prev_subwindow_id
  · exact ⟨by simpa using hw, hg.1, hg.2⟩
  · rw [if_neg hg] at h
    cases h
    exact absurd rfl hne

theorem processDragsViews_guard (mx : MathExternals) (want_capture_mouse : Bool)
    (s : DragGlobals) (views' : List SplitViewFields)
    (h : ProcessDragsViews mx want_capture_mouse s = some views') :
    views'.length = s.g_views.length ∧
      (∀ j, j ≠ s.g_subwindow_id → views'[j]? = s.g_views[j]?) ∧
      (views' ≠ s.g_views → want_capture_mouse = false ∧ s.g_subwindow_id ≠ NONE_ID ∧
        s.g_subwindow_id = s.g_prev_subwindow_id) ∧
      ((want_capture_mouse = false ∧ s.g_subwindow_id ≠ NONE_ID ∧
        s.g_subwindow_id = s.g_prev_subwindow_id) → s.g_subwindow_id < s.g_views.length) := by
  unfold ProcessDragsViews at h
  by_cases hw : want_capture_mouse = true
  · rw [if_pos hw] at h
    cases h
    refine ⟨rfl, fun _ _ => rfl, fun hne => absurd rfl hne, fun hg => ?_⟩
    rw [hg.1] at hw
    cases hw
  rw [if_neg hw] at h
  by_cases hg : s.g_subwindow_id ≠ NONE_ID ∧ s.g_subwindow_id = s.g_prev_subwindow_id
  · rw [if_pos hg] at h
    cases hv : s.g_views[s.g_subwindow_id]? with
    | none => rw [hv] at h; cases h
    | some view =>
      rw [hv] at h
      simp only [Option.some.injEq] at h
      subst h
      have hlt : s.g_subwindow_id < s.g_views.length := by
        by_contra hcon
        rw [List.getElem?_eq_none (not_lt.mp hcon)] at hv
        cases hv
      exact ⟨List.length_set _ _ _, fun j hj => List.getElem?_set_ne (Ne.symm hj),
        fun _ => ⟨by simpa using hw, hg.1, hg.2⟩, fun _ => hlt⟩
  · rw [if_neg hg] at h
    cases h
    exact ⟨rfl, fun _ _ => rfl, fun hne => absurd rfl hne, fun hg' => absurd ⟨hg'.2.1, hg'.2.2⟩ hg⟩

theorem cursor_pos_callback_view (x y : ℚ) (s s1 : DragGlobals)
    (h : cursor_pos_callback x y s = some s1) :
    s1.g_prev_subwindow_id = s.g_subwindow_id ∧ s1.g_width = s.g_width ∧
      s1.g_height = s.g_height ∧ s1.g_views = s.g_views ∧
      s1.g_prev_cursor_pos = s.g_cursor_pos ∧ s1.g_cursor_pos = ⟨x, y⟩ ∧
      s1.g_selected_positions = s.g_selected_positions ∧
      ∀ col, castUint32 x = some col →
        ((firstViewUnderCursor s.g_width s.g_views.length col = none ∨
            s.g_views.length % 4294967296 = 0) → s1.g_subwindow_id = s.g_subwindow_id) ∧
        (s.g_views.length % 4294967296 ≠ 0 →
          ∀ v, firstViewUnderCursor s.g_width s.g_views.length col = some v →
            s1.g_subwindow_id = v) := by
  unfold cursor_pos_callback at h
  simp only at h
  by_cases h0 : s.g_views.length % 4294967296 = 0
  · rw [if_pos h0] at h
    simp only [Option.some.injEq] at h
    subst h
    exact ⟨rfl, rfl, rfl, rfl, rfl, rfl, rfl, fun col _ => ⟨fun _ => rfl, fun hne => absurd h0 hne⟩⟩
  · rw [if_neg h0] at h
    cases hc : castUint32 x with
    | none => rw [hc] at h; cases h
    | some col =>
      rw [hc] at h
      simp only at h
      cases hf : firstViewUnderCursor s.g_width s.g_views.length col with
      | none =>
        rw [hf] at h
        simp only [Option.some.injEq] at h
        subst h
        refine ⟨rfl, rfl, rfl, rfl, rfl, rfl, rfl, fun col' hcol' => ?_⟩
        cases hcol'
        exact ⟨fun _ => rfl, fun _ v hv => by rw [hf] at hv; cases hv⟩
      | some vidx =>
        rw [hf] at h
        simp only [Option.some.injEq] at h
        subst h
        refine ⟨rfl, rfl, rfl, rfl, rfl, rfl, rfl, fun col' hcol' => ?_⟩
        cases hcol'
        refine ⟨fun hor => ?_, fun _ v hv => ?_⟩
        · rcases hor with h1 | h1
          · rw [hf] at h1; cases h1
          · exact absurd h1 h0
        · rw [hf] at hv
          cases hv
          rfl

/-- C22 (counterexample). In a window 1921 wide with two views, with the middle button held
and the cursor in view 1, a pointer move to column 1920, which lies in no view's strip,
leaves the current view at 1; the next `ProcessDrags` applies the pan to view 1 and moves
its camera from `(0, 0, 5)` to `(-20, 0, 5)`. -/
theorem drag_applied_outside_every_strip :
    IsCursorOnView 1921 2 1920 0 = false ∧ IsCursorOnView 1921 2 1920 1 = false ∧
      ∃ s1, cursor_pos_callback 1920 100 demoDrag = some s1 ∧ s1.g_subwindow_id = 1 ∧
        ∃ views', ProcessDragsViews demoMath false s1 = some views' ∧
          (demoDrag.g_views[1]?).map (fun view => view.camera.c2w.t) = some ⟨0, 0, 5⟩ ∧
          (views'[1]?).map (fun view => view.camera.c2w.t) = some ⟨-20, 0, 5⟩ := by
  refine ⟨by decide, by decide, ?_⟩
  have hcol : castUint32 1920 = some 1920 := by
    simp only [castUint32]
    norm_num
    rfl
  have hfirst : firstViewUnderCursor 1921 2 1920 = none := by decide
  have hpos : cursor_pos_callback 1920 100 demoDrag = some { demoDrag with
      g_prev_cursor_pos := ⟨1900, 100⟩
      g_cursor_pos := ⟨1920, 100⟩
      g_to_process_drag_m := true
      g_prev_subwindow_id := 1 } := by
    unfold cursor_pos_callback
    have hlen : demoDrag.g_views.length = 2 := rfl
    have hw : demoDrag.g_width = 1921 := rfl
    simp only [hlen, hw, hcol, hfirst]
    rfl
  refine ⟨_, hpos, rfl, ?_⟩
  refine ⟨[demoViewFields 0, panDrag demoMath ⟨20, 0⟩ (demoViewFields 1)], ?_, rfl, ?_⟩
  · simp only [ProcessDragsViews]
    norm_num [demoDrag, NONE_ID, Vec2.sub]
  · have hn : (⟨20, 0⟩ : Vec2).normGt drag_th = true := by
      rw [normGt_drag_th_iff]
      simp
    simp only [panDrag, if_pos hn, List.getElem?_cons_succ, List.getElem?_cons_zero,
      Option.map_some', Option.some.injEq]
    norm_num [demoMath, demoViewFields, Affine3.ofLinear, Affine3.linear, Mat3.col0, Mat3.col1,
      Vec3.add, Vec3.smul, Vec3.neg]

/-- C22 (amended). After a pointer move, `ProcessDrags` changes no view other than the stored
current view `g_subwindow_id`, and it changes that view or a correspondence list only when
the mouse is not captured by the UI, the stored view is not `~0u` and it equals the view
stored before the move. The stored view after a move is the first view whose strip holds
the cursor column when there is one; when the column lies in no strip the stored view is the
one from before the move, so that a pending drag or wheel step is still applied to it. -/
theorem drag_routed_to_stored_view (mx : MathExternals) (d0 : IntersectResult) (n : Nat)
    (g_views : List SplitViewInfo) (want_capture_mouse : Bool) (x y : ℚ) (col : Nat)
    (s s1 : DragGlobals) (views' : List SplitViewFields) (input' : InputGlobals)
    (hcol : castUint32 x = some col)
    (hpos : cursor_pos_callback x y s = some s1)
    (hviews : ProcessDragsViews mx want_capture_mouse s1 = some views')
    (hinput : ProcessDrags d0 n g_views want_capture_mouse s1.toInputGlobals = some input') :
    (∀ j, j ≠ s1.g_subwindow_id → views'[j]? = s.g_views[j]?) ∧
    views'.length = s.g_views.length ∧
    ((views' ≠ s.g_views ∨ input'.g_selected_positions ≠ s.g_selected_positions) →
      want_capture_mouse = false ∧ s1.g_subwindow_id ≠ NONE_ID ∧
      s1.g_subwindow_id = s.g_subwindow_id ∧ s1.g_subwindow_id < s.g_views.length) ∧
    ((∃ v, v < s.g_views.length % 4294967296 ∧
        IsCursorOnView s.g_width s.g_views.length col v = true) →
      s1.g_subwindow_id < s.g_views.length % 4294967296 ∧
      IsCursorOnView s.g_width s.g_views.length col s1.g_subwindow_id = true ∧
      ∀ u, u < s1.g_subwindow_id → IsCursorOnView s.g_width s.g_views.length col u = false) ∧
    ((∀ v, v < s.g_views.length % 4294967296 →
        IsCursorOnView s.g_width s.g_views.length col v = false) →
      s1.g_subwindow_id = s.g_subwindow_id) := by
  obtain ⟨c1, _, _, c4, _, _, c7, c8⟩ := cursor_pos_callback_view x y s s1 hpos
  obtain ⟨c8a, c8b⟩ := c8 col hcol
  obtain ⟨g1, g2, g3, g4⟩ := processDragsViews_guard mx want_capture_mouse s1 views' hviews
  rw [c4] at g1 g2 g3 g4
  rw [c1] at g3 g4
  obtain ⟨f1, f2⟩ := find_range_spec
    (fun vidx => IsCursorOnView s.g_width s.g_views.length col vidx)
    (s.g_views.length % 4294967296)
  refine ⟨g2, g1, ?_, ?_, ?_⟩
  · intro hchange
    have hguard : want_capture_mouse = false ∧ s1.g_subwindow_id ≠ NONE_ID ∧
        s1.g_subwindow_id = s.g_subwindow_id := by
      rcases hchange with hv | hsel
      · exact g3 hv
      · have h := processDrags_guard d0 n g_views want_capture_mouse _ input' hinput
          (by rw [c7]; exact hsel)
        exact ⟨h.1, h.2.1, h.2.2.trans c1⟩
    exact ⟨hguard.1, hguard.2.1, hguard.2.2, g4 hguard⟩
  · rintro ⟨v, hv, hon⟩
    have h0 : s.g_views.length % 4294967296 ≠ 0 := by omega
    cases hf : firstViewUnderCursor s.g_width s.g_views.length col with
    | none =>
      have := f2 hf v hv
      rw [this] at hon
      cases hon
    | some w =>
      have hw := c8b h0 w hf
      obtain ⟨a1, a2, a3⟩ := f1 w hf
      rw [hw]
      exact ⟨a1, a2, a3⟩
  · intro hall
    by_cases h0 : s.g_views.length % 4294967296 = 0
    · exact c8a (Or.inr h0)
    · cases hf : firstViewUnderCursor s.g_width s.g_views.length col with
      | none => exact c8a (Or.inl hf)
      | some w =>
        obtain ⟨a1, a2, _⟩ := f1 w hf
        have := hall w a1
        rw [this] at a2
        cases a2

/-- C22 (witness). In the window 1920 wide with two views and the middle button held, a
pointer move to column 1000 stores view 1, whose strip holds the column, and the next
`ProcessDrags` leaves view 0 as it was. -/
theorem drag_routed_to_stored_view_witness :
    ∃ s1 views', cursor_pos_callback 1000 100 demoWindow = some s1 ∧
      ProcessDragsViews demoMath false s1 = some views' ∧
      s1.g_subwindow_id = 1 ∧ IsCursorOnView 1920 2 1000 s1.g_subwindow_id = true ∧
      views'[0]? = demoWindow.g_views[0]? := by
  have hcol : castUint32 1000 = some 1000 := by
    simp only [castUint32]
    norm_num
    rfl
  have hfirst : firstViewUnderCursor 1920 2 1000 = some 1 := by decide
  have hpos : cursor_pos_callback 1000 100 demoWindow = some demoMoved := by
    unfold cursor_pos_callback
    have hlen : demoWindow.g_views.length = 2 := rfl
    have hw : demoWindow.g_width = 1920 := rfl
    simp only [hlen, hw, hcol, hfirst]
    rfl
  have hviews : ProcessDragsViews demoMath false demoMoved =
      some [demoViewFields 0, panDrag demoMath ⟨-900, 0⟩ (demoViewFields 1)] := by
    simp only [ProcessDragsViews]
    norm_num [demoMoved, demoWindow, demoDrag, NONE_ID, Vec2.sub]
  obtain ⟨input', hinput⟩ := processDrags_returns demoD0 0 [demoView, demoView] false
    demoMoved.toInputGlobals demoView rfl
  obtain ⟨h1, _, _, h4, _⟩ := drag_routed_to_stored_view demoMath demoD0 0 [demoView, demoView]
    false 1000 100 1000 demoWindow demoMoved _ input' hcol hpos hviews hinput
  exact ⟨_, _, hpos, hviews, rfl, (h4 ⟨1, by decide, by decide⟩).2.1, h1 0 (by decide)⟩

/-! ## Claims on the ownership of the stored points -/

theorem pointsOf_owned (sel : SelectedPositions) (k : Nat) (h0 : OwnsEntries sel) :
    ∀ r ∈ pointsOf sel k, r.min_geoid = k := by
  intro r hr
  unfold pointsOf at hr
  cases hk : sel k with
  | none =>
    rw [hk] at hr
    cases hr
  | some points =>
    rw [hk] at hr
    exact h0 k points hk r hr

theorem ownsEntries_update (sel : SelectedPositions) (k : Nat) (l : List CastRayResult)
    (h0 : OwnsEntries sel) (hl : ∀ r ∈ l, r.min_geoid = k) :
    OwnsEntries (Function.update sel k (some l)) := by
  intro j points hj r hr
  by_cases hjk : j = k
  · subst hjk
    rw [Function.update_same] at hj
    cases hj
    exact hl r hr
  · rw [Function.update_noteq hjk] at hj
    exact h0 j points hj r hr

theorem selStep_owned (d0 : IntersectResult) (n : Nat) (sel sel' : SelectedPositions)
    (hstep : SelStep d0 n sel sel') (h0 : OwnsEntries sel) : OwnsEntries sel' := by
  cases hstep with
  | press g_views s s' h =>
    unfold mouse_button_callback at h
    simp only [if_true] at h
    cases hv : g_views[s.g_subwindow_id]? with
    | none => rw [hv] at h; cases h
    | some this_view =>
      rw [hv] at h
      simp only at h
      by_cases hnc : (if (CastRay d0 n this_view).min_geoid ≠ NONE_ID ∧
          this_view.visibility (CastRay d0 n this_view).min_geoid = true then
          !(FindClosestSelectedPoint n s.g_selected_positions this_view).is_close
          else false) = true
      · rw [if_pos hnc] at h
        cases h
        apply ownsEntries_update _ _ _ h0
        intro r hr
        simp only [pushBack, List.mem_append, List.mem_singleton] at hr
        rcases hr with hr | hr
        · exact pointsOf_owned _ _ h0 r hr
        · rw [hr]
      · rw [if_neg hnc] at h
        cases h
        exact h0
  | drag g_views want_capture_mouse s s' h =>
    unfold ProcessDrags at h
    split at h
    · cases h
      exact h0
    · split at h
      · cases hv : g_views[s.g_subwindow_id]? with
        | none => rw [hv] at h; cases h
        | some view =>
          rw [hv] at h
          simp only [Option.some.injEq] at h
          subst h
          simp only
          split
          · split
            · split
              · rename_i hc
                apply ownsEntries_update _ _ _ h0
                intro r hr
                simp only [assignAt] at hr
                rcases List.mem_or_eq_of_mem_set hr with hr | hr
                · exact pointsOf_owned _ _ h0 r hr
                · rw [hr]
                  exact hc.1
              · exact h0
            · exact h0
          · exact h0
      · cases h
        exact h0
  | panel i selected_point_idx select_click remove_click =>
    apply ownsEntries_update _ _ _ h0
    intro r hr
    apply pointsOf_owned _ _ h0 r
    simp only [pointsPanelPass] at hr
    split at hr
    · simp only [removeAt] at hr
      split at hr
      · exact List.mem_of_mem_eraseIdx hr
      · exact hr
    · exact hr
  | import_points LoadPoints i path pof_type s =>
    unfold importButton
    split
    · exact h0
    · simp only
      split
      · apply ownsEntries_update _ _ _ h0
        intro r hr
        rw [importRecords_eq_map, List.mem_map] at hr
        obtain ⟨pof, _, hpof⟩ := hr
        rw [← hpof]
        rfl
      · exact h0

theorem mapM_option_congr {α β : Type} (f g : α → Option β) (l : List α)
    (h : ∀ a ∈ l, f a = g a) : l.mapM f = l.mapM g := by
  induction l with
  | nil => rw [List.mapM_nil, List.mapM_nil]
  | cons a rest ih =>
    simp only [List.mapM_cons]
    rw [h a (List.mem_cons_self a rest), ih (fun b hb => h b (List.mem_cons_of_mem a hb))]

/-- C30. From correspondence lists in which every entry of the list of mesh `k` carries
`min_geoid = k` (as the empty lists that `LoadMesh` creates), every sequence of right
presses, frames of `ProcessDrags`, passes of the points panel with or without `Remove`, and
presses of `Import` leaves lists with the same property; hence `ExtractPos` evaluates every
entry of the list of mesh `k` by `GetPos` on mesh `k` itself. -/
theorem stored_entries_owned_by_mesh (d0 : IntersectResult) (n : Nat)
    (sel sel' : SelectedPositions) (h0 : OwnsEntries sel)
    (hsteps : Relation.ReflTransGen (SelStep d0 n) sel sel') :
    OwnsEntries sel' ∧
      ∀ (app : AppState) (k : Nat) (points : List CastRayResult), k < 4294967296 →
        sel' k = some points →
        ExtractPos app points = points.mapM (fun res => GetPos app res.intersection k) := by
  have hown : OwnsEntries sel' := by
    induction hsteps with
    | refl => exact h0
    | tail _ hstep ih => exact selStep_owned d0 n _ _ hstep ih
  refine ⟨hown, ?_⟩
  intro app k points hk hpoints
  unfold ExtractPos
  apply mapM_option_congr
  intro r hr
  rw [hown k points hpoints r hr, Nat.mod_eq_of_lt hk]

/-- C30 (witness). From the lists of `farSel`, a right press in `demoView` and then an
`Import` of two records for mesh 0 leave lists whose entries carry the index of their
mesh. -/
theorem stored_entries_owned_by_mesh_witness :
    OwnsEntries (importButton demoD0 goodLoadPoints 0 "points.json" .POINT_ON_TRIANGLE
      (demoImport ((mouse_button_callback demoD0 3 [demoView] .RIGHT true
        (demoInput farSel)).getD (demoInput farSel)).g_selected_positions)).g_selected_positions := by
  have hfar : OwnsEntries farSel := by
    intro k points hk r hr
    simp only [farSel] at hk
    split at hk
    · cases hk
      simp only [List.mem_singleton] at hr
      rw [hr]
      rename_i h1
      rw [h1]
      rfl
    · split at hk
      · cases hk
        cases hr
      · cases hk
  have hsome : (mouse_button_callback demoD0 3 [demoView] .RIGHT true
      (demoInput farSel)).isSome = true := by decide
  cases h : mouse_button_callback demoD0 3 [demoView] .RIGHT true (demoInput farSel) with
  | none => rw [h] at hsome; cases hsome
  | some s' =>
    simp only [Option.getD_some]
    exact (stored_entries_owned_by_mesh demoD0 3 farSel _ hfar
      (Relation.ReflTransGen.tail
        (Relation.ReflTransGen.single (SelStep.press [demoView] (demoInput farSel) s' h))
        (SelStep.import_points goodLoadPoints 0 "points.json" .POINT_ON_TRIANGLE
          (demoImport s'.g_selected_positions)))).1

/-! ## Claims on a Run pressed while a job is active -/

end Devenir
